import Mathlib

/-!
# box2d-lite narrow phase (`src/Collide.cpp`): shallow embedding

The routines are embedded over an arbitrary type `F` standing for the C++ `float`,
with the operations and comparisons the code uses (`+ - * /`, unary minus, `<`, `≤`,
the literals `0`, `1` and decimal literals) as parameters; every definition is
computable.  Two readings of `F` are used below.

* Exact arithmetic: `F` is any linearly ordered field (no rounding, no NaN), and the
  routines can be run at `F = ℚ`.  A theorem stated for a linearly ordered field is a
  theorem about the routine with every operation read as the exact one.
* Binary32 arithmetic: `F = F32`, the IEEE 754 single-precision format with
  round-to-nearest-even, signed zeros, subnormals, infinities and NaN, each operation
  rounded once.  A theorem stated for an arbitrary `F`, with the arithmetic facts it
  uses listed as hypotheses, holds in both readings.

The C math library (`cosf`, `sinf`, `sqrtf`) is not part of the repository and is
passed in as the record `Libm`.  The headers `MathUtils.h`, `Body.h` and `Arbiter.h`
are not among the sources; the few declarations the collision routines use from them
are modelled below and marked as such.

A routine that writes into the caller's `Contact* contacts` buffer and into the two
bodies is embedded as a function from the buffer and the bodies to an `Outcome`:
the returned `int`, the buffer after the call and the two bodies after the call.
The buffer is a function from the slot index to the `Contact` stored there, so that
a write past any capacity would show; the two bodies are taken to be distinct
objects.  The constants `0.95f` and `0.01f` are the decimal literals `0.95` and
`0.01` of `F`: the exact decimals in a field, the nearest binary32 numbers in `F32`.
-/

namespace Box2DLite

/-! ## Declarations used from the missing headers -/

/-- Modelled from the spec: the `Vec2` value type of `MathUtils.h` (an (x, y) pair). -/
structure Vec2 (F : Type) where
  x : F
  y : F
deriving DecidableEq

/-- Modelled from the spec: the `Mat22` type of `MathUtils.h`, stored by columns. -/
structure Mat22 (F : Type) where
  col1 : Vec2 F
  col2 : Vec2 F
deriving DecidableEq

/-- The C math library functions the sources call; they are parameters of the model. -/
structure Libm (F : Type) where
  cosf : F → F
  sinf : F → F
  sqrtf : F → F

section MathUtils

variable {F : Type} [Zero F] [One F] [Add F] [Sub F] [Mul F] [Div F] [Neg F] [LT F] [LE F]
  [DecidableRel (fun a b : F => a < b)] [DecidableRel (fun a b : F => a ≤ b)] [OfScientific F]

/-! Modelled from the spec: `operator +`, `operator -` and unary minus on `Vec2`. -/

instance : Add (Vec2 F) := ⟨fun a b => ⟨a.x + b.x, a.y + b.y⟩⟩
instance : Sub (Vec2 F) := ⟨fun a b => ⟨a.x - b.x, a.y - b.y⟩⟩
instance : Neg (Vec2 F) := ⟨fun a => ⟨-a.x, -a.y⟩⟩

/-- Modelled from the spec: `operator * (float, Vec2)` of `MathUtils.h` (scaling). -/
def smul (s : F) (v : Vec2 F) : Vec2 F := ⟨s * v.x, s * v.y⟩

/-- Modelled from the spec: `Dot(Vec2, Vec2)` of `MathUtils.h`. -/
def Dot (a b : Vec2 F) : F := a.x * b.x + a.y * b.y

/-- Modelled from the spec: `Abs(float)` of `MathUtils.h`, `a > 0 ? a : -a`. -/
def Absf (a : F) : F := if a > 0 then a else -a

/-- Modelled from the spec: `Abs(Vec2)` of `MathUtils.h`, componentwise. -/
def Abs (a : Vec2 F) : Vec2 F := ⟨Absf a.x, Absf a.y⟩

/-- Modelled from the spec: `Sign(float)` of `MathUtils.h`, `x < 0 ? -1 : 1` (zero
counts as positive). -/
def Sign (x : F) : F := if x < 0 then -1 else 1

/-- Modelled from the spec: `Vec2::Length` of `MathUtils.h`. -/
def Vec2.Length (m : Libm F) (v : Vec2 F) : F := m.sqrtf (v.x * v.x + v.y * v.y)

/-- Modelled from the spec: `Vec2::Normalize` of `MathUtils.h`: the vector scaled by
the inverse of its length. -/
def Vec2.Normalize (m : Libm F) (v : Vec2 F) : Vec2 F := smul (1 / v.Length m) v

/-- Modelled from the spec: the constructor `Mat22(float angle)` of `MathUtils.h`. -/
def Mat22.ofAngle (m : Libm F) (angle : F) : Mat22 F :=
  let c := m.cosf angle
  let s := m.sinf angle
  ⟨⟨c, s⟩, ⟨-s, c⟩⟩

/-- Modelled from the spec: `Mat22::Transpose` of `MathUtils.h`. -/
def Mat22.Transpose (A : Mat22 F) : Mat22 F :=
  ⟨⟨A.col1.x, A.col2.x⟩, ⟨A.col1.y, A.col2.y⟩⟩

/-- Modelled from the spec: `operator * (Mat22, Vec2)` of `MathUtils.h`. -/
def Mat22.mulVec (A : Mat22 F) (v : Vec2 F) : Vec2 F :=
  ⟨A.col1.x * v.x + A.col2.x * v.y, A.col1.y * v.x + A.col2.y * v.y⟩

/-- Modelled from the spec: `operator * (Mat22, Mat22)` of `MathUtils.h`. -/
def Mat22.mul (A B : Mat22 F) : Mat22 F := ⟨A.mulVec B.col1, A.mulVec B.col2⟩

/-- Modelled from the spec: `Abs(Mat22)` of `MathUtils.h`, componentwise. -/
def Mat22.Abs (A : Mat22 F) : Mat22 F := ⟨Box2DLite.Abs A.col1, Box2DLite.Abs A.col2⟩

end MathUtils

/-- Modelled from the spec: the shape kinds of `Body.h` the dispatcher tests. -/
inductive Shape where
  | box
  | circle
  | triangle
deriving DecidableEq

/-- Modelled from the spec: the fields of `Body` (`Body.h`) the collision routines
read or write. -/
structure Body (F : Type) where
  position : Vec2 F
  rotation : F
  width : Vec2 F
  shape : Shape
  isItem : Bool
  isJump : Bool
deriving DecidableEq

/-- Modelled from the spec: `FeaturePair` of `Arbiter.h`, a union of four `char`
edge fields with one `int value`. -/
structure FeaturePair where
  inEdge1 : Nat
  outEdge1 : Nat
  inEdge2 : Nat
  outEdge2 : Nat
deriving DecidableEq

/-- Modelled from the spec: the `value` member of the union: the four edge bytes
packed into one integer (first field in the low byte). -/
def FeaturePair.value (fp : FeaturePair) : Nat :=
  fp.inEdge1 + 256 * fp.outEdge1 + 65536 * fp.inEdge2 + 16777216 * fp.outEdge2

/-- Modelled from the spec: the fields of `Contact` (`Arbiter.h`) written here. -/
structure Contact (F : Type) where
  position : Vec2 F
  normal : Vec2 F
  separation : F
  feature : FeaturePair
deriving DecidableEq

/-! ## `Collide.cpp` -/

/-- The enumeration `Axis`. -/
inductive Axis where
  | FACE_A_X
  | FACE_A_Y
  | FACE_B_X
  | FACE_B_Y
deriving DecidableEq

def NO_EDGE : Nat := 0
def EDGE1 : Nat := 1
def EDGE2 : Nat := 2
def EDGE3 : Nat := 3
def EDGE4 : Nat := 4

/-- The struct `ClipVertex`. -/
structure ClipVertex (F : Type) where
  v : Vec2 F
  fp : FeaturePair
deriving DecidableEq

/-- The constructor `ClipVertex() { fp.value = 0; }`.  It leaves the point `v`
unassigned; the model puts the origin there, and no routine below reads the `v` of
a freshly constructed vertex before assigning it. -/
def ClipVertex.new {F : Type} [Zero F] : ClipVertex F := ⟨⟨0, 0⟩, ⟨0, 0, 0, 0⟩⟩

/-- The function `Flip`: swaps `inEdge1` with `inEdge2` and `outEdge1` with `outEdge2`. -/
def Flip (fp : FeaturePair) : FeaturePair :=
  { inEdge1 := fp.inEdge2, outEdge1 := fp.outEdge2, inEdge2 := fp.inEdge1, outEdge2 := fp.outEdge1 }

section Clip

variable {F : Type} [Zero F] [One F] [Add F] [Sub F] [Mul F] [Div F] [Neg F] [LT F] [LE F]
  [DecidableRel (fun a b : F => a < b)] [DecidableRel (fun a b : F => a ≤ b)] [OfScientific F]

/-- The local `distance0` of `ClipSegmentToLine`. -/
def distance0 (vIn : ClipVertex F × ClipVertex F) (normal : Vec2 F) (offset : F) : F :=
  Dot normal vIn.1.v - offset

/-- The local `distance1` of `ClipSegmentToLine`. -/
def distance1 (vIn : ClipVertex F × ClipVertex F) (normal : Vec2 F) (offset : F) : F :=
  Dot normal vIn.2.v - offset

/-- The local `interp` of `ClipSegmentToLine`, as computed inside the branch
`distance0 * distance1 < 0`. -/
def interp (vIn : ClipVertex F × ClipVertex F) (normal : Vec2 F) (offset : F) : F :=
  distance0 vIn normal offset / (distance0 vIn normal offset - distance1 vIn normal offset)

/-- The function `ClipSegmentToLine`.  The result lists the writes `vOut[numOut++] = ...`
in order, so its length is the returned `numOut` and its `k`-th entry is `vOut[k]`. -/
def ClipSegmentToLine (vIn : ClipVertex F × ClipVertex F) (normal : Vec2 F) (offset : F)
    (clipEdge : Nat) : List (ClipVertex F) :=
  let vOut : List (ClipVertex F) := []
  let d0 := distance0 vIn normal offset
  let d1 := distance1 vIn normal offset
  let vOut := if d0 ≤ 0 then vOut ++ [vIn.1] else vOut
  let vOut := if d1 ≤ 0 then vOut ++ [vIn.2] else vOut
  if d0 * d1 < 0 then
    let t := interp vIn normal offset
    let p := vIn.1.v + smul t (vIn.2.v - vIn.1.v)
    if d0 > 0 then
      vOut ++ [⟨p, { vIn.1.fp with inEdge1 := clipEdge, inEdge2 := NO_EDGE }⟩]
    else
      vOut ++ [⟨p, { vIn.2.fp with outEdge1 := clipEdge, outEdge2 := NO_EDGE }⟩]
  else vOut

end Clip

section Routines

variable {F : Type} [Zero F] [One F] [Add F] [Sub F] [Mul F] [Div F] [Neg F] [LT F] [LE F]
  [DecidableRel (fun a b : F => a < b)] [DecidableRel (fun a b : F => a ≤ b)] [OfScientific F]

/-- The function `ComputeIncidentEdge`; the array `c` is passed in and returned. -/
def ComputeIncidentEdge (c : ClipVertex F × ClipVertex F) (h pos : Vec2 F) (Rot : Mat22 F)
    (normal : Vec2 F) : ClipVertex F × ClipVertex F :=
  let RotT := Rot.Transpose
  let n := -(RotT.mulVec normal)
  let nAbs := Abs n
  let c : ClipVertex F × ClipVertex F :=
    if nAbs.x > nAbs.y then
      if Sign n.x > 0 then
        (⟨⟨h.x, -h.y⟩, { c.1.fp with inEdge2 := EDGE3, outEdge2 := EDGE4 }⟩,
         ⟨⟨h.x, h.y⟩, { c.2.fp with inEdge2 := EDGE4, outEdge2 := EDGE1 }⟩)
      else
        (⟨⟨-h.x, h.y⟩, { c.1.fp with inEdge2 := EDGE1, outEdge2 := EDGE2 }⟩,
         ⟨⟨-h.x, -h.y⟩, { c.2.fp with inEdge2 := EDGE2, outEdge2 := EDGE3 }⟩)
    else
      if Sign n.y > 0 then
        (⟨⟨h.x, h.y⟩, { c.1.fp with inEdge2 := EDGE4, outEdge2 := EDGE1 }⟩,
         ⟨⟨-h.x, h.y⟩, { c.2.fp with inEdge2 := EDGE1, outEdge2 := EDGE2 }⟩)
      else
        (⟨⟨-h.x, -h.y⟩, { c.1.fp with inEdge2 := EDGE2, outEdge2 := EDGE3 }⟩,
         ⟨⟨h.x, -h.y⟩, { c.2.fp with inEdge2 := EDGE3, outEdge2 := EDGE4 }⟩)
  (⟨pos + Rot.mulVec c.1.v, c.1.fp⟩, ⟨pos + Rot.mulVec c.2.v, c.2.fp⟩)

/-- What a collision routine leaves behind: the returned `int`, the `contacts`
buffer and the two bodies after the call. -/
structure Outcome (F : Type) where
  ret : Nat
  contacts : Nat → Contact F
  bodyA : Body F
  bodyB : Body F

/-- The constant `relativeTol = 0.95f`. -/
def relativeTol : F := 0.95

/-- The constant `absoluteTol = 0.01f`. -/
def absoluteTol : F := 0.01

/-- The locals `axis`, `separation`, `normal` of a collision routine. -/
structure BestAxis (F : Type) where
  axis : Axis
  separation : F
  normal : Vec2 F

/-- The clipping locals of a collision routine, as set by its `switch (axis)`. -/
structure ClipData (F : Type) where
  frontNormal : Vec2 F
  sideNormal : Vec2 F
  incidentEdge : ClipVertex F × ClipVertex F
  front : F
  negSide : F
  posSide : F
  negEdge : Nat
  posEdge : Nat

/-- Lines 186-219 of `BNBCollide` ("Find best axis"): the sequential updates of
`axis`, `separation` and `normal`. -/
def BNBCollide.bestAxis (hA hB : Vec2 F) (RotA RotB : Mat22 F) (dA dB faceA faceB : Vec2 F) :
    BestAxis F :=
  let b : BestAxis F := ⟨Axis.FACE_A_X, faceA.x, if dA.x > 0 then RotA.col1 else -RotA.col1⟩
  let b : BestAxis F :=
    if faceA.y > relativeTol * b.separation + absoluteTol * hA.y then
      ⟨Axis.FACE_A_Y, faceA.y, if dA.y > 0 then RotA.col2 else -RotA.col2⟩
    else b
  let b : BestAxis F :=
    if faceB.x > relativeTol * b.separation + absoluteTol * hB.x then
      ⟨Axis.FACE_B_X, faceB.x, if dB.x > 0 then RotB.col1 else -RotB.col1⟩
    else b
  let b : BestAxis F :=
    if faceB.y > relativeTol * b.separation + absoluteTol * hB.y then
      ⟨Axis.FACE_B_Y, faceB.y, if dB.y > 0 then RotB.col2 else -RotB.col2⟩
    else b
  b

/-- Lines 221-285 of `BNBCollide`: the `switch (axis)` that sets up the clipping
planes and the incident edge. -/
def BNBCollide.clipData (axis : Axis) (normal hA hB posA posB : Vec2 F) (RotA RotB : Mat22 F) :
    ClipData F :=
  let incidentEdge : ClipVertex F × ClipVertex F := (ClipVertex.new, ClipVertex.new)
  match axis with
  | Axis.FACE_A_X =>
    let frontNormal := normal
    let front := Dot posA frontNormal + hA.x
    let sideNormal := RotA.col2
    let side := Dot posA sideNormal
    { frontNormal := frontNormal, sideNormal := sideNormal, front := front,
      negSide := -side + hA.y, posSide := side + hA.y, negEdge := EDGE3, posEdge := EDGE1,
      incidentEdge := ComputeIncidentEdge incidentEdge hB posB RotB frontNormal }
  | Axis.FACE_A_Y =>
    let frontNormal := normal
    let front := Dot posA frontNormal + hA.y
    let sideNormal := RotA.col1
    let side := Dot posA sideNormal
    { frontNormal := frontNormal, sideNormal := sideNormal, front := front,
      negSide := -side + hA.x, posSide := side + hA.x, negEdge := EDGE2, posEdge := EDGE4,
      incidentEdge := ComputeIncidentEdge incidentEdge hB posB RotB frontNormal }
  | Axis.FACE_B_X =>
    let frontNormal := -normal
    let front := Dot posB frontNormal + hB.x
    let sideNormal := RotB.col2
    let side := Dot posB sideNormal
    { frontNormal := frontNormal, sideNormal := sideNormal, front := front,
      negSide := -side + hB.y, posSide := side + hB.y, negEdge := EDGE3, posEdge := EDGE1,
      incidentEdge := ComputeIncidentEdge incidentEdge hA posA RotA frontNormal }
  | Axis.FACE_B_Y =>
    let frontNormal := -normal
    let front := Dot posB frontNormal + hB.y
    let sideNormal := RotB.col1
    let side := Dot posB sideNormal
    { frontNormal := frontNormal, sideNormal := sideNormal, front := front,
      negSide := -side + hB.x, posSide := side + hB.x, negEdge := EDGE2, posEdge := EDGE4,
      incidentEdge := ComputeIncidentEdge incidentEdge hA posA RotA frontNormal }

/-- Lines 311-323 of `BNBCollide`: one iteration of the final loop, for the clip point
`cp = clipPoints2[i]`, on the state `(numContacts, contacts)`. -/
def BNBCollide.loopBody (axis : Axis) (normal frontNormal : Vec2 F) (front : F)
    (cp : ClipVertex F) (st : Nat × (Nat → Contact F)) : Nat × (Nat → Contact F) :=
  let numContacts := st.1
  let contacts := st.2
  let separation := Dot frontNormal cp.v - front
  if separation ≤ 0 then
    let feature := cp.fp
    let feature := if axis = Axis.FACE_B_X ∨ axis = Axis.FACE_B_Y then Flip feature else feature
    (numContacts + 1,
      Function.update contacts numContacts
        { separation := separation, normal := normal,
          position := cp.v - smul separation frontNormal, feature := feature })
  else st

/-- Lines 287-326 of `BNBCollide`: the two clips against the side planes and the
final loop over `clipPoints2`. -/
def BNBCollide.emit (axis : Axis) (normal : Vec2 F) (cd : ClipData F)
    (contacts : Nat → Contact F) (bodyA bodyB : Body F) : Outcome F :=
  match ClipSegmentToLine cd.incidentEdge (-cd.sideNormal) cd.negSide cd.negEdge with
  | c0 :: c1 :: _ =>
    match ClipSegmentToLine (c0, c1) cd.sideNormal cd.posSide cd.posEdge with
    | p0 :: p1 :: _ =>
      let st : Nat × (Nat → Contact F) := (0, contacts)
      let st := BNBCollide.loopBody axis normal cd.frontNormal cd.front p0 st
      let st := BNBCollide.loopBody axis normal cd.frontNormal cd.front p1 st
      ⟨st.1, st.2, bodyA, bodyB⟩
    | _ => ⟨0, contacts, bodyA, bodyB⟩
  | _ => ⟨0, contacts, bodyA, bodyB⟩

/-- The function `BNBCollide` (box against box). -/
def BNBCollide (m : Libm F) (contacts : Nat → Contact F) (bodyA bodyB : Body F) : Outcome F :=
  let hA := smul 0.5 bodyA.width
  let hB := smul 0.5 bodyB.width
  let posA := bodyA.position
  let posB := bodyB.position
  let RotA := Mat22.ofAngle m bodyA.rotation
  let RotB := Mat22.ofAngle m bodyB.rotation
  let RotAT := RotA.Transpose
  let RotBT := RotB.Transpose
  let dp := posB - posA
  let dA := RotAT.mulVec dp
  let dB := RotBT.mulVec dp
  let C := RotAT.mul RotB
  let absC := C.Abs
  let absCT := absC.Transpose
  let faceA := Abs dA - hA - absC.mulVec hB
  if faceA.x > 0 ∨ faceA.y > 0 then ⟨0, contacts, bodyA, bodyB⟩ else
  let faceB := Abs dB - absCT.mulVec hA - hB
  if faceB.x > 0 ∨ faceB.y > 0 then ⟨0, contacts, bodyA, bodyB⟩ else
  let b := BNBCollide.bestAxis hA hB RotA RotB dA dB faceA faceB
  let cd := BNBCollide.clipData b.axis b.normal hA hB posA posB RotA RotB
  BNBCollide.emit b.axis b.normal cd contacts bodyA bodyB

/-- The local `faceA` of `BNBCollide` (line 177) as a function of the two bodies. -/
def BNBCollide.faceA (m : Libm F) (bodyA bodyB : Body F) : Vec2 F :=
  let hA := smul 0.5 bodyA.width
  let hB := smul 0.5 bodyB.width
  let RotA := Mat22.ofAngle m bodyA.rotation
  let RotB := Mat22.ofAngle m bodyB.rotation
  let dp := bodyB.position - bodyA.position
  let dA := RotA.Transpose.mulVec dp
  let absC := (RotA.Transpose.mul RotB).Abs
  Abs dA - hA - absC.mulVec hB

/-- The local `faceB` of `BNBCollide` (line 182) as a function of the two bodies. -/
def BNBCollide.faceB (m : Libm F) (bodyA bodyB : Body F) : Vec2 F :=
  let hA := smul 0.5 bodyA.width
  let hB := smul 0.5 bodyB.width
  let RotA := Mat22.ofAngle m bodyA.rotation
  let RotB := Mat22.ofAngle m bodyB.rotation
  let dp := bodyB.position - bodyA.position
  let dB := RotB.Transpose.mulVec dp
  let absCT := (RotA.Transpose.mul RotB).Abs.Transpose
  Abs dB - absCT.mulVec hA - hB

/-- The locals `axis`, `separation`, `normal` of `BNBCollide` after line 219, as a
function of the two bodies. -/
def BNBCollide.best (m : Libm F) (bodyA bodyB : Body F) : BestAxis F :=
  let RotA := Mat22.ofAngle m bodyA.rotation
  let RotB := Mat22.ofAngle m bodyB.rotation
  let dp := bodyB.position - bodyA.position
  BNBCollide.bestAxis (smul 0.5 bodyA.width) (smul 0.5 bodyB.width) RotA RotB
    (RotA.Transpose.mulVec dp) (RotB.Transpose.mulVec dp)
    (BNBCollide.faceA m bodyA bodyB) (BNBCollide.faceB m bodyA bodyB)

/-- The clipping locals of `BNBCollide` after its `switch (axis)` (line 285), as a
function of the two bodies. -/
def BNBCollide.clip (m : Libm F) (bodyA bodyB : Body F) : ClipData F :=
  BNBCollide.clipData (BNBCollide.best m bodyA bodyB).axis (BNBCollide.best m bodyA bodyB).normal
    (smul 0.5 bodyA.width) (smul 0.5 bodyB.width) bodyA.position bodyB.position
    (Mat22.ofAngle m bodyA.rotation) (Mat22.ofAngle m bodyB.rotation)

/-- The function `CNCCollide` (circle against circle). -/
def CNCCollide (m : Libm F) (contacts : Nat → Contact F) (bodyA bodyB : Body F) : Outcome F :=
  let posA := bodyA.position
  let posB := bodyB.position
  let dp := posB - posA
  let rA := bodyA.width.x * 0.5
  let rB := bodyB.width.x * 0.5
  let distSqr := Dot dp dp
  let radius := rA + rB
  if distSqr > radius * radius then ⟨0, contacts, bodyA, bodyB⟩ else
  let normal := (posB - posA).Normalize m
  let cA := posA + smul rA normal
  let cB := posB - smul rB normal
  let numContacts := 0
  let clipPoint : ClipVertex F := ClipVertex.new
  let contacts := Function.update contacts numContacts
    { separation := Dot (cB - cA) normal, normal := normal,
      position := smul 0.5 (cA + cB), feature := clipPoint.fp }
  let numContacts := numContacts + 1
  ⟨numContacts, contacts, { bodyA with isItem := true }, { bodyB with isItem := true }⟩

/-- Lines 401-419 of `CNBCollide` ("Find best axis"), on the faces of B only. -/
def CNBCollide.bestAxis (hB : Vec2 F) (RotB : Mat22 F) (dB faceB : Vec2 F) : BestAxis F :=
  let b : BestAxis F := ⟨Axis.FACE_B_X, faceB.x, if dB.x > 0 then RotB.col1 else -RotB.col1⟩
  let b : BestAxis F :=
    if faceB.y > relativeTol * b.separation + absoluteTol * hB.y then
      ⟨Axis.FACE_B_Y, faceB.y, if dB.y > 0 then RotB.col2 else -RotB.col2⟩
    else b
  b

/-- The locals set by the `switch (axis)` of `CNBCollide` and `BNCCollide`: the
clipping data and the two points `cA`, `cB`. -/
structure FaceData (F : Type) where
  clip : ClipData F
  cA : Vec2 F
  cB : Vec2 F

/-- The locals of `CNBCollide` and `BNCCollide` before their `switch (axis)`:
declared and not yet assigned, except for the constructed `incidentEdge`.  The
model puts zero in the unassigned ones; the switch assigns every one of them in
both of its cases, and only those two axes reach it. -/
def FaceData.unassigned : FaceData F :=
  { clip := { frontNormal := ⟨0, 0⟩, sideNormal := ⟨0, 0⟩,
              incidentEdge := (ClipVertex.new, ClipVertex.new),
              front := 0, negSide := 0, posSide := 0, negEdge := 0, posEdge := 0 },
    cA := ⟨0, 0⟩, cB := ⟨0, 0⟩ }

/-- Lines 450-486 of `CNBCollide`: the `switch (axis)`. -/
def CNBCollide.faceData (axis : Axis) (normal hA hB posA posB : Vec2 F) (RotB : Mat22 F)
    (rB : F) (bodyA : Body F) : FaceData F :=
  let u : FaceData F := FaceData.unassigned
  match axis with
  | Axis.FACE_B_X =>
    let frontNormal := normal
    let front := Dot posB frontNormal + hB.x
    let sideNormal := RotB.col2
    let side := Dot posB sideNormal
    { clip := { frontNormal := frontNormal, sideNormal := sideNormal, front := front,
                negSide := -side + hB.y, posSide := side + hB.y,
                negEdge := EDGE3, posEdge := EDGE1,
                incidentEdge := ComputeIncidentEdge u.clip.incidentEdge hA posA RotB frontNormal },
      cB := posA + smul (bodyA.width.x * 0.5) frontNormal,
      cA := posB - smul rB frontNormal }
  | Axis.FACE_B_Y =>
    let frontNormal := normal
    let front := Dot posB frontNormal + hB.y
    let sideNormal := RotB.col1
    let side := Dot posB sideNormal
    { clip := { frontNormal := frontNormal, sideNormal := sideNormal, front := front,
                negSide := -side + hB.x, posSide := side + hB.x,
                negEdge := EDGE2, posEdge := EDGE4,
                incidentEdge := ComputeIncidentEdge u.clip.incidentEdge hA posA RotB frontNormal },
      cB := posA + smul (bodyA.width.y * 0.5) frontNormal,
      cA := posB - smul rB frontNormal }
  | _ => u

/-- The function `CNBCollide` (circle A against box B). -/
def CNBCollide (m : Libm F) (contacts : Nat → Contact F) (bodyA bodyB : Body F) : Outcome F :=
  let posA := bodyA.position
  let posB := bodyB.position
  let rA := bodyA.width.x * 0.5
  let dp := posB - posA
  let Bx := bodyB.width.x * 0.5
  let By := bodyB.width.y * 0.5
  let rB := m.sqrtf (Bx * Bx + By * By)
  let hA := smul 0.5 bodyA.width
  let hB := smul 0.5 bodyB.width
  let RotA := Mat22.ofAngle m bodyA.rotation
  let RotB := Mat22.ofAngle m bodyB.rotation
  let RotAT := RotA.Transpose
  let RotBT := RotB.Transpose
  let dB := RotBT.mulVec dp
  let C := RotAT.mul RotB
  let absC := C.Abs
  let faceB := Abs dB - hB - absC.mulVec hA
  if faceB.x > 0 ∨ faceB.y > 0 then ⟨0, contacts, bodyA, bodyB⟩ else
  let b := CNBCollide.bestAxis hB RotB dB faceB
  let numContacts := 0
  if Dot dp dp ≥ 1 then
    let distSqr := Dot dp dp
    let radius := rA + rB
    if distSqr > radius * radius then ⟨0, contacts, bodyA, bodyB⟩ else
    let normal := (posB - posA).Normalize m
    let cA := posA + smul rA normal
    let cB := posB - smul rB normal
    let contacts := Function.update contacts numContacts
      { contacts numContacts with
        separation := Dot (cA - cB) normal, normal := normal, position := smul 0.5 (cA + cB) }
    let numContacts := numContacts + 1
    ⟨numContacts, contacts, bodyA, bodyB⟩
  else
  let fd := CNBCollide.faceData b.axis b.normal hA hB posA posB RotB rB bodyA
  let cd := fd.clip
  match ClipSegmentToLine cd.incidentEdge (-cd.sideNormal) cd.negSide cd.negEdge with
  | c0 :: c1 :: _ =>
    match ClipSegmentToLine (c0, c1) cd.sideNormal cd.posSide cd.posEdge with
    | p0 :: p1 :: _ =>
      let separation := Dot (fd.cB - fd.cA) cd.frontNormal
      let contacts := Function.update contacts numContacts
        { separation := separation, normal := cd.frontNormal,
          position := smul 0.5 (p0.v - smul separation cd.frontNormal + p1.v
                                 - smul separation cd.frontNormal),
          feature := p0.fp }
      let numContacts := numContacts + 1
      ⟨numContacts, contacts, { bodyA with isJump := true }, bodyB⟩
    | _ => ⟨0, contacts, bodyA, bodyB⟩
  | _ => ⟨0, contacts, bodyA, bodyB⟩

/-- Lines 547-565 of `BNCCollide` ("Find best axis"), on the faces of A only. -/
def BNCCollide.bestAxis (hA : Vec2 F) (RotA : Mat22 F) (dA faceA : Vec2 F) : BestAxis F :=
  let b : BestAxis F := ⟨Axis.FACE_A_X, faceA.x, if dA.x > 0 then RotA.col1 else -RotA.col1⟩
  let b : BestAxis F :=
    if faceA.y > relativeTol * b.separation + absoluteTol * hA.y then
      ⟨Axis.FACE_A_Y, faceA.y, if dA.y > 0 then RotA.col2 else -RotA.col2⟩
    else b
  b

/-- Lines 595-631 of `BNCCollide`: the `switch (axis)`. -/
def BNCCollide.faceData (axis : Axis) (normal hA hB posA posB : Vec2 F) (RotA : Mat22 F)
    (rB : F) (bodyA : Body F) : FaceData F :=
  let u : FaceData F := FaceData.unassigned
  match axis with
  | Axis.FACE_A_X =>
    let frontNormal := normal
    let front := Dot posA frontNormal + hA.x
    let sideNormal := RotA.col2
    let side := Dot posA sideNormal
    { clip := { frontNormal := frontNormal, sideNormal := sideNormal, front := front,
                negSide := -side + hA.y, posSide := side + hA.y,
                negEdge := EDGE3, posEdge := EDGE1,
                incidentEdge := ComputeIncidentEdge u.clip.incidentEdge hB posB RotA frontNormal },
      cA := posA + smul (bodyA.width.x * 0.5) frontNormal,
      cB := posB - smul rB frontNormal }
  | Axis.FACE_A_Y =>
    let frontNormal := normal
    let front := Dot posA frontNormal + hA.y
    let sideNormal := RotA.col1
    let side := Dot posA sideNormal
    { clip := { frontNormal := frontNormal, sideNormal := sideNormal, front := front,
                negSide := -side + hA.x, posSide := side + hA.x,
                negEdge := EDGE2, posEdge := EDGE4,
                incidentEdge := ComputeIncidentEdge u.clip.incidentEdge hB posB RotA frontNormal },
      cA := posA + smul (bodyA.width.y * 0.5) frontNormal,
      cB := posB - smul rB frontNormal }
  | _ => u

/-- The function `BNCCollide` (box A against circle B). -/
def BNCCollide (m : Libm F) (contacts : Nat → Contact F) (bodyA bodyB : Body F) : Outcome F :=
  let posA := bodyA.position
  let posB := bodyB.position
  let rB := bodyB.width.x * 0.5
  let dp := posB - posA
  let d : Vec2 F := ⟨bodyA.width.x * 0.5, bodyA.width.y * 0.5⟩
  let Ax := bodyA.width.x * 0.5
  let Ay := bodyA.width.y * 0.5
  let rA := m.sqrtf (Ax * Ax + Ay * Ay)
  let hA := smul 0.5 bodyA.width
  let hB := smul 0.5 bodyB.width
  let RotA := Mat22.ofAngle m bodyA.rotation
  let RotB := Mat22.ofAngle m bodyB.rotation
  let RotAT := RotA.Transpose
  let dA := RotAT.mulVec dp
  let C := RotAT.mul RotB
  let absC := C.Abs
  let faceA := Abs dA - hA - absC.mulVec hB
  if faceA.x > 0 ∨ faceA.y > 0 then ⟨0, contacts, bodyA, bodyB⟩ else
  let b := BNCCollide.bestAxis hA RotA dA faceA
  let numContacts := 0
  if Dot dp d ≥ 1 then
    let distSqr := Dot dp dp
    let radius := rA + rB
    if distSqr > radius * radius then ⟨0, contacts, bodyA, bodyB⟩ else
    let normal := (posB - posA).Normalize m
    let cA := posA + smul rA normal
    let cB := posB - smul rB normal
    let contacts := Function.update contacts numContacts
      { contacts numContacts with
        separation := Dot (cB - cA) normal, normal := normal, position := smul 0.5 (cA + cB) }
    let numContacts := numContacts + 1
    ⟨numContacts, contacts, bodyA, bodyB⟩
  else
  let fd := BNCCollide.faceData b.axis b.normal hA hB posA posB RotA rB bodyA
  let cd := fd.clip
  match ClipSegmentToLine cd.incidentEdge (-cd.sideNormal) cd.negSide cd.negEdge with
  | c0 :: c1 :: _ =>
    match ClipSegmentToLine (c0, c1) cd.sideNormal cd.posSide cd.posEdge with
    | p0 :: p1 :: _ =>
      let separation := Dot (fd.cB - fd.cA) cd.frontNormal
      let contacts := Function.update contacts numContacts
        { separation := separation, normal := cd.frontNormal,
          position := smul 0.5 (p0.v - smul separation cd.frontNormal + p1.v
                                 - smul separation cd.frontNormal),
          feature := p0.fp }
      let numContacts := numContacts + 1
      ⟨numContacts, contacts, bodyA, { bodyB with isJump := true }⟩
    | _ => ⟨0, contacts, bodyA, bodyB⟩
  | _ => ⟨0, contacts, bodyA, bodyB⟩

/-- The function `Collide`: the dispatcher on the two shape kinds. -/
def Collide (m : Libm F) (contacts : Nat → Contact F) (bodyA bodyB : Body F) : Outcome F :=
  if bodyA.shape = Shape.box ∧ bodyB.shape = Shape.box then
    BNBCollide m contacts bodyA bodyB
  else if bodyA.shape = Shape.circle ∧ bodyB.shape = Shape.circle then
    CNCCollide m contacts bodyA bodyB
  else if bodyA.shape = Shape.box ∧ bodyB.shape = Shape.circle then
    BNCCollide m contacts bodyA bodyB
  else if bodyA.shape = Shape.circle ∧ bodyB.shape = Shape.box then
    BNCCollide m contacts bodyA bodyB
  else if bodyA.shape = Shape.triangle ∧ bodyB.shape = Shape.triangle then
    BNCCollide m contacts bodyA bodyB
  else
    BNBCollide m contacts bodyA bodyB

end Routines

/-! ## Binary32 arithmetic

The IEEE 754 single-precision format, for running the routines with the rounding of
the C++ `float`.  A finite number is kept as sign, significand `m` and exponent `e`
and stands for `(-1)^s * m * 2^(e - 149)`; the results of the operations are in the
normal form `m < 2^24`, `e ≤ 253`, and `2^23 ≤ m` when `0 < e`. -/

/-- A binary32 datum: a finite number `(-1)^s * m * 2^(e - 149)`, an infinity or a
quiet NaN. -/
inductive F32 where
  | fin (s : Bool) (m : Nat) (e : Nat)
  | inf (s : Bool)
  | nan
deriving DecidableEq

namespace F32

/-- Number of binary digits of `n`, with `fuel` bounding the recursion. -/
def bitLenAux : Nat → Nat → Nat
  | 0, _ => 0
  | fuel + 1, n => if n = 0 then 0 else bitLenAux fuel (n / 2) + 1

/-- Number of binary digits of `n` (0 for 0). -/
def bitLen (n : Nat) : Nat := bitLenAux n n

/-- The integer nearest to `m / 2^k`, a tie going to the even one. -/
def rne (m k : Nat) : Nat :=
  if 2 ^ k < 2 * (m % 2 ^ k) ∨ (2 * (m % 2 ^ k) = 2 ^ k ∧ m / 2 ^ k % 2 = 1) then m / 2 ^ k + 1
  else m / 2 ^ k

/-- The binary32 datum for `(-1)^s * q * 2^(E - 149)` with `q < 2^24`, in normal form;
an infinity when the exponent is out of range. -/
def pack (s : Bool) (q E : Nat) : F32 :=
  if q = 0 then fin s 0 0
  else if 253 < E - min (24 - bitLen q) E then inf s
  else fin s (q * 2 ^ min (24 - bitLen q) E) (E - min (24 - bitLen q) E)

/-- Rounding to nearest, ties to even: the binary32 datum nearest to
`(-1)^s * m * 2^e / 2^b * 2^(-149)`. -/
def round (s : Bool) (m e b : Nat) : F32 :=
  let k := max (bitLen m - 24) (b - e)
  let q := rne m k
  let E := e + k - b
  if q = 2 ^ 24 then pack s (2 ^ 23) (E + 1) else pack s q E

/-- The binary32 datum nearest to `(-1)^s * (n / d) * 2^e / 2^b * 2^(-149)`, for
`d ≠ 0`: the quotient is cut after at least 26 digits and the digits dropped are
recorded in one sticky digit. -/
def roundDiv (s : Bool) (n d e b : Nat) : F32 :=
  let k := 26 + bitLen d
  let q := n * 2 ^ k / d
  let r := n * 2 ^ k % d
  round s (2 * q + (if r = 0 then 0 else 1)) e (b + k + 1)

/-- Integer square root (rounded down), with `fuel` bounding the recursion. -/
def isqrtAux : Nat → Nat → Nat
  | 0, _ => 0
  | fuel + 1, n =>
    if n = 0 then 0 else
    let r := 2 * isqrtAux fuel (n / 4)
    if (r + 1) * (r + 1) ≤ n then r + 1 else r

/-- Integer square root (rounded down). -/
def isqrt (n : Nat) : Nat := isqrtAux n n

/-- Unary minus: the sign is flipped. -/
def neg : F32 → F32
  | fin s m e => fin (!s) m e
  | inf s => inf (!s)
  | nan => nan

/-- Addition, rounded once. -/
def add : F32 → F32 → F32
  | fin s1 m1 e1, fin s2 m2 e2 =>
    let e := min e1 e2
    let a := m1 * 2 ^ (e1 - e)
    let b := m2 * 2 ^ (e2 - e)
    if s1 = s2 then round s1 (a + b) e 0
    else if b < a then round s1 (a - b) e 0
    else if a < b then round s2 (b - a) e 0
    else fin false 0 0
  | fin _ _ _, inf s => inf s
  | inf s, fin _ _ _ => inf s
  | inf s1, inf s2 => if s1 = s2 then inf s1 else nan
  | _, _ => nan

/-- Subtraction, rounded once. -/
def sub (a b : F32) : F32 := add a (neg b)

/-- Multiplication, rounded once. -/
def mul : F32 → F32 → F32
  | fin s1 m1 e1, fin s2 m2 e2 => round (xor s1 s2) (m1 * m2) (e1 + e2) 149
  | fin s1 m _, inf s2 => if m = 0 then nan else inf (xor s1 s2)
  | inf s1, fin s2 m _ => if m = 0 then nan else inf (xor s1 s2)
  | inf s1, inf s2 => inf (xor s1 s2)
  | _, _ => nan

/-- Division, rounded once. -/
def div : F32 → F32 → F32
  | fin s1 m1 e1, fin s2 m2 e2 =>
    if m2 = 0 then (if m1 = 0 then nan else inf (xor s1 s2))
    else roundDiv (xor s1 s2) m1 m2 (e1 + 149) e2
  | fin s1 _ _, inf s2 => fin (xor s1 s2) 0 0
  | inf s1, fin s2 _ _ => inf (xor s1 s2)
  | _, _ => nan

/-- Square root, rounded once. -/
def sqrt : F32 → F32
  | fin s m e =>
    if m = 0 then fin s 0 0
    else if s then nan
    else
      let M := m * 2 ^ (e + 51)
      let r := isqrt M
      round false (2 * r + (if r * r = M then 0 else 1)) 149 101
  | inf s => if s then nan else inf false
  | nan => nan

/-- The signed integer `(-1)^s * m * 2^(e - e0)`, for comparing two finite numbers on
the common exponent `e0`. -/
def scaled (s : Bool) (m e e0 : Nat) : Int :=
  if s then -((m * 2 ^ (e - e0) : Nat) : Int) else ((m * 2 ^ (e - e0) : Nat) : Int)

/-- The comparison `<`; false when an operand is a NaN. -/
def lt : F32 → F32 → Bool
  | fin s1 m1 e1, fin s2 m2 e2 =>
    decide (scaled s1 m1 e1 (min e1 e2) < scaled s2 m2 e2 (min e1 e2))
  | fin _ _ _, inf s => !s
  | inf s, fin _ _ _ => s
  | inf s1, inf s2 => s1 && !s2
  | _, _ => false

/-- The comparison `<=`; false when an operand is a NaN. -/
def le : F32 → F32 → Bool
  | fin s1 m1 e1, fin s2 m2 e2 =>
    decide (scaled s1 m1 e1 (min e1 e2) ≤ scaled s2 m2 e2 (min e1 e2))
  | fin _ _ _, inf s => !s
  | inf s, fin _ _ _ => s
  | inf s1, inf s2 => s1 || !s2
  | _, _ => false

/-- The rational a finite datum stands for (0 for an infinity or a NaN). -/
def toRat : F32 → ℚ
  | fin s m e => (if s then -1 else 1) * (m : ℚ) * 2 ^ e / 2 ^ 149
  | _ => 0

/-- The datum is a finite number. -/
def isFinite : F32 → Bool
  | fin _ _ _ => true
  | _ => false

instance : Zero F32 := ⟨fin false 0 0⟩
instance : One F32 := ⟨fin false (2 ^ 23) 126⟩
instance : Add F32 := ⟨add⟩
instance : Sub F32 := ⟨sub⟩
instance : Mul F32 := ⟨mul⟩
instance : Div F32 := ⟨div⟩
instance : Neg F32 := ⟨neg⟩
instance : LT F32 := ⟨fun a b => lt a b = true⟩
instance : LE F32 := ⟨fun a b => le a b = true⟩
instance : DecidableRel (fun a b : F32 => a < b) :=
  fun a b => inferInstanceAs (Decidable (lt a b = true))
instance : DecidableRel (fun a b : F32 => a ≤ b) :=
  fun a b => inferInstanceAs (Decidable (le a b = true))

/-- A decimal literal: the binary32 datum nearest to `m * 10^e` or `m / 10^e`. -/
instance : OfScientific F32 :=
  ⟨fun m s e => if s then roundDiv false m (10 ^ e) 149 0 else round false (m * 10 ^ e) 149 0⟩

end F32

/-- A stand-in for the C math library on binary32: `sqrtf` is the correctly rounded
square root; `cosf` and `sinf` are given at the angle 0 only, where the C library
returns exactly 1 and 0 (a NaN elsewhere). -/
def libm32 : Libm F32 :=
  { cosf := fun a => if a ≤ 0 ∧ 0 ≤ a then 1 else F32.nan,
    sinf := fun a => if a ≤ 0 ∧ 0 ≤ a then a else F32.nan,
    sqrtf := F32.sqrt }

/-! ## Concrete inputs for running the routines -/

/-- A rational stand-in for the C math library, used to run the routines on concrete
inputs.  The angle `a` is read as the tangent of the half angle, so that
`(cosf a, sinf a)` is a rational point of the unit circle and the angle 0 gives
`(1, 0)`; `sqrtf` is exact on the squares of rationals. -/
def libmQ : Libm ℚ :=
  { cosf := fun a => (1 - a * a) / (1 + a * a),
    sinf := fun a => 2 * a / (1 + a * a),
    sqrtf := fun x => (Nat.sqrt x.num.toNat : ℚ) / (Nat.sqrt x.den : ℚ) }

/-- An unrotated 2 x 2 box body centred at `(x, y)`. -/
def boxAt {F : Type} [LinearOrderedField F] (x y : F) : Body F :=
  { position := ⟨x, y⟩, rotation := 0, width := ⟨2, 2⟩, shape := Shape.box,
    isItem := false, isJump := false }

/-- A contact buffer with every slot zeroed. -/
def zeroContacts {F : Type} [LinearOrderedField F] : Nat → Contact F :=
  fun _ => { position := ⟨0, 0⟩, normal := ⟨0, 0⟩, separation := 0, feature := ⟨0, 0, 0, 0⟩ }

/-- A circle body of diameter `d` centred at `(x, y)`. -/
def circleAt {F : Type} [LinearOrderedField F] (x y d : F) : Body F :=
  { position := ⟨x, y⟩, rotation := 0, width := ⟨d, d⟩, shape := Shape.circle,
    isItem := false, isJump := false }

/-- A segment from (0,0) to (2,2), tagged with the edges of an incident edge. -/
def exampleSegment : ClipVertex ℚ × ClipVertex ℚ :=
  (⟨⟨0, 0⟩, ⟨0, 0, EDGE1, EDGE2⟩⟩, ⟨⟨2, 2⟩, ⟨0, 0, EDGE2, EDGE3⟩⟩)

/-! ## Locals of the routines as functions of the two bodies -/

section BNCViews

variable {F : Type} [Zero F] [One F] [Add F] [Sub F] [Mul F] [Div F] [Neg F] [LT F] [LE F]
  [DecidableRel (fun a b : F => a < b)] [DecidableRel (fun a b : F => a ≤ b)] [OfScientific F]

/-- The local `faceA` of `BNCCollide` (line 543) as a function of the two bodies. -/
def BNCCollide.faceA (m : Libm F) (bodyA bodyB : Body F) : Vec2 F :=
  let hA := smul 0.5 bodyA.width
  let hB := smul 0.5 bodyB.width
  let RotA := Mat22.ofAngle m bodyA.rotation
  let RotB := Mat22.ofAngle m bodyB.rotation
  let dp := bodyB.position - bodyA.position
  let dA := RotA.Transpose.mulVec dp
  let absC := (RotA.Transpose.mul RotB).Abs
  Abs dA - hA - absC.mulVec hB

/-- The local `d` of `BNCCollide` (line 523): the half extents of A. -/
def BNCCollide.d (bodyA : Body F) : Vec2 F := ⟨bodyA.width.x * 0.5, bodyA.width.y * 0.5⟩

/-- The local `rA` of `BNCCollide` (line 526): the half diagonal of A. -/
def BNCCollide.rA (m : Libm F) (bodyA : Body F) : F :=
  m.sqrtf (bodyA.width.x * 0.5 * (bodyA.width.x * 0.5) + bodyA.width.y * 0.5 * (bodyA.width.y * 0.5))

/-- The locals `axis`, `separation`, `normal` of `BNCCollide` after line 565, as a
function of the two bodies. -/
def BNCCollide.best (m : Libm F) (bodyA bodyB : Body F) : BestAxis F :=
  let RotA := Mat22.ofAngle m bodyA.rotation
  BNCCollide.bestAxis (smul 0.5 bodyA.width) RotA
    (RotA.Transpose.mulVec (bodyB.position - bodyA.position)) (BNCCollide.faceA m bodyA bodyB)

/-- The locals of `BNCCollide` after its `switch (axis)` (line 631), as a function of
the two bodies. -/
def BNCCollide.face (m : Libm F) (bodyA bodyB : Body F) : FaceData F :=
  BNCCollide.faceData (BNCCollide.best m bodyA bodyB).axis (BNCCollide.best m bodyA bodyB).normal
    (smul 0.5 bodyA.width) (smul 0.5 bodyB.width) bodyA.position bodyB.position
    (Mat22.ofAngle m bodyA.rotation) (bodyB.width.x * 0.5) bodyA

end BNCViews

section AxisViews

variable {F : Type} [Zero F] [One F] [Add F] [Sub F] [Mul F] [Div F] [Neg F] [LT F] [LE F]
  [DecidableRel (fun a b : F => a < b)] [DecidableRel (fun a b : F => a ≤ b)] [OfScientific F]

end AxisViews

section BoxNumbering

variable {F : Type} [LinearOrderedField F]

/-- The vertices `v1` to `v4` of the numbering comment (lines 16-26), in the box
frame: `v1` top right, `v2` top left, `v3` bottom left, `v4` bottom right. -/
def boxVertex (h : Vec2 F) (k : Nat) : Vec2 F :=
  if k = 1 then ⟨h.x, h.y⟩
  else if k = 2 then ⟨-h.x, h.y⟩
  else if k = 3 then ⟨-h.x, -h.y⟩
  else ⟨h.x, -h.y⟩

/-- The outward unit normals of the edges `e1` to `e4` of the numbering comment, in
the box frame: `e1` top, `e2` left, `e3` bottom, `e4` right. -/
def edgeNormal (k : Nat) : Vec2 F :=
  if k = 1 then ⟨0, 1⟩
  else if k = 2 then ⟨-1, 0⟩
  else if k = 3 then ⟨0, -1⟩
  else ⟨1, 0⟩

/-- The edge after `k` in the cyclic order 1, 2, 3, 4. -/
def nextEdge (k : Nat) : Nat := if k = 4 then 1 else k + 1

/-- The edge before `k` in the cyclic order 1, 2, 3, 4. -/
def prevEdge (k : Nat) : Nat := if k = 1 then 4 else k - 1

/-- The z-component of the cross product of two vectors: positive when the turn from
`a` to `b` is counter-clockwise. -/
def Cross (a b : Vec2 F) : F := a.x * b.y - a.y * b.x

end BoxNumbering

/-- The feature pairs of the two vertices `ComputeIncidentEdge` returns when it is
given freshly constructed vertices, one pair for each of its four branches. -/
def incidentFeatures : List (FeaturePair × FeaturePair) :=
  [(⟨0, 0, EDGE3, EDGE4⟩, ⟨0, 0, EDGE4, EDGE1⟩), (⟨0, 0, EDGE1, EDGE2⟩, ⟨0, 0, EDGE2, EDGE3⟩),
   (⟨0, 0, EDGE4, EDGE1⟩, ⟨0, 0, EDGE1, EDGE2⟩), (⟨0, 0, EDGE2, EDGE3⟩, ⟨0, 0, EDGE3, EDGE4⟩)]

/-- The feature pairs a two-point result of `ClipSegmentToLine` can carry, given the
feature pairs `f` of its two inputs and the clip edge `e`: both inputs kept, point 1
clipped away, or point 0 clipped away. -/
def clipFeatures (e : Nat) (f : FeaturePair × FeaturePair) : List (FeaturePair × FeaturePair) :=
  [(f.1, f.2),
   (f.1, { f.2 with outEdge1 := e, outEdge2 := NO_EDGE }),
   (f.2, { f.1 with inEdge1 := e, inEdge2 := NO_EDGE })]

/-- The pairs `(negEdge, posEdge)` the `switch (axis)` of `BNBCollide` assigns. -/
def sideEdges : List (Nat × Nat) := [(EDGE3, EDGE1), (EDGE2, EDGE4)]

/-- The sign rules of the arithmetic that segment clipping relies on: a product below
zero has factors of opposite signs, a number below zero is at most zero, a number
above zero is not at most zero, a number below zero is not at least zero, and the
difference of a number below zero and one above zero is below zero (above zero the
other way round).  They hold in every linearly ordered field and in binary32, where
products and differences are rounded and a comparison with a NaN is false. -/
structure SignLaws (F : Type) [Zero F] [Sub F] [Mul F] [LT F] [LE F] : Prop where
  mul_neg : ∀ a b : F, a * b < 0 → (a < 0 ∧ 0 < b) ∨ (0 < a ∧ b < 0)
  le_of_neg : ∀ a : F, a < 0 → a ≤ 0
  not_le_of_pos : ∀ a : F, 0 < a → ¬ a ≤ 0
  not_ge_of_neg : ∀ a : F, a < 0 → ¬ 0 ≤ a
  sub_neg_pos : ∀ a b : F, a < 0 → 0 < b → a - b < 0
  sub_pos_neg : ∀ a b : F, 0 < a → b < 0 → 0 < a - b

/-- A binary32 segment from (0, -0.5) to (1, 1.125), tagged as an incident edge. -/
def crossingSegment32 : ClipVertex F32 × ClipVertex F32 :=
  (⟨⟨0, -0.5⟩, ⟨0, 0, EDGE1, EDGE2⟩⟩, ⟨⟨1, 1.125⟩, ⟨0, 0, EDGE2, EDGE3⟩⟩)

/-- A binary32 segment from (0, -1e-23) to (1, 1e-23): its end points are strictly on
opposite sides of the line y = 0, at distances whose product is below the binary32
range. -/
def tinySegment32 : ClipVertex F32 × ClipVertex F32 :=
  (⟨⟨0, -1e-23⟩, ⟨0, 0, EDGE1, EDGE2⟩⟩, ⟨⟨1, 1e-23⟩, ⟨0, 0, EDGE2, EDGE3⟩⟩)

/-- A binary32 segment from (0, -1) to (1, 1e-9): its end points are strictly on
opposite sides of the line y = 0, the second one much nearer to it than the first. -/
def steepSegment32 : ClipVertex F32 × ClipVertex F32 :=
  (⟨⟨0, -1⟩, ⟨0, 0, EDGE1, EDGE2⟩⟩, ⟨⟨1, 1e-9⟩, ⟨0, 0, EDGE2, EDGE3⟩⟩)

/-- A binary32 contact buffer with every slot zeroed. -/
def zeroContacts32 : Nat → Contact F32 :=
  fun _ => { position := ⟨0, 0⟩, normal := ⟨0, 0⟩, separation := 0, feature := ⟨0, 0, 0, 0⟩ }

/-- An unrotated binary32 box body centred at `(x, y)`, of widths `(w, h)`. -/
def box32 (x y w h : F32) : Body F32 :=
  { position := ⟨x, y⟩, rotation := 0, width := ⟨w, h⟩, shape := Shape.box,
    isItem := false, isJump := false }

/-- A binary32 circle body of diameter `d` centred at `(x, y)`. -/
def circle32 (x y d : F32) : Body F32 :=
  { position := ⟨x, y⟩, rotation := 0, width := ⟨d, d⟩, shape := Shape.circle,
    isItem := false, isJump := false }

/-! ## Basic facts about the vector operations -/

section Lemmas

variable {F : Type} [LinearOrderedField F]

@[simp] theorem Vec2.add_x (a b : Vec2 F) : (a + b).x = a.x + b.x := rfl
@[simp] theorem Vec2.add_y (a b : Vec2 F) : (a + b).y = a.y + b.y := rfl
@[simp] theorem Vec2.sub_x (a b : Vec2 F) : (a - b).x = a.x - b.x := rfl
@[simp] theorem Vec2.sub_y (a b : Vec2 F) : (a - b).y = a.y - b.y := rfl
@[simp] theorem Vec2.neg_x (a : Vec2 F) : (-a).x = -a.x := rfl
@[simp] theorem Vec2.neg_y (a : Vec2 F) : (-a).y = -a.y := rfl
@[simp] theorem smul_x (s : F) (a : Vec2 F) : (smul s a).x = s * a.x := rfl
@[simp] theorem smul_y (s : F) (a : Vec2 F) : (smul s a).y = s * a.y := rfl

omit [LinearOrderedField F] in
theorem Vec2.ext_iff2 (a b : Vec2 F) : a = b ↔ a.x = b.x ∧ a.y = b.y := by
  cases a; cases b; simp

theorem Mat22.Transpose_mulVec_x (R : Mat22 F) (v : Vec2 F) :
    (R.Transpose.mulVec v).x = Dot R.col1 v := rfl

theorem Mat22.Transpose_mulVec_y (R : Mat22 F) (v : Vec2 F) :
    (R.Transpose.mulVec v).y = Dot R.col2 v := rfl

theorem Dot_neg_left (a b : Vec2 F) : Dot (-a) b = -Dot a b := by
  simp only [Dot, Vec2.neg_x, Vec2.neg_y]; ring

theorem Dot_neg_neg (a : Vec2 F) : Dot (-a) (-a) = Dot a a := by
  simp only [Dot, Vec2.neg_x, Vec2.neg_y]; ring

theorem Mat22.ofAngle_col1_unit (m : Libm F) (a : F)
    (h : m.cosf a * m.cosf a + m.sinf a * m.sinf a = 1) :
    Dot (Mat22.ofAngle m a).col1 (Mat22.ofAngle m a).col1 = 1 := by
  simp only [Mat22.ofAngle, Dot]; exact h

theorem Mat22.ofAngle_col2_unit (m : Libm F) (a : F)
    (h : m.cosf a * m.cosf a + m.sinf a * m.sinf a = 1) :
    Dot (Mat22.ofAngle m a).col2 (Mat22.ofAngle m a).col2 = 1 := by
  simp only [Mat22.ofAngle, Dot]; linarith

/-- The normal a face axis assigns, `d > 0 ? col : -col` with `d = Dot(col, dp)`, is
plus or minus the column, as long as the column, and not against `dp`. -/
theorem face_normal_props (col dp : Vec2 F) :
    ((if Dot col dp > 0 then col else -col) = col ∨
      (if Dot col dp > 0 then col else -col) = -col) ∧
    Dot (if Dot col dp > 0 then col else -col) (if Dot col dp > 0 then col else -col)
      = Dot col col ∧
    Dot (if Dot col dp > 0 then col else -col) dp ≥ 0 := by
  split_ifs with h
  · exact ⟨Or.inl rfl, rfl, le_of_lt h⟩
  · refine ⟨Or.inr rfl, Dot_neg_neg col, ?_⟩
    rw [Dot_neg_left]
    linarith [not_lt.mp h]

theorem Absf_nonneg (a : F) : 0 ≤ Absf a := by
  unfold Absf
  split_ifs with h
  · exact le_of_lt h
  · linarith [not_lt.mp h]

theorem Absf_eq_abs (a : F) : Absf a = |a| := by
  unfold Absf
  split_ifs with h
  · exact (abs_of_pos h).symm
  · exact (abs_of_nonpos (not_lt.mp h)).symm

theorem Absf_of_pos {a : F} (h : 0 < a) : Absf a = a := by
  rw [Absf_eq_abs, abs_of_pos h]

theorem Absf_zero : Absf (0 : F) = 0 := by simp [Absf]

theorem Absf_one : Absf (1 : F) = 1 := by simp [Absf]

/-- The clip of a segment is one of six lists, according to the signs of the
two distances. -/
theorem ClipSegmentToLine_cases (vIn : ClipVertex F × ClipVertex F) (normal : Vec2 F)
    (offset : F) (clipEdge : Nat) :
    (distance0 vIn normal offset ≤ 0 ∧ distance1 vIn normal offset ≤ 0 ∧
        ClipSegmentToLine vIn normal offset clipEdge = [vIn.1, vIn.2]) ∨
    (distance0 vIn normal offset < 0 ∧ 0 < distance1 vIn normal offset ∧
        ClipSegmentToLine vIn normal offset clipEdge =
          [vIn.1, ⟨vIn.1.v + smul (interp vIn normal offset) (vIn.2.v - vIn.1.v),
                   { vIn.2.fp with outEdge1 := clipEdge, outEdge2 := NO_EDGE }⟩]) ∨
    (0 < distance0 vIn normal offset ∧ distance1 vIn normal offset < 0 ∧
        ClipSegmentToLine vIn normal offset clipEdge =
          [vIn.2, ⟨vIn.1.v + smul (interp vIn normal offset) (vIn.2.v - vIn.1.v),
                   { vIn.1.fp with inEdge1 := clipEdge, inEdge2 := NO_EDGE }⟩]) ∨
    (distance0 vIn normal offset = 0 ∧ 0 < distance1 vIn normal offset ∧
        ClipSegmentToLine vIn normal offset clipEdge = [vIn.1]) ∨
    (0 < distance0 vIn normal offset ∧ distance1 vIn normal offset = 0 ∧
        ClipSegmentToLine vIn normal offset clipEdge = [vIn.2]) ∨
    (0 < distance0 vIn normal offset ∧ 0 < distance1 vIn normal offset ∧
        ClipSegmentToLine vIn normal offset clipEdge = []) := by
  unfold ClipSegmentToLine
  rcases lt_trichotomy (distance0 vIn normal offset) 0 with h0 | h0 | h0 <;>
    rcases lt_trichotomy (distance1 vIn normal offset) 0 with h1 | h1 | h1
  · have hm : ¬ (distance0 vIn normal offset * distance1 vIn normal offset < 0) :=
      not_lt.mpr (le_of_lt (mul_pos_of_neg_of_neg h0 h1))
    simp [h0.le, h1.le, hm]
  · simp [h0.le, h1]
  · have hm : distance0 vIn normal offset * distance1 vIn normal offset < 0 :=
      mul_neg_of_neg_of_pos h0 h1
    simp [h0.le, h0, not_le.mpr h1, not_lt.mpr h0.le, h1, hm]
  · simp [h0, h1.le]
  · simp [h0, h1]
  · simp [h0, h1, not_le.mpr h1]
  · have hm : distance0 vIn normal offset * distance1 vIn normal offset < 0 :=
      mul_neg_of_pos_of_neg h0 h1
    simp [h0, h1, h1.le, not_le.mpr h0, hm]
  · simp [h0, h1, not_le.mpr h0]
  · have hm : ¬ (distance0 vIn normal offset * distance1 vIn normal offset < 0) :=
      not_lt.mpr (le_of_lt (mul_pos h0 h1))
    simp [h0, h1, not_le.mpr h0, not_le.mpr h1, hm]

/-- A segment with both end points on or behind the line is returned as it is. -/
theorem ClipSegmentToLine_both_kept (w : ClipVertex F × ClipVertex F) (normal : Vec2 F)
    (offset : F) (clipEdge : Nat) (hw0 : Dot normal w.1.v - offset ≤ 0)
    (hw1 : Dot normal w.2.v - offset ≤ 0) :
    ClipSegmentToLine w normal offset clipEdge = [w.1, w.2] := by
  rcases ClipSegmentToLine_cases w normal offset clipEdge with h | h | h | h | h | h
  · exact h.2.2
  all_goals
    have e0 := h.1
    have e1 := h.2.1
    simp only [distance0, distance1] at e0 e1
    linarith

end Lemmas

/-! ## The shape of a `BNBCollide` run -/

section BNBShape

variable {F : Type} [LinearOrderedField F]

theorem BNBCollide_eq (m : Libm F) (contacts : Nat → Contact F) (bodyA bodyB : Body F) :
    BNBCollide m contacts bodyA bodyB =
      if (BNBCollide.faceA m bodyA bodyB).x > 0 ∨ (BNBCollide.faceA m bodyA bodyB).y > 0 then
        ⟨0, contacts, bodyA, bodyB⟩
      else if (BNBCollide.faceB m bodyA bodyB).x > 0 ∨ (BNBCollide.faceB m bodyA bodyB).y > 0 then
        ⟨0, contacts, bodyA, bodyB⟩
      else
        BNBCollide.emit (BNBCollide.best m bodyA bodyB).axis (BNBCollide.best m bodyA bodyB).normal
          (BNBCollide.clip m bodyA bodyB) contacts bodyA bodyB := rfl

/-- The clip-and-emit phase either returns 0 and leaves everything alone, or runs the
final loop on two clip points. -/
theorem BNBCollide.emit_cases (axis : Axis) (normal : Vec2 F) (cd : ClipData F)
    (contacts : Nat → Contact F) (bodyA bodyB : Body F) :
    BNBCollide.emit axis normal cd contacts bodyA bodyB = ⟨0, contacts, bodyA, bodyB⟩ ∨
    ∃ c0 c1 p0 p1 : ClipVertex F,
      ClipSegmentToLine cd.incidentEdge (-cd.sideNormal) cd.negSide cd.negEdge = [c0, c1] ∧
      ClipSegmentToLine (c0, c1) cd.sideNormal cd.posSide cd.posEdge = [p0, p1] ∧
      BNBCollide.emit axis normal cd contacts bodyA bodyB =
        ⟨(BNBCollide.loopBody axis normal cd.frontNormal cd.front p1
            (BNBCollide.loopBody axis normal cd.frontNormal cd.front p0 (0, contacts))).1,
         (BNBCollide.loopBody axis normal cd.frontNormal cd.front p1
            (BNBCollide.loopBody axis normal cd.frontNormal cd.front p0 (0, contacts))).2,
         bodyA, bodyB⟩ := by
  have len : ∀ (w : ClipVertex F × ClipVertex F) (n : Vec2 F) (o : F) (e : Nat),
      (ClipSegmentToLine w n o e).length ≤ 2 := by
    intro w n o e
    rcases ClipSegmentToLine_cases w n o e with h | h | h | h | h | h <;> simp [h.2.2]
  unfold BNBCollide.emit
  have l1 := len cd.incidentEdge (-cd.sideNormal) cd.negSide cd.negEdge
  rcases hc : ClipSegmentToLine cd.incidentEdge (-cd.sideNormal) cd.negSide cd.negEdge with
    _ | ⟨c0, _ | ⟨c1, _ | ⟨c2, t⟩⟩⟩
  · exact Or.inl rfl
  · exact Or.inl rfl
  · have l2 := len (c0, c1) cd.sideNormal cd.posSide cd.posEdge
    dsimp only
    rcases hp : ClipSegmentToLine (c0, c1) cd.sideNormal cd.posSide cd.posEdge with
      _ | ⟨p0, _ | ⟨p1, _ | ⟨p2, t⟩⟩⟩
    · exact Or.inl rfl
    · exact Or.inl rfl
    · exact Or.inr ⟨c0, c1, p0, p1, rfl, hp, rfl⟩
    · rw [hp] at l2; simp at l2
  · rw [hc] at l1; simp at l1

theorem BNBCollide.loopBody_pos (axis : Axis) (normal frontNormal : Vec2 F) (front : F)
    (cp : ClipVertex F) (st : Nat × (Nat → Contact F)) (h : Dot frontNormal cp.v - front ≤ 0) :
    BNBCollide.loopBody axis normal frontNormal front cp st =
      (st.1 + 1, Function.update st.2 st.1
        { separation := Dot frontNormal cp.v - front, normal := normal,
          position := cp.v - smul (Dot frontNormal cp.v - front) frontNormal,
          feature := if axis = Axis.FACE_B_X ∨ axis = Axis.FACE_B_Y then Flip cp.fp else cp.fp }) := by
  unfold BNBCollide.loopBody
  dsimp only
  rw [if_pos h]

theorem BNBCollide.loopBody_neg (axis : Axis) (normal frontNormal : Vec2 F) (front : F)
    (cp : ClipVertex F) (st : Nat × (Nat → Contact F)) (h : ¬ Dot frontNormal cp.v - front ≤ 0) :
    BNBCollide.loopBody axis normal frontNormal front cp st = st := by
  unfold BNBCollide.loopBody
  dsimp only
  rw [if_neg h]

/-- One iteration of the final loop writes at most the slot `numContacts`, and
raises the count by at most one. -/
theorem BNBCollide.loopBody_frame (axis : Axis) (normal frontNormal : Vec2 F) (front : F)
    (cp : ClipVertex F) (st : Nat × (Nat → Contact F)) :
    st.1 ≤ (BNBCollide.loopBody axis normal frontNormal front cp st).1 ∧
    (BNBCollide.loopBody axis normal frontNormal front cp st).1 ≤ st.1 + 1 ∧
    ∀ i, i ≠ st.1 → (BNBCollide.loopBody axis normal frontNormal front cp st).2 i = st.2 i := by
  by_cases h : Dot frontNormal cp.v - front ≤ 0
  · rw [BNBCollide.loopBody_pos _ _ _ _ _ _ h]
    refine ⟨Nat.le_succ _, le_refl _, ?_⟩
    intro i hi
    exact Function.update_noteq hi _ _
  · rw [BNBCollide.loopBody_neg _ _ _ _ _ _ h]
    exact ⟨le_refl _, Nat.le_succ _, fun _ _ => rfl⟩

/-- A property of contacts that holds for every contact one iteration can write, and
for the contacts below the count before the iteration, holds below the count after. -/
theorem BNBCollide.loopBody_forall (P : Contact F → Prop) (axis : Axis)
    (normal frontNormal : Vec2 F) (front : F) (cp : ClipVertex F)
    (st : Nat × (Nat → Contact F)) (hst : ∀ i, i < st.1 → P (st.2 i))
    (hnew : ∀ feature : FeaturePair, Dot frontNormal cp.v - front ≤ 0 →
      P { separation := Dot frontNormal cp.v - front, normal := normal,
          position := cp.v - smul (Dot frontNormal cp.v - front) frontNormal,
          feature := feature }) :
    ∀ i, i < (BNBCollide.loopBody axis normal frontNormal front cp st).1 →
      P ((BNBCollide.loopBody axis normal frontNormal front cp st).2 i) := by
  by_cases h : Dot frontNormal cp.v - front ≤ 0
  · rw [BNBCollide.loopBody_pos _ _ _ _ _ _ h]
    intro i hi
    rcases Nat.lt_succ_iff_lt_or_eq.mp hi with hlt | heq
    · show P (Function.update st.2 st.1 _ i)
      rw [Function.update_noteq (Nat.ne_of_lt hlt)]
      exact hst i hlt
    · subst heq
      show P (Function.update st.2 st.1 _ st.1)
      rw [Function.update_same]
      exact hnew _ h
  · rw [BNBCollide.loopBody_neg _ _ _ _ _ _ h]
    exact hst

/-- A property that holds for every contact the final loop of `BNBCollide` can write
holds for every contact below the returned count. -/
theorem BNBCollide_forall (P : Contact F → Prop) (m : Libm F) (contacts : Nat → Contact F)
    (bodyA bodyB : Body F)
    (hnew : ∀ (p : Vec2 F) (feature : FeaturePair),
      Dot (BNBCollide.clip m bodyA bodyB).frontNormal p - (BNBCollide.clip m bodyA bodyB).front ≤ 0 →
      ¬ ((BNBCollide.faceA m bodyA bodyB).x > 0 ∨ (BNBCollide.faceA m bodyA bodyB).y > 0) →
      ¬ ((BNBCollide.faceB m bodyA bodyB).x > 0 ∨ (BNBCollide.faceB m bodyA bodyB).y > 0) →
      P { separation := Dot (BNBCollide.clip m bodyA bodyB).frontNormal p
                          - (BNBCollide.clip m bodyA bodyB).front,
          normal := (BNBCollide.best m bodyA bodyB).normal,
          position := p - smul (Dot (BNBCollide.clip m bodyA bodyB).frontNormal p
                          - (BNBCollide.clip m bodyA bodyB).front)
                        (BNBCollide.clip m bodyA bodyB).frontNormal,
          feature := feature }) :
    ∀ i, i < (BNBCollide m contacts bodyA bodyB).ret →
      P ((BNBCollide m contacts bodyA bodyB).contacts i) := by
  rw [BNBCollide_eq]
  split_ifs with hA hB
  · intro i hi; exact absurd hi (Nat.not_lt_zero _)
  · intro i hi; exact absurd hi (Nat.not_lt_zero _)
  · rcases BNBCollide.emit_cases (BNBCollide.best m bodyA bodyB).axis
        (BNBCollide.best m bodyA bodyB).normal (BNBCollide.clip m bodyA bodyB) contacts
        bodyA bodyB with h | ⟨c0, c1, p0, p1, -, -, h⟩
    · rw [h]; intro i hi; exact absurd hi (Nat.not_lt_zero _)
    · rw [h]
      apply BNBCollide.loopBody_forall P
      · apply BNBCollide.loopBody_forall P
        · intro i hi; exact absurd hi (Nat.not_lt_zero _)
        · intro feature hs; exact hnew p0.v feature hs hA hB
      · intro feature hs; exact hnew p1.v feature hs hA hB

/-- The axis selection of `BNBCollide` ends on one of the four face axes, with the
normal that axis assigns. -/
theorem BNBCollide.bestAxis_cases (hA hB : Vec2 F) (RotA RotB : Mat22 F)
    (dA dB faceA faceB : Vec2 F) :
    ((BNBCollide.bestAxis hA hB RotA RotB dA dB faceA faceB).axis = Axis.FACE_A_X ∧
      (BNBCollide.bestAxis hA hB RotA RotB dA dB faceA faceB).separation = faceA.x ∧
      (BNBCollide.bestAxis hA hB RotA RotB dA dB faceA faceB).normal
        = if dA.x > 0 then RotA.col1 else -RotA.col1) ∨
    ((BNBCollide.bestAxis hA hB RotA RotB dA dB faceA faceB).axis = Axis.FACE_A_Y ∧
      (BNBCollide.bestAxis hA hB RotA RotB dA dB faceA faceB).separation = faceA.y ∧
      (BNBCollide.bestAxis hA hB RotA RotB dA dB faceA faceB).normal
        = if dA.y > 0 then RotA.col2 else -RotA.col2) ∨
    ((BNBCollide.bestAxis hA hB RotA RotB dA dB faceA faceB).axis = Axis.FACE_B_X ∧
      (BNBCollide.bestAxis hA hB RotA RotB dA dB faceA faceB).separation = faceB.x ∧
      (BNBCollide.bestAxis hA hB RotA RotB dA dB faceA faceB).normal
        = if dB.x > 0 then RotB.col1 else -RotB.col1) ∨
    ((BNBCollide.bestAxis hA hB RotA RotB dA dB faceA faceB).axis = Axis.FACE_B_Y ∧
      (BNBCollide.bestAxis hA hB RotA RotB dA dB faceA faceB).separation = faceB.y ∧
      (BNBCollide.bestAxis hA hB RotA RotB dA dB faceA faceB).normal
        = if dB.y > 0 then RotB.col2 else -RotB.col2) := by
  unfold BNBCollide.bestAxis
  dsimp only
  split_ifs <;> simp

/-- One iteration of the final loop leaves every slot at or above the new count as
it was. -/
theorem BNBCollide.loopBody_frame_ge (axis : Axis) (normal frontNormal : Vec2 F) (front : F)
    (cp : ClipVertex F) (st : Nat × (Nat → Contact F)) (i : Nat)
    (hi : (BNBCollide.loopBody axis normal frontNormal front cp st).1 ≤ i) :
    (BNBCollide.loopBody axis normal frontNormal front cp st).2 i = st.2 i := by
  by_cases h : Dot frontNormal cp.v - front ≤ 0
  · rw [BNBCollide.loopBody_pos _ _ _ _ _ _ h] at hi ⊢
    exact Function.update_noteq (Nat.ne_of_gt hi) _ _
  · rw [BNBCollide.loopBody_neg _ _ _ _ _ _ h]

/-- The count `BNBCollide` returns is at most 2, and the slots at or above it are left
as they were. -/
theorem BNBCollide_bound (m : Libm F) (contacts : Nat → Contact F) (bodyA bodyB : Body F) :
    (BNBCollide m contacts bodyA bodyB).ret ≤ 2 ∧
    ∀ i, (BNBCollide m contacts bodyA bodyB).ret ≤ i →
      (BNBCollide m contacts bodyA bodyB).contacts i = contacts i := by
  rw [BNBCollide_eq]
  split_ifs with h1 h2
  · exact ⟨Nat.zero_le _, fun _ _ => rfl⟩
  · exact ⟨Nat.zero_le _, fun _ _ => rfl⟩
  · rcases BNBCollide.emit_cases (BNBCollide.best m bodyA bodyB).axis
        (BNBCollide.best m bodyA bodyB).normal (BNBCollide.clip m bodyA bodyB) contacts
        bodyA bodyB with h | ⟨c0, c1, p0, p1, -, -, h⟩
    · rw [h]; exact ⟨Nat.zero_le _, fun _ _ => rfl⟩
    · rw [h]
      have f0 := BNBCollide.loopBody_frame (BNBCollide.best m bodyA bodyB).axis
        (BNBCollide.best m bodyA bodyB).normal (BNBCollide.clip m bodyA bodyB).frontNormal
        (BNBCollide.clip m bodyA bodyB).front p0 (0, contacts)
      have f1 := BNBCollide.loopBody_frame (BNBCollide.best m bodyA bodyB).axis
        (BNBCollide.best m bodyA bodyB).normal (BNBCollide.clip m bodyA bodyB).frontNormal
        (BNBCollide.clip m bodyA bodyB).front p1
        (BNBCollide.loopBody (BNBCollide.best m bodyA bodyB).axis
          (BNBCollide.best m bodyA bodyB).normal (BNBCollide.clip m bodyA bodyB).frontNormal
          (BNBCollide.clip m bodyA bodyB).front p0 (0, contacts))
      refine ⟨le_trans f1.2.1 (Nat.succ_le_succ f0.2.1), ?_⟩
      intro i hi
      exact (BNBCollide.loopBody_frame_ge _ _ _ _ _ _ i hi).trans
        (BNBCollide.loopBody_frame_ge _ _ _ _ _ _ i (le_trans f1.1 hi))

end BNBShape

/-! ## Two axis-aligned 2 x 2 boxes -/

theorem libmQ_cosf_zero : libmQ.cosf 0 = 1 := by norm_num [libmQ]

theorem libmQ_sinf_zero : libmQ.sinf 0 = 0 := by norm_num [libmQ]

theorem libmQ_sqrtf_one : libmQ.sqrtf 1 = 1 := by norm_num [libmQ]

theorem libmQ_unit (a : ℚ) : libmQ.cosf a * libmQ.cosf a + libmQ.sinf a * libmQ.sinf a = 1 := by
  have h : (1 : ℚ) + a * a ≠ 0 := by nlinarith [mul_self_nonneg a]
  simp only [libmQ]
  field_simp
  ring

section Aligned

variable {F : Type} [LinearOrderedField F]

theorem faceA_aligned (m : Libm F) (hc : m.cosf 0 = 1) (hs : m.sinf 0 = 0)
    (ax ay dx : F) (hdx : 0 < dx) (sA sB : Shape) (iA jA iB jB : Bool) :
    BNBCollide.faceA m ⟨⟨ax, ay⟩, 0, ⟨2, 2⟩, sA, iA, jA⟩ ⟨⟨ax + dx, ay⟩, 0, ⟨2, 2⟩, sB, iB, jB⟩
      = ⟨dx - 2, -2⟩ := by
  simp only [BNBCollide.faceA, Mat22.ofAngle, hc, hs, Mat22.Transpose, Mat22.mulVec, Mat22.mul,
    Mat22.Abs, Abs, Vec2.sub_x, Vec2.sub_y, smul_x, smul_y, Vec2.ext_iff2]
  norm_num [Absf_of_pos hdx, Absf_zero, Absf_one]
  ring

theorem faceB_aligned (m : Libm F) (hc : m.cosf 0 = 1) (hs : m.sinf 0 = 0)
    (ax ay dx : F) (hdx : 0 < dx) (sA sB : Shape) (iA jA iB jB : Bool) :
    BNBCollide.faceB m ⟨⟨ax, ay⟩, 0, ⟨2, 2⟩, sA, iA, jA⟩ ⟨⟨ax + dx, ay⟩, 0, ⟨2, 2⟩, sB, iB, jB⟩
      = ⟨dx - 2, -2⟩ := by
  simp only [BNBCollide.faceB, Mat22.ofAngle, hc, hs, Mat22.Transpose, Mat22.mulVec, Mat22.mul,
    Mat22.Abs, Abs, Vec2.sub_x, Vec2.sub_y, smul_x, smul_y, Vec2.ext_iff2]
  norm_num [Absf_of_pos hdx, Absf_zero, Absf_one]
  ring

theorem best_aligned (m : Libm F) (hc : m.cosf 0 = 1) (hs : m.sinf 0 = 0)
    (ax ay dx : F) (hdx : 0 < dx) (hdx2 : dx ≤ 2) (sA sB : Shape) (iA jA iB jB : Bool) :
    BNBCollide.best m ⟨⟨ax, ay⟩, 0, ⟨2, 2⟩, sA, iA, jA⟩ ⟨⟨ax + dx, ay⟩, 0, ⟨2, 2⟩, sB, iB, jB⟩
      = ⟨Axis.FACE_A_X, dx - 2, ⟨1, 0⟩⟩ := by
  unfold BNBCollide.best
  rw [faceA_aligned m hc hs ax ay dx hdx, faceB_aligned m hc hs ax ay dx hdx]
  simp only [BNBCollide.bestAxis, Mat22.ofAngle, hc, hs, Mat22.Transpose, Mat22.mulVec,
    Vec2.sub_x, Vec2.sub_y, smul_x, smul_y, relativeTol, absoluteTol]
  have e1 : ¬ ((-2 : F) > 0.95 * (dx - 2) + 0.01 * (0.5 * 2)) := by
    norm_num; linarith
  have e2 : ¬ (dx - 2 > 0.95 * (dx - 2) + 0.01 * (0.5 * 2)) := by
    norm_num; linarith
  rw [if_neg e1, if_neg e2, if_neg e1]
  norm_num [hdx]

theorem clip_aligned (m : Libm F) (hc : m.cosf 0 = 1) (hs : m.sinf 0 = 0)
    (ax ay dx : F) (hdx : 0 < dx) (hdx2 : dx ≤ 2) (sA sB : Shape) (iA jA iB jB : Bool) :
    BNBCollide.clip m ⟨⟨ax, ay⟩, 0, ⟨2, 2⟩, sA, iA, jA⟩ ⟨⟨ax + dx, ay⟩, 0, ⟨2, 2⟩, sB, iB, jB⟩
      = { frontNormal := ⟨1, 0⟩, sideNormal := ⟨0, 1⟩, front := ax + 1,
          negSide := -ay + 1, posSide := ay + 1, negEdge := EDGE3, posEdge := EDGE1,
          incidentEdge := (⟨⟨ax + dx - 1, ay + 1⟩, ⟨0, 0, EDGE1, EDGE2⟩⟩,
                           ⟨⟨ax + dx - 1, ay - 1⟩, ⟨0, 0, EDGE2, EDGE3⟩⟩) } := by
  unfold BNBCollide.clip
  rw [best_aligned m hc hs ax ay dx hdx hdx2]
  simp only [BNBCollide.clipData, ComputeIncidentEdge, Mat22.ofAngle, hc, hs, Mat22.Transpose,
    Mat22.mulVec, Abs, Sign, Dot, ClipVertex.new, Vec2.neg_x, Vec2.neg_y, smul_x, smul_y]
  norm_num [Absf_zero, Absf_one, Absf_eq_abs, Vec2.ext_iff2]
  constructor <;> ring

/-- The run of `BNBCollide` on two unrotated 2 x 2 boxes, B at A plus `(dx, 0)` with
`0 < dx ≤ 2`, given by coordinates. -/
theorem BNBCollide_aligned_coords (m : Libm F) (hc : m.cosf 0 = 1) (hs : m.sinf 0 = 0)
    (contacts : Nat → Contact F)
    (ax ay dx : F) (hdx : 0 < dx) (hdx2 : dx ≤ 2) (sA sB : Shape) (iA jA iB jB : Bool) :
    BNBCollide m contacts ⟨⟨ax, ay⟩, 0, ⟨2, 2⟩, sA, iA, jA⟩ ⟨⟨ax + dx, ay⟩, 0, ⟨2, 2⟩, sB, iB, jB⟩
      = ⟨2, Function.update (Function.update contacts 0
              { position := ⟨ax + 1, ay + 1⟩, normal := ⟨1, 0⟩, separation := dx - 2,
                feature := ⟨0, 0, EDGE1, EDGE2⟩ }) 1
              { position := ⟨ax + 1, ay - 1⟩, normal := ⟨1, 0⟩, separation := dx - 2,
                feature := ⟨0, 0, EDGE2, EDGE3⟩ },
          ⟨⟨ax, ay⟩, 0, ⟨2, 2⟩, sA, iA, jA⟩, ⟨⟨ax + dx, ay⟩, 0, ⟨2, 2⟩, sB, iB, jB⟩⟩ := by
  have hfa : ¬ ((⟨dx - 2, -2⟩ : Vec2 F).x > 0 ∨ (⟨dx - 2, -2⟩ : Vec2 F).y > 0) := by
    simp only [not_or, not_lt, gt_iff_lt]
    constructor <;> linarith
  rw [BNBCollide_eq, faceA_aligned m hc hs ax ay dx hdx, faceB_aligned m hc hs ax ay dx hdx,
    if_neg hfa, if_neg hfa, best_aligned m hc hs ax ay dx hdx hdx2,
    clip_aligned m hc hs ax ay dx hdx hdx2]
  unfold BNBCollide.emit
  dsimp only
  rw [ClipSegmentToLine_both_kept _ _ _ _
    (by simp only [Dot, Vec2.neg_x, Vec2.neg_y]; linarith)
    (by simp only [Dot, Vec2.neg_x, Vec2.neg_y]; linarith)]
  dsimp only
  rw [ClipSegmentToLine_both_kept _ _ _ _
    (by simp only [Dot]; linarith) (by simp only [Dot]; linarith)]
  dsimp only
  have s0 : Dot (⟨1, 0⟩ : Vec2 F) (⟨ax + dx - 1, ay + 1⟩ : Vec2 F) - (ax + 1) = dx - 2 := by
    simp only [Dot]; ring
  have s1 : Dot (⟨1, 0⟩ : Vec2 F) (⟨ax + dx - 1, ay - 1⟩ : Vec2 F) - (ax + 1) = dx - 2 := by
    simp only [Dot]; ring
  have q0 : (⟨ax + dx - 1, ay + 1⟩ : Vec2 F) - smul (dx - 2) ⟨1, 0⟩ = ⟨ax + 1, ay + 1⟩ := by
    rw [Vec2.ext_iff2]
    simp only [Vec2.sub_x, Vec2.sub_y, smul_x, smul_y]
    constructor <;> ring
  have q1 : (⟨ax + dx - 1, ay - 1⟩ : Vec2 F) - smul (dx - 2) ⟨1, 0⟩ = ⟨ax + 1, ay - 1⟩ := by
    rw [Vec2.ext_iff2]
    simp only [Vec2.sub_x, Vec2.sub_y, smul_x, smul_y]
    constructor <;> ring
  rw [BNBCollide.loopBody_pos _ _ _ _ _ _ (s1.trans_le (by linarith)),
    BNBCollide.loopBody_pos _ _ _ _ _ _ (s0.trans_le (by linarith))]
  dsimp only
  rw [s0, s1, q0, q1]
  simp

/-- The same run, for any two bodies that are unrotated, have width `(2, 2)` and are
placed with B at A plus `(dx, 0)`. -/
theorem BNBCollide_aligned (m : Libm F) (hc : m.cosf 0 = 1) (hs : m.sinf 0 = 0)
    (contacts : Nat → Contact F) (bodyA bodyB : Body F) (dx : F) (hdx : 0 < dx) (hdx2 : dx ≤ 2)
    (hrA : bodyA.rotation = 0) (hwA : bodyA.width = ⟨2, 2⟩)
    (hrB : bodyB.rotation = 0) (hwB : bodyB.width = ⟨2, 2⟩)
    (hpos : bodyB.position = bodyA.position + ⟨dx, 0⟩) :
    BNBCollide m contacts bodyA bodyB
      = ⟨2, Function.update (Function.update contacts 0
              { position := bodyA.position + ⟨1, 1⟩, normal := ⟨1, 0⟩, separation := dx - 2,
                feature := ⟨0, 0, EDGE1, EDGE2⟩ }) 1
              { position := bodyA.position + ⟨1, -1⟩, normal := ⟨1, 0⟩, separation := dx - 2,
                feature := ⟨0, 0, EDGE2, EDGE3⟩ },
          bodyA, bodyB⟩ := by
  obtain ⟨⟨ax, ay⟩, rA, wA, sA, iA, jA⟩ := bodyA
  obtain ⟨pB, rB, wB, sB, iB, jB⟩ := bodyB
  simp only at hrA hwA hrB hwB hpos
  subst hrA hwA hrB hwB hpos
  have e : (⟨ax, ay⟩ : Vec2 F) + ⟨dx, 0⟩ = ⟨ax + dx, ay⟩ := by
    rw [Vec2.ext_iff2]; simp
  have e0 : (⟨ax, ay⟩ : Vec2 F) + ⟨1, 1⟩ = ⟨ax + 1, ay + 1⟩ := rfl
  have e1 : (⟨ax, ay⟩ : Vec2 F) + ⟨1, -1⟩ = ⟨ax + 1, ay - 1⟩ := by
    rw [Vec2.ext_iff2]; simp [sub_eq_add_neg]
  rw [e, e0, e1]
  exact BNBCollide_aligned_coords m hc hs contacts ax ay dx hdx hdx2 sA sB iA jA iB jB

end Aligned

/-! ## Counts, and the runs of the circle routine -/

section Bounds

variable {F : Type} [LinearOrderedField F]

/-- The count `CNCCollide` returns is 0 or 1, and the slots at or above it are left as
they were. -/
theorem CNCCollide_bound (m : Libm F) (contacts : Nat → Contact F) (bodyA bodyB : Body F) :
    ((CNCCollide m contacts bodyA bodyB).ret = 0 ∨ (CNCCollide m contacts bodyA bodyB).ret = 1) ∧
    ∀ i, (CNCCollide m contacts bodyA bodyB).ret ≤ i →
      (CNCCollide m contacts bodyA bodyB).contacts i = contacts i := by
  unfold CNCCollide
  dsimp only
  split_ifs with h
  · exact ⟨Or.inl rfl, fun _ _ => rfl⟩
  · refine ⟨Or.inr rfl, ?_⟩
    intro i hi
    exact Function.update_noteq (Nat.ne_of_gt hi) _ _

/-- The count `BNCCollide` returns is 0 or 1, and the slots at or above it are left as
they were. -/
theorem BNCCollide_bound (m : Libm F) (contacts : Nat → Contact F) (bodyA bodyB : Body F) :
    ((BNCCollide m contacts bodyA bodyB).ret = 0 ∨ (BNCCollide m contacts bodyA bodyB).ret = 1) ∧
    ∀ i, (BNCCollide m contacts bodyA bodyB).ret ≤ i →
      (BNCCollide m contacts bodyA bodyB).contacts i = contacts i := by
  unfold BNCCollide
  dsimp only
  split_ifs with h1 h2 h3
  · exact ⟨Or.inl rfl, fun _ _ => rfl⟩
  · exact ⟨Or.inl rfl, fun _ _ => rfl⟩
  · refine ⟨Or.inr rfl, ?_⟩
    intro i hi
    exact Function.update_noteq (Nat.ne_of_gt hi) _ _
  · split
    · split
      · refine ⟨Or.inr rfl, ?_⟩
        intro i hi
        exact Function.update_noteq (Nat.ne_of_gt hi) _ _
      · exact ⟨Or.inl rfl, fun _ _ => rfl⟩
    · exact ⟨Or.inl rfl, fun _ _ => rfl⟩

/-- The count `CNBCollide` returns is 0 or 1, and the slots at or above it are left as
they were. -/
theorem CNBCollide_bound (m : Libm F) (contacts : Nat → Contact F) (bodyA bodyB : Body F) :
    ((CNBCollide m contacts bodyA bodyB).ret = 0 ∨ (CNBCollide m contacts bodyA bodyB).ret = 1) ∧
    ∀ i, (CNBCollide m contacts bodyA bodyB).ret ≤ i →
      (CNBCollide m contacts bodyA bodyB).contacts i = contacts i := by
  unfold CNBCollide
  dsimp only
  split_ifs with h1 h2 h3
  · exact ⟨Or.inl rfl, fun _ _ => rfl⟩
  · exact ⟨Or.inl rfl, fun _ _ => rfl⟩
  · refine ⟨Or.inr rfl, ?_⟩
    intro i hi
    exact Function.update_noteq (Nat.ne_of_gt hi) _ _
  · split
    · split
      · refine ⟨Or.inr rfl, ?_⟩
        intro i hi
        exact Function.update_noteq (Nat.ne_of_gt hi) _ _
      · exact ⟨Or.inl rfl, fun _ _ => rfl⟩
    · exact ⟨Or.inl rfl, fun _ _ => rfl⟩


/-- The run of `CNCCollide` when the circles touch or overlap. -/
theorem CNCCollide_hit (m : Libm F) (contacts : Nat → Contact F) (bodyA bodyB : Body F)
    (h : ¬ Dot (bodyB.position - bodyA.position) (bodyB.position - bodyA.position)
          > (bodyA.width.x * 0.5 + bodyB.width.x * 0.5) * (bodyA.width.x * 0.5 + bodyB.width.x * 0.5)) :
    CNCCollide m contacts bodyA bodyB =
      ⟨1, Function.update contacts 0
          { separation :=
              Dot ((bodyB.position - smul (bodyB.width.x * 0.5)
                      ((bodyB.position - bodyA.position).Normalize m))
                    - (bodyA.position + smul (bodyA.width.x * 0.5)
                      ((bodyB.position - bodyA.position).Normalize m)))
                  ((bodyB.position - bodyA.position).Normalize m),
            normal := (bodyB.position - bodyA.position).Normalize m,
            position := smul 0.5
              ((bodyA.position + smul (bodyA.width.x * 0.5)
                  ((bodyB.position - bodyA.position).Normalize m))
                + (bodyB.position - smul (bodyB.width.x * 0.5)
                  ((bodyB.position - bodyA.position).Normalize m))),
            feature := ⟨0, 0, 0, 0⟩ },
        { bodyA with isItem := true }, { bodyB with isItem := true }⟩ := by
  unfold CNCCollide
  dsimp only
  rw [if_neg h]
  rfl

/-- The run of `CNCCollide` when the circles are apart. -/
theorem CNCCollide_miss (m : Libm F) (contacts : Nat → Contact F) (bodyA bodyB : Body F)
    (h : Dot (bodyB.position - bodyA.position) (bodyB.position - bodyA.position)
          > (bodyA.width.x * 0.5 + bodyB.width.x * 0.5) * (bodyA.width.x * 0.5 + bodyB.width.x * 0.5)) :
    CNCCollide m contacts bodyA bodyB = ⟨0, contacts, bodyA, bodyB⟩ := by
  unfold CNCCollide
  dsimp only
  rw [if_pos h]

end Bounds

/-! ## Segment clipping -/

section ClipClaims

variable {F : Type} [LinearOrderedField F]

/-- C6: clipping idempotence: when both end points have signed distance at most 0,
`ClipSegmentToLine` returns 2 points, `vOut[0] = vIn[0]` and `vOut[1] = vIn[1]`
(points and feature tags unchanged), and clipping that output against the same line
again returns it unchanged. -/
theorem ClipSegmentToLine_idempotent (vIn : ClipVertex F × ClipVertex F) (normal : Vec2 F)
    (offset : F) (clipEdge : Nat)
    (h0 : Dot normal vIn.1.v - offset ≤ 0) (h1 : Dot normal vIn.2.v - offset ≤ 0) :
    ClipSegmentToLine vIn normal offset clipEdge = [vIn.1, vIn.2] ∧
    (ClipSegmentToLine vIn normal offset clipEdge).length = 2 ∧
    ∀ c0 c1 : ClipVertex F, ClipSegmentToLine vIn normal offset clipEdge = [c0, c1] →
      ClipSegmentToLine (c0, c1) normal offset clipEdge = [c0, c1] := by
  have key : ∀ w : ClipVertex F × ClipVertex F, Dot normal w.1.v - offset ≤ 0 →
      Dot normal w.2.v - offset ≤ 0 → ClipSegmentToLine w normal offset clipEdge = [w.1, w.2] := by
    intro w hw0 hw1
    exact ClipSegmentToLine_both_kept w normal offset clipEdge hw0 hw1
  refine ⟨key vIn h0 h1, by rw [key vIn h0 h1]; rfl, ?_⟩
  intro c0 c1 hc
  rw [key vIn h0 h1] at hc
  simp only [List.cons.injEq, and_true] at hc
  obtain ⟨rfl, rfl⟩ := hc
  exact key _ h0 h1

theorem ClipSegmentToLine_idempotent_witness :
    Dot (⟨0, 1⟩ : Vec2 ℚ) exampleSegment.1.v - 3 ≤ 0 ∧
    Dot (⟨0, 1⟩ : Vec2 ℚ) exampleSegment.2.v - 3 ≤ 0 ∧
    ClipSegmentToLine exampleSegment ⟨0, 1⟩ 3 EDGE4 = [exampleSegment.1, exampleSegment.2] :=
  ⟨by norm_num [exampleSegment, Dot], by norm_num [exampleSegment, Dot],
   (ClipSegmentToLine_idempotent exampleSegment ⟨0, 1⟩ 3 EDGE4
      (by norm_num [exampleSegment, Dot]) (by norm_num [exampleSegment, Dot])).1⟩

end ClipClaims

/-! ## Box against box -/

section BNBClaims

variable {F : Type} [LinearOrderedField F]

/-- The run of `BNBCollide` on the unrotated 2 x 2 boxes centred at (0,0) and (3/2,0). -/
theorem BNBCollide_example :
    BNBCollide libmQ zeroContacts (boxAt 0 0) (boxAt (3 / 2) 0)
      = ⟨2, Function.update (Function.update zeroContacts 0
              { position := ⟨1, 1⟩, normal := ⟨1, 0⟩, separation := -1 / 2,
                feature := ⟨0, 0, EDGE1, EDGE2⟩ }) 1
              { position := ⟨1, -1⟩, normal := ⟨1, 0⟩, separation := -1 / 2,
                feature := ⟨0, 0, EDGE2, EDGE3⟩ },
          boxAt 0 0, boxAt (3 / 2) 0⟩ := by
  rw [BNBCollide_aligned libmQ libmQ_cosf_zero libmQ_sinf_zero zeroContacts (boxAt 0 0)
    (boxAt (3 / 2) 0) (3 / 2) (by norm_num) (by norm_num) rfl rfl rfl rfl
    (by norm_num [boxAt, Vec2.ext_iff2])]
  have e0 : (boxAt (0 : ℚ) 0).position + ⟨1, 1⟩ = ⟨1, 1⟩ := by
    rw [Vec2.ext_iff2]; norm_num [boxAt]
  have e1 : (boxAt (0 : ℚ) 0).position + ⟨1, -1⟩ = ⟨1, -1⟩ := by
    rw [Vec2.ext_iff2]; norm_num [boxAt]
  have e2 : (3 / 2 : ℚ) - 2 = -1 / 2 := by norm_num
  rw [e0, e1, e2]

/-- C1: every contact `BNBCollide` emits has separation at most 0: for each index `i`
below the returned count, `contacts[i].separation ≤ 0`. -/
theorem BNBCollide_separation_nonpos (m : Libm F) (contacts : Nat → Contact F)
    (bodyA bodyB : Body F) (i : Nat) (hi : i < (BNBCollide m contacts bodyA bodyB).ret) :
    ((BNBCollide m contacts bodyA bodyB).contacts i).separation ≤ 0 := by
  refine BNBCollide_forall (fun c => c.separation ≤ 0) m contacts bodyA bodyB ?_ i hi
  intro p feature hs _ _
  exact hs

theorem BNBCollide_separation_nonpos_witness :
    0 < (BNBCollide libmQ zeroContacts (boxAt 0 0) (boxAt (3 / 2) 0)).ret ∧
    ((BNBCollide libmQ zeroContacts (boxAt 0 0) (boxAt (3 / 2) 0)).contacts 0).separation ≤ 0 :=
  ⟨by rw [BNBCollide_example]; decide,
   BNBCollide_separation_nonpos libmQ zeroContacts (boxAt 0 0) (boxAt (3 / 2) 0) 0
    (by rw [BNBCollide_example]; decide)⟩

/-- C2: every contact `BNBCollide` emits carries a normal that is plus or minus a
column of the rotation matrix of A or of B, is a unit vector (the rotation matrices
being built from a cosine and a sine with `cos² + sin² = 1`), and points from A
toward B: `Dot(normal, posB - posA) ≥ 0`. -/
theorem BNBCollide_normal (m : Libm F) (contacts : Nat → Contact F) (bodyA bodyB : Body F)
    (hrotA : m.cosf bodyA.rotation * m.cosf bodyA.rotation
              + m.sinf bodyA.rotation * m.sinf bodyA.rotation = 1)
    (hrotB : m.cosf bodyB.rotation * m.cosf bodyB.rotation
              + m.sinf bodyB.rotation * m.sinf bodyB.rotation = 1)
    (i : Nat) (hi : i < (BNBCollide m contacts bodyA bodyB).ret) :
    (((BNBCollide m contacts bodyA bodyB).contacts i).normal = (Mat22.ofAngle m bodyA.rotation).col1 ∨
      ((BNBCollide m contacts bodyA bodyB).contacts i).normal = -(Mat22.ofAngle m bodyA.rotation).col1 ∨
      ((BNBCollide m contacts bodyA bodyB).contacts i).normal = (Mat22.ofAngle m bodyA.rotation).col2 ∨
      ((BNBCollide m contacts bodyA bodyB).contacts i).normal = -(Mat22.ofAngle m bodyA.rotation).col2 ∨
      ((BNBCollide m contacts bodyA bodyB).contacts i).normal = (Mat22.ofAngle m bodyB.rotation).col1 ∨
      ((BNBCollide m contacts bodyA bodyB).contacts i).normal = -(Mat22.ofAngle m bodyB.rotation).col1 ∨
      ((BNBCollide m contacts bodyA bodyB).contacts i).normal = (Mat22.ofAngle m bodyB.rotation).col2 ∨
      ((BNBCollide m contacts bodyA bodyB).contacts i).normal = -(Mat22.ofAngle m bodyB.rotation).col2) ∧
    Dot ((BNBCollide m contacts bodyA bodyB).contacts i).normal
        ((BNBCollide m contacts bodyA bodyB).contacts i).normal = 1 ∧
    Dot ((BNBCollide m contacts bodyA bodyB).contacts i).normal
        (bodyB.position - bodyA.position) ≥ 0 := by
  refine BNBCollide_forall
    (fun c => (c.normal = (Mat22.ofAngle m bodyA.rotation).col1 ∨
        c.normal = -(Mat22.ofAngle m bodyA.rotation).col1 ∨
        c.normal = (Mat22.ofAngle m bodyA.rotation).col2 ∨
        c.normal = -(Mat22.ofAngle m bodyA.rotation).col2 ∨
        c.normal = (Mat22.ofAngle m bodyB.rotation).col1 ∨
        c.normal = -(Mat22.ofAngle m bodyB.rotation).col1 ∨
        c.normal = (Mat22.ofAngle m bodyB.rotation).col2 ∨
        c.normal = -(Mat22.ofAngle m bodyB.rotation).col2) ∧
      Dot c.normal c.normal = 1 ∧ Dot c.normal (bodyB.position - bodyA.position) ≥ 0)
    m contacts bodyA bodyB ?_ i hi
  intro p feature _ _ _
  dsimp only
  have uA1 := Mat22.ofAngle_col1_unit m bodyA.rotation hrotA
  have uA2 := Mat22.ofAngle_col2_unit m bodyA.rotation hrotA
  have uB1 := Mat22.ofAngle_col1_unit m bodyB.rotation hrotB
  have uB2 := Mat22.ofAngle_col2_unit m bodyB.rotation hrotB
  have pA1 := face_normal_props (Mat22.ofAngle m bodyA.rotation).col1
    (bodyB.position - bodyA.position)
  have pA2 := face_normal_props (Mat22.ofAngle m bodyA.rotation).col2
    (bodyB.position - bodyA.position)
  have pB1 := face_normal_props (Mat22.ofAngle m bodyB.rotation).col1
    (bodyB.position - bodyA.position)
  have pB2 := face_normal_props (Mat22.ofAngle m bodyB.rotation).col2
    (bodyB.position - bodyA.position)
  unfold BNBCollide.best
  dsimp only
  rcases BNBCollide.bestAxis_cases (smul 0.5 bodyA.width) (smul 0.5 bodyB.width)
      (Mat22.ofAngle m bodyA.rotation) (Mat22.ofAngle m bodyB.rotation)
      ((Mat22.ofAngle m bodyA.rotation).Transpose.mulVec (bodyB.position - bodyA.position))
      ((Mat22.ofAngle m bodyB.rotation).Transpose.mulVec (bodyB.position - bodyA.position))
      (BNBCollide.faceA m bodyA bodyB) (BNBCollide.faceB m bodyA bodyB) with
    h | h | h | h <;> rw [h.2.2]
  · rw [Mat22.Transpose_mulVec_x]
    refine ⟨?_, by rw [pA1.2.1, uA1], pA1.2.2⟩
    rcases pA1.1 with e | e <;> rw [e] <;> simp
  · rw [Mat22.Transpose_mulVec_y]
    refine ⟨?_, by rw [pA2.2.1, uA2], pA2.2.2⟩
    rcases pA2.1 with e | e <;> rw [e] <;> simp
  · rw [Mat22.Transpose_mulVec_x]
    refine ⟨?_, by rw [pB1.2.1, uB1], pB1.2.2⟩
    rcases pB1.1 with e | e <;> rw [e] <;> simp
  · rw [Mat22.Transpose_mulVec_y]
    refine ⟨?_, by rw [pB2.2.1, uB2], pB2.2.2⟩
    rcases pB2.1 with e | e <;> rw [e] <;> simp

theorem BNBCollide_normal_witness :
    0 < (BNBCollide libmQ zeroContacts (boxAt 0 0) (boxAt (3 / 2) 0)).ret ∧
    Dot ((BNBCollide libmQ zeroContacts (boxAt 0 0) (boxAt (3 / 2) 0)).contacts 0).normal
        ((BNBCollide libmQ zeroContacts (boxAt 0 0) (boxAt (3 / 2) 0)).contacts 0).normal = 1 ∧
    Dot ((BNBCollide libmQ zeroContacts (boxAt 0 0) (boxAt (3 / 2) 0)).contacts 0).normal
        ((boxAt (3 / 2 : ℚ) 0).position - (boxAt (0 : ℚ) 0).position) ≥ 0 :=
  ⟨by rw [BNBCollide_example]; decide,
   (BNBCollide_normal libmQ zeroContacts (boxAt 0 0) (boxAt (3 / 2) 0) (libmQ_unit _)
      (libmQ_unit _) 0 (by rw [BNBCollide_example]; decide)).2⟩

/-- C3: if any component of `faceA = |dA| - hA - |C| hB` or of
`faceB = |dB| - |C^T| hA - hB` is strictly positive, `BNBCollide` returns 0 and
leaves the contact buffer (and the bodies) as they were; in particular two unrotated
2 x 2 boxes centred at (0,0) and (10,0) yield 0. -/
theorem BNBCollide_separated (m : Libm F) (contacts : Nat → Contact F) (bodyA bodyB : Body F) :
    ((BNBCollide.faceA m bodyA bodyB).x > 0 ∨ (BNBCollide.faceA m bodyA bodyB).y > 0 ∨
      (BNBCollide.faceB m bodyA bodyB).x > 0 ∨ (BNBCollide.faceB m bodyA bodyB).y > 0 →
      BNBCollide m contacts bodyA bodyB = ⟨0, contacts, bodyA, bodyB⟩) ∧
    (m.cosf 0 = 1 → m.sinf 0 = 0 →
      bodyA.rotation = 0 → bodyA.width = ⟨2, 2⟩ → bodyA.position = ⟨0, 0⟩ →
      bodyB.rotation = 0 → bodyB.width = ⟨2, 2⟩ → bodyB.position = ⟨10, 0⟩ →
      BNBCollide m contacts bodyA bodyB = ⟨0, contacts, bodyA, bodyB⟩) := by
  have general : ∀ A B : Body F,
      ((BNBCollide.faceA m A B).x > 0 ∨ (BNBCollide.faceA m A B).y > 0 ∨
        (BNBCollide.faceB m A B).x > 0 ∨ (BNBCollide.faceB m A B).y > 0) →
      BNBCollide m contacts A B = ⟨0, contacts, A, B⟩ := by
    intro A B h
    rw [BNBCollide_eq]
    by_cases hA : (BNBCollide.faceA m A B).x > 0 ∨ (BNBCollide.faceA m A B).y > 0
    · rw [if_pos hA]
    · rw [if_neg hA]
      have hB : (BNBCollide.faceB m A B).x > 0 ∨ (BNBCollide.faceB m A B).y > 0 := by
        rcases h with h | h | h | h
        · exact absurd (Or.inl h) hA
        · exact absurd (Or.inr h) hA
        · exact Or.inl h
        · exact Or.inr h
      rw [if_pos hB]
  refine ⟨general bodyA bodyB, ?_⟩
  intro hc hs hrA hwA hpA hrB hwB hpB
  apply general
  left
  obtain ⟨pA, rA, wA, sA, iA, jA⟩ := bodyA
  obtain ⟨pB, rB, wB, sB, iB, jB⟩ := bodyB
  simp only at hrA hwA hpA hrB hwB hpB
  subst hrA hwA hpA hrB hwB hpB
  have e : (⟨10, 0⟩ : Vec2 F) = ⟨0 + 10, 0⟩ := by rw [zero_add]
  rw [e, faceA_aligned m hc hs 0 0 10 (by norm_num)]
  show (10 : F) - 2 > 0
  norm_num

theorem BNBCollide_separated_witness :
    (BNBCollide.faceA libmQ (boxAt 0 0) (boxAt 10 0)).x > 0 ∧
    BNBCollide libmQ zeroContacts (boxAt 0 0) (boxAt 10 0)
      = ⟨0, zeroContacts, boxAt 0 0, boxAt 10 0⟩ :=
  ⟨by norm_num [BNBCollide.faceA, boxAt, libmQ, Mat22.ofAngle, Mat22.Transpose, Mat22.mulVec,
      Mat22.mul, Mat22.Abs, Abs, Absf],
   (BNBCollide_separated libmQ zeroContacts (boxAt 0 0) (boxAt 10 0)).2 libmQ_cosf_zero
      libmQ_sinf_zero rfl rfl rfl rfl rfl rfl⟩

/-- C9: for two unrotated 2 x 2 boxes with B's centre at A's centre plus `(dx, 0)`,
`0 < dx ≤ 2`, `BNBCollide` returns exactly 2 contacts, both with normal (1,0) and
separation `dx - 2`, at the positions `posA + (1,1)` and `posA + (1,-1)`; in
particular for centres (0,0) and (1.5,0) both separations are -0.5. -/
theorem BNBCollide_aligned_boxes (m : Libm F) (hc : m.cosf 0 = 1) (hs : m.sinf 0 = 0)
    (contacts : Nat → Contact F) (bodyA bodyB : Body F) (dx : F) (hdx : 0 < dx) (hdx2 : dx ≤ 2)
    (hrA : bodyA.rotation = 0) (hwA : bodyA.width = ⟨2, 2⟩)
    (hrB : bodyB.rotation = 0) (hwB : bodyB.width = ⟨2, 2⟩)
    (hpos : bodyB.position = bodyA.position + ⟨dx, 0⟩) :
    (BNBCollide m contacts bodyA bodyB).ret = 2 ∧
    ((BNBCollide m contacts bodyA bodyB).contacts 0).normal = ⟨1, 0⟩ ∧
    ((BNBCollide m contacts bodyA bodyB).contacts 0).separation = dx - 2 ∧
    ((BNBCollide m contacts bodyA bodyB).contacts 0).position = bodyA.position + ⟨1, 1⟩ ∧
    ((BNBCollide m contacts bodyA bodyB).contacts 1).normal = ⟨1, 0⟩ ∧
    ((BNBCollide m contacts bodyA bodyB).contacts 1).separation = dx - 2 ∧
    ((BNBCollide m contacts bodyA bodyB).contacts 1).position = bodyA.position + ⟨1, -1⟩ ∧
    (bodyA.position = ⟨0, 0⟩ → dx = 1.5 →
      ((BNBCollide m contacts bodyA bodyB).contacts 0).separation = -0.5 ∧
      ((BNBCollide m contacts bodyA bodyB).contacts 1).separation = -0.5) := by
  rw [BNBCollide_aligned m hc hs contacts bodyA bodyB dx hdx hdx2 hrA hwA hrB hwB hpos]
  refine ⟨rfl, ?_, ?_, ?_, ?_, ?_, ?_, ?_⟩
  · simp [Function.update]
  · simp [Function.update]
  · simp [Function.update]
  · simp [Function.update]
  · simp [Function.update]
  · simp [Function.update]
  · intro _ hd
    subst hd
    simp only [Function.update]
    norm_num

theorem BNBCollide_aligned_boxes_witness :
    (BNBCollide libmQ zeroContacts (boxAt 0 0) (boxAt (3 / 2) 0)).ret = 2 ∧
    ((BNBCollide libmQ zeroContacts (boxAt 0 0) (boxAt (3 / 2) 0)).contacts 0).normal = ⟨1, 0⟩ ∧
    ((BNBCollide libmQ zeroContacts (boxAt 0 0) (boxAt (3 / 2) 0)).contacts 0).separation
      = 3 / 2 - 2 ∧
    ((BNBCollide libmQ zeroContacts (boxAt 0 0) (boxAt (3 / 2) 0)).contacts 1).normal = ⟨1, 0⟩ ∧
    ((BNBCollide libmQ zeroContacts (boxAt 0 0) (boxAt (3 / 2) 0)).contacts 1).separation
      = 3 / 2 - 2 :=
  have h := BNBCollide_aligned_boxes libmQ libmQ_cosf_zero libmQ_sinf_zero zeroContacts
    (boxAt 0 0) (boxAt (3 / 2) 0) (3 / 2) (by norm_num) (by norm_num) rfl rfl rfl rfl
    (by norm_num [boxAt, Vec2.ext_iff2])
  ⟨h.1, h.2.1, h.2.2.1, h.2.2.2.2.1, h.2.2.2.2.2.1⟩

end BNBClaims

/-! ## Circle against circle -/

section CNCClaims

variable {F : Type} [LinearOrderedField F]

/-- The run of `CNCCollide` on two circles of diameter 2 centred at (0,0) and (1,0),
for a math library with `sqrtf 1 = 1`. -/
theorem CNCCollide_unit (m : Libm F) (hsq : m.sqrtf 1 = 1) (contacts : Nat → Contact F)
    (bodyA bodyB : Body F) (hpA : bodyA.position = ⟨0, 0⟩) (hwA : bodyA.width.x = 2)
    (hpB : bodyB.position = ⟨1, 0⟩) (hwB : bodyB.width.x = 2) :
    CNCCollide m contacts bodyA bodyB =
      ⟨1, Function.update contacts 0
          { separation := -1, normal := ⟨1, 0⟩, position := ⟨1 / 2, 0⟩,
            feature := ⟨0, 0, 0, 0⟩ },
        { bodyA with isItem := true }, { bodyB with isItem := true }⟩ := by
  have hlen : (bodyB.position - bodyA.position).Length m = 1 := by
    rw [hpA, hpB]
    simp only [Vec2.Length, Vec2.sub_x, Vec2.sub_y]
    norm_num [hsq]
  have hn : (bodyB.position - bodyA.position).Normalize m = ⟨1, 0⟩ := by
    unfold Vec2.Normalize
    rw [hlen, hpA, hpB, Vec2.ext_iff2]
    simp only [smul_x, smul_y, Vec2.sub_x, Vec2.sub_y]
    norm_num
  rw [CNCCollide_hit m contacts bodyA bodyB
    (by rw [hpA, hpB, hwA, hwB]; simp only [Dot, Vec2.sub_x, Vec2.sub_y]; norm_num)]
  rw [hn, hpA, hpB, hwA, hwB]
  have e1 : Dot ((⟨1, 0⟩ : Vec2 F) - smul (2 * 0.5) ⟨1, 0⟩ - (⟨0, 0⟩ + smul (2 * 0.5) ⟨1, 0⟩))
      (⟨1, 0⟩ : Vec2 F) = -1 := by
    simp only [Dot, Vec2.sub_x, Vec2.sub_y, Vec2.add_x, Vec2.add_y, smul_x, smul_y]
    norm_num
  have e2 : smul (0.5 : F) ((⟨0, 0⟩ : Vec2 F) + smul (2 * 0.5) ⟨1, 0⟩
      + (⟨1, 0⟩ - smul (2 * 0.5) ⟨1, 0⟩)) = ⟨1 / 2, 0⟩ := by
    rw [Vec2.ext_iff2]
    simp only [Vec2.sub_x, Vec2.sub_y, Vec2.add_x, Vec2.add_y, smul_x, smul_y]
    norm_num
  rw [e1, e2]

/-- C10 as the code has it: for two circles of diameter 2 centred at (0,0) and (1,0)
(and `sqrtf 1 = 1`), `CNCCollide` emits exactly 1 contact with normal (1,0),
separation -1 and position (1/2, 0), the midpoint of the surface points (1,0) and
(0,0). -/
theorem CNCCollide_unit_circles (m : Libm F) (hsq : m.sqrtf 1 = 1) (contacts : Nat → Contact F)
    (bodyA bodyB : Body F) (hpA : bodyA.position = ⟨0, 0⟩) (hwA : bodyA.width.x = 2)
    (hpB : bodyB.position = ⟨1, 0⟩) (hwB : bodyB.width.x = 2) :
    (CNCCollide m contacts bodyA bodyB).ret = 1 ∧
    ((CNCCollide m contacts bodyA bodyB).contacts 0).normal = ⟨1, 0⟩ ∧
    ((CNCCollide m contacts bodyA bodyB).contacts 0).position = ⟨1 / 2, 0⟩ ∧
    ((CNCCollide m contacts bodyA bodyB).contacts 0).separation = -1 := by
  rw [CNCCollide_unit m hsq contacts bodyA bodyB hpA hwA hpB hwB]
  dsimp only
  rw [Function.update_same]
  exact ⟨rfl, rfl, rfl, rfl⟩

theorem CNCCollide_unit_circles_witness :
    (CNCCollide libmQ zeroContacts (circleAt 0 0 2) (circleAt 1 0 2)).ret = 1 ∧
    ((CNCCollide libmQ zeroContacts (circleAt 0 0 2) (circleAt 1 0 2)).contacts 0).normal
      = ⟨1, 0⟩ ∧
    ((CNCCollide libmQ zeroContacts (circleAt 0 0 2) (circleAt 1 0 2)).contacts 0).position
      = ⟨1 / 2, 0⟩ ∧
    ((CNCCollide libmQ zeroContacts (circleAt 0 0 2) (circleAt 1 0 2)).contacts 0).separation
      = -1 :=
  CNCCollide_unit_circles libmQ libmQ_sqrtf_one zeroContacts (circleAt 0 0 2) (circleAt 1 0 2)
    rfl rfl rfl rfl

/-- C10 as stated fails: on the two unit circles centred at (0,0) and (1,0) the
emitted contact is not at position (0,0). -/
theorem CNCCollide_unit_circles_not_origin :
    ¬ ((CNCCollide libmQ zeroContacts (circleAt 0 0 2) (circleAt 1 0 2)).ret = 1 ∧
       ((CNCCollide libmQ zeroContacts (circleAt 0 0 2) (circleAt 1 0 2)).contacts 0).normal
         = ⟨1, 0⟩ ∧
       ((CNCCollide libmQ zeroContacts (circleAt 0 0 2) (circleAt 1 0 2)).contacts 0).position
         = ⟨0, 0⟩ ∧
       ((CNCCollide libmQ zeroContacts (circleAt 0 0 2) (circleAt 1 0 2)).contacts 0).separation
         = -1) := by
  rw [CNCCollide_unit libmQ libmQ_sqrtf_one zeroContacts (circleAt 0 0 2) (circleAt 1 0 2)
    rfl rfl rfl rfl]
  dsimp only
  rw [Function.update_same]
  rintro ⟨-, -, hp, -⟩
  rw [Vec2.ext_iff2] at hp
  norm_num at hp

end CNCClaims

/-! ## The dispatcher -/

section CollideClaims

variable {F : Type} [LinearOrderedField F]

/-- C7: for bodies of any shape kinds `Collide` returns 0, 1 or 2 and leaves every
contact slot of index 2 or more as it was; `BNBCollide` returns 0, 1 or 2, and
`CNCCollide`, `BNCCollide` and `CNBCollide` return 0 or 1. -/
theorem Collide_count (m : Libm F) (contacts : Nat → Contact F) (bodyA bodyB : Body F) :
    ((Collide m contacts bodyA bodyB).ret = 0 ∨ (Collide m contacts bodyA bodyB).ret = 1 ∨
      (Collide m contacts bodyA bodyB).ret = 2) ∧
    (∀ i, 2 ≤ i → (Collide m contacts bodyA bodyB).contacts i = contacts i) ∧
    ((BNBCollide m contacts bodyA bodyB).ret = 0 ∨ (BNBCollide m contacts bodyA bodyB).ret = 1 ∨
      (BNBCollide m contacts bodyA bodyB).ret = 2) ∧
    ((CNCCollide m contacts bodyA bodyB).ret = 0 ∨ (CNCCollide m contacts bodyA bodyB).ret = 1) ∧
    ((BNCCollide m contacts bodyA bodyB).ret = 0 ∨ (BNCCollide m contacts bodyA bodyB).ret = 1) ∧
    ((CNBCollide m contacts bodyA bodyB).ret = 0 ∨ (CNBCollide m contacts bodyA bodyB).ret = 1) := by
  have hbnb := BNBCollide_bound m contacts bodyA bodyB
  have hcnc := CNCCollide_bound m contacts bodyA bodyB
  have hbnc := BNCCollide_bound m contacts bodyA bodyB
  have hcnb := CNBCollide_bound m contacts bodyA bodyB
  have three : ∀ n : Nat, n ≤ 2 → n = 0 ∨ n = 1 ∨ n = 2 := by intro n hn; omega
  have two : ∀ n : Nat, n = 0 ∨ n = 1 → n ≤ 2 := by intro n hn; omega
  refine ⟨?_, ?_, three _ hbnb.1, hcnc.1, hbnc.1, hcnb.1⟩
  · unfold Collide
    split_ifs
    · exact three _ hbnb.1
    · exact three _ (two _ hcnc.1)
    · exact three _ (two _ hbnc.1)
    · exact three _ (two _ hbnc.1)
    · exact three _ (two _ hbnc.1)
    · exact three _ hbnb.1
  · intro i hi
    unfold Collide
    split_ifs
    · exact hbnb.2 i (le_trans hbnb.1 hi)
    · exact hcnc.2 i (le_trans (two _ hcnc.1) hi)
    · exact hbnc.2 i (le_trans (two _ hbnc.1) hi)
    · exact hbnc.2 i (le_trans (two _ hbnc.1) hi)
    · exact hbnc.2 i (le_trans (two _ hbnc.1) hi)
    · exact hbnb.2 i (le_trans hbnb.1 hi)

theorem Collide_count_witness :
    (Collide libmQ zeroContacts (boxAt 0 0) (circleAt 1 0 2)).contacts 2 = zeroContacts 2 :=
  (Collide_count libmQ zeroContacts (boxAt 0 0) (circleAt 1 0 2)).2.1 2 (le_refl 2)

/-- C8: `Collide` returns exactly the result of the routine its shape tests select,
called on `(A, B)` in the order received: box+box gives `BNBCollide`, circle+circle
`CNCCollide`, box+circle, circle+box and triangle+triangle `BNCCollide`, every
remaining pairing `BNBCollide`; `CNBCollide` is never the result. -/
theorem Collide_dispatch (m : Libm F) (contacts : Nat → Contact F) (bodyA bodyB : Body F) :
    (bodyA.shape = Shape.box → bodyB.shape = Shape.box →
      Collide m contacts bodyA bodyB = BNBCollide m contacts bodyA bodyB) ∧
    (bodyA.shape = Shape.circle → bodyB.shape = Shape.circle →
      Collide m contacts bodyA bodyB = CNCCollide m contacts bodyA bodyB) ∧
    (bodyA.shape = Shape.box → bodyB.shape = Shape.circle →
      Collide m contacts bodyA bodyB = BNCCollide m contacts bodyA bodyB) ∧
    (bodyA.shape = Shape.circle → bodyB.shape = Shape.box →
      Collide m contacts bodyA bodyB = BNCCollide m contacts bodyA bodyB) ∧
    (bodyA.shape = Shape.triangle → bodyB.shape = Shape.triangle →
      Collide m contacts bodyA bodyB = BNCCollide m contacts bodyA bodyB) ∧
    (¬ (bodyA.shape = Shape.box ∧ bodyB.shape = Shape.box) →
      ¬ (bodyA.shape = Shape.circle ∧ bodyB.shape = Shape.circle) →
      ¬ (bodyA.shape = Shape.box ∧ bodyB.shape = Shape.circle) →
      ¬ (bodyA.shape = Shape.circle ∧ bodyB.shape = Shape.box) →
      ¬ (bodyA.shape = Shape.triangle ∧ bodyB.shape = Shape.triangle) →
      Collide m contacts bodyA bodyB = BNBCollide m contacts bodyA bodyB) ∧
    (Collide m contacts bodyA bodyB = BNBCollide m contacts bodyA bodyB ∨
      Collide m contacts bodyA bodyB = CNCCollide m contacts bodyA bodyB ∨
      Collide m contacts bodyA bodyB = BNCCollide m contacts bodyA bodyB) := by
  unfold Collide
  rcases hA : bodyA.shape <;> rcases hB : bodyB.shape <;> simp

theorem Collide_dispatch_witness :
    Collide libmQ zeroContacts { boxAt 0 0 with shape := Shape.triangle } (circleAt 1 0 2)
      = BNBCollide libmQ zeroContacts { boxAt 0 0 with shape := Shape.triangle }
          (circleAt 1 0 2) :=
  (Collide_dispatch libmQ zeroContacts { boxAt 0 0 with shape := Shape.triangle }
    (circleAt 1 0 2)).2.2.2.2.2.1 (by decide) (by decide) (by decide) (by decide) (by decide)

end CollideClaims

/-! ## Clipping a segment that crosses the line -/

section CrossingClaims

variable {F : Type} [LinearOrderedField F]

end CrossingClaims

/-! ## The shape of a `BNCCollide` run -/

section BNCShape

variable {F : Type} [LinearOrderedField F]

/-- The five ways a run of `BNCCollide` can go: the face test fails; the deep branch
misses; the deep branch emits; a clip of the face branch returns fewer than two
points; the face branch emits. -/
theorem BNCCollide_cases (m : Libm F) (contacts : Nat → Contact F) (bodyA bodyB : Body F) :
    (((BNCCollide.faceA m bodyA bodyB).x > 0 ∨ (BNCCollide.faceA m bodyA bodyB).y > 0) ∧
      BNCCollide m contacts bodyA bodyB = ⟨0, contacts, bodyA, bodyB⟩) ∨
    (¬ ((BNCCollide.faceA m bodyA bodyB).x > 0 ∨ (BNCCollide.faceA m bodyA bodyB).y > 0) ∧
      Dot (bodyB.position - bodyA.position) (BNCCollide.d bodyA) ≥ 1 ∧
      Dot (bodyB.position - bodyA.position) (bodyB.position - bodyA.position)
        > (BNCCollide.rA m bodyA + bodyB.width.x * 0.5)
            * (BNCCollide.rA m bodyA + bodyB.width.x * 0.5) ∧
      BNCCollide m contacts bodyA bodyB = ⟨0, contacts, bodyA, bodyB⟩) ∨
    (¬ ((BNCCollide.faceA m bodyA bodyB).x > 0 ∨ (BNCCollide.faceA m bodyA bodyB).y > 0) ∧
      Dot (bodyB.position - bodyA.position) (BNCCollide.d bodyA) ≥ 1 ∧
      ¬ Dot (bodyB.position - bodyA.position) (bodyB.position - bodyA.position)
        > (BNCCollide.rA m bodyA + bodyB.width.x * 0.5)
            * (BNCCollide.rA m bodyA + bodyB.width.x * 0.5) ∧
      BNCCollide m contacts bodyA bodyB =
        ⟨1, Function.update contacts 0
            { contacts 0 with
              separation :=
                Dot ((bodyB.position - smul (bodyB.width.x * 0.5)
                        ((bodyB.position - bodyA.position).Normalize m))
                      - (bodyA.position + smul (BNCCollide.rA m bodyA)
                        ((bodyB.position - bodyA.position).Normalize m)))
                    ((bodyB.position - bodyA.position).Normalize m),
              normal := (bodyB.position - bodyA.position).Normalize m,
              position := smul 0.5
                ((bodyA.position + smul (BNCCollide.rA m bodyA)
                    ((bodyB.position - bodyA.position).Normalize m))
                  + (bodyB.position - smul (bodyB.width.x * 0.5)
                    ((bodyB.position - bodyA.position).Normalize m))) },
          bodyA, bodyB⟩) ∨
    (¬ ((BNCCollide.faceA m bodyA bodyB).x > 0 ∨ (BNCCollide.faceA m bodyA bodyB).y > 0) ∧
      ¬ Dot (bodyB.position - bodyA.position) (BNCCollide.d bodyA) ≥ 1 ∧
      BNCCollide m contacts bodyA bodyB = ⟨0, contacts, bodyA, bodyB⟩) ∨
    (¬ ((BNCCollide.faceA m bodyA bodyB).x > 0 ∨ (BNCCollide.faceA m bodyA bodyB).y > 0) ∧
      ¬ Dot (bodyB.position - bodyA.position) (BNCCollide.d bodyA) ≥ 1 ∧
      ∃ (c0 c1 p0 p1 : ClipVertex F) (t1 t2 : List (ClipVertex F)),
        ClipSegmentToLine (BNCCollide.face m bodyA bodyB).clip.incidentEdge
          (-(BNCCollide.face m bodyA bodyB).clip.sideNormal)
          (BNCCollide.face m bodyA bodyB).clip.negSide
          (BNCCollide.face m bodyA bodyB).clip.negEdge = c0 :: c1 :: t1 ∧
        ClipSegmentToLine (c0, c1) (BNCCollide.face m bodyA bodyB).clip.sideNormal
          (BNCCollide.face m bodyA bodyB).clip.posSide
          (BNCCollide.face m bodyA bodyB).clip.posEdge = p0 :: p1 :: t2 ∧
        BNCCollide m contacts bodyA bodyB =
          ⟨1, Function.update contacts 0
              { separation :=
                  Dot ((BNCCollide.face m bodyA bodyB).cB - (BNCCollide.face m bodyA bodyB).cA)
                    (BNCCollide.face m bodyA bodyB).clip.frontNormal,
                normal := (BNCCollide.face m bodyA bodyB).clip.frontNormal,
                position := smul 0.5
                  (p0.v - smul (Dot ((BNCCollide.face m bodyA bodyB).cB
                                      - (BNCCollide.face m bodyA bodyB).cA)
                                  (BNCCollide.face m bodyA bodyB).clip.frontNormal)
                            (BNCCollide.face m bodyA bodyB).clip.frontNormal
                    + p1.v
                    - smul (Dot ((BNCCollide.face m bodyA bodyB).cB
                                  - (BNCCollide.face m bodyA bodyB).cA)
                              (BNCCollide.face m bodyA bodyB).clip.frontNormal)
                        (BNCCollide.face m bodyA bodyB).clip.frontNormal),
                feature := p0.fp },
            bodyA, { bodyB with isJump := true }⟩) := by
  by_cases h1 : (BNCCollide.faceA m bodyA bodyB).x > 0 ∨ (BNCCollide.faceA m bodyA bodyB).y > 0
  · left
    refine ⟨h1, ?_⟩
    unfold BNCCollide
    dsimp only
    exact if_pos h1
  · right
    by_cases h2 : Dot (bodyB.position - bodyA.position) (BNCCollide.d bodyA) ≥ 1
    · by_cases h3 : Dot (bodyB.position - bodyA.position) (bodyB.position - bodyA.position)
          > (BNCCollide.rA m bodyA + bodyB.width.x * 0.5)
              * (BNCCollide.rA m bodyA + bodyB.width.x * 0.5)
      · left
        refine ⟨h1, h2, h3, ?_⟩
        unfold BNCCollide
        dsimp only
        exact (if_neg h1).trans ((if_pos h2).trans (if_pos h3))
      · right; left
        refine ⟨h1, h2, h3, ?_⟩
        unfold BNCCollide
        dsimp only
        exact (if_neg h1).trans ((if_pos h2).trans (if_neg h3))
    · right; right
      have key : BNCCollide m contacts bodyA bodyB =
          (match ClipSegmentToLine (BNCCollide.face m bodyA bodyB).clip.incidentEdge
              (-(BNCCollide.face m bodyA bodyB).clip.sideNormal)
              (BNCCollide.face m bodyA bodyB).clip.negSide
              (BNCCollide.face m bodyA bodyB).clip.negEdge with
          | c0 :: c1 :: _ =>
            match ClipSegmentToLine (c0, c1) (BNCCollide.face m bodyA bodyB).clip.sideNormal
              (BNCCollide.face m bodyA bodyB).clip.posSide
              (BNCCollide.face m bodyA bodyB).clip.posEdge with
            | p0 :: p1 :: _ =>
              ⟨1, Function.update contacts 0
                  { separation :=
                      Dot ((BNCCollide.face m bodyA bodyB).cB - (BNCCollide.face m bodyA bodyB).cA)
                        (BNCCollide.face m bodyA bodyB).clip.frontNormal,
                    normal := (BNCCollide.face m bodyA bodyB).clip.frontNormal,
                    position := smul 0.5
                      (p0.v - smul (Dot ((BNCCollide.face m bodyA bodyB).cB
                                          - (BNCCollide.face m bodyA bodyB).cA)
                                      (BNCCollide.face m bodyA bodyB).clip.frontNormal)
                                (BNCCollide.face m bodyA bodyB).clip.frontNormal
                        + p1.v
                        - smul (Dot ((BNCCollide.face m bodyA bodyB).cB
                                      - (BNCCollide.face m bodyA bodyB).cA)
                                  (BNCCollide.face m bodyA bodyB).clip.frontNormal)
                            (BNCCollide.face m bodyA bodyB).clip.frontNormal),
                    feature := p0.fp },
                bodyA, { bodyB with isJump := true }⟩
            | _ => ⟨0, contacts, bodyA, bodyB⟩
          | _ => ⟨0, contacts, bodyA, bodyB⟩) := by
        unfold BNCCollide
        dsimp only
        exact (if_neg h1).trans (if_neg h2)
      rw [key]
      split
      · rename_i c0 c1 t1 hc
        split
        · rename_i p0 p1 t2 hp
          right
          exact ⟨h1, h2, c0, c1, p0, p1, t1, t2, hc, hp, rfl⟩
        · left; exact ⟨h1, h2, rfl⟩
      · left; exact ⟨h1, h2, rfl⟩

end BNCShape

/-! ## Box against circle: the deep-overlap branch -/

section BNCClaims

variable {F : Type} [LinearOrderedField F]

theorem Dot_self_ne_zero_of_ne (a b : Vec2 F) (h : a ≠ b) : Dot (b - a) (b - a) ≠ 0 := by
  intro h0
  apply h
  simp only [Dot, Vec2.sub_x, Vec2.sub_y] at h0
  rw [Vec2.ext_iff2]
  constructor <;> nlinarith [mul_self_nonneg (b.x - a.x), mul_self_nonneg (b.y - a.y)]

end BNCClaims

/-! ## Writes to the bodies, and the routing of triangle pairs -/

section EffectClaims

variable {F : Type} [LinearOrderedField F]

/-- The bodies after `BNBCollide` are the bodies before. -/
theorem BNBCollide_bodies (m : Libm F) (contacts : Nat → Contact F) (bodyA bodyB : Body F) :
    (BNBCollide m contacts bodyA bodyB).bodyA = bodyA ∧
    (BNBCollide m contacts bodyA bodyB).bodyB = bodyB := by
  rw [BNBCollide_eq]
  split_ifs
  · exact ⟨rfl, rfl⟩
  · exact ⟨rfl, rfl⟩
  · rcases BNBCollide.emit_cases (BNBCollide.best m bodyA bodyB).axis
        (BNBCollide.best m bodyA bodyB).normal (BNBCollide.clip m bodyA bodyB) contacts
        bodyA bodyB with h | ⟨c0, c1, p0, p1, -, -, h⟩ <;> rw [h] <;> exact ⟨rfl, rfl⟩

/-- The bodies after `CNCCollide`: both get `isItem := true` when it returns 1, and
are the bodies before otherwise. -/
theorem CNCCollide_bodies (m : Libm F) (contacts : Nat → Contact F) (bodyA bodyB : Body F) :
    ((CNCCollide m contacts bodyA bodyB).ret = 1 ∧
      (CNCCollide m contacts bodyA bodyB).bodyA = { bodyA with isItem := true } ∧
      (CNCCollide m contacts bodyA bodyB).bodyB = { bodyB with isItem := true }) ∨
    ((CNCCollide m contacts bodyA bodyB).ret = 0 ∧
      (CNCCollide m contacts bodyA bodyB).bodyA = bodyA ∧
      (CNCCollide m contacts bodyA bodyB).bodyB = bodyB) := by
  by_cases h : Dot (bodyB.position - bodyA.position) (bodyB.position - bodyA.position)
      > (bodyA.width.x * 0.5 + bodyB.width.x * 0.5) * (bodyA.width.x * 0.5 + bodyB.width.x * 0.5)
  · rw [CNCCollide_miss m contacts bodyA bodyB h]
    exact Or.inr ⟨rfl, rfl, rfl⟩
  · rw [CNCCollide_hit m contacts bodyA bodyB h]
    exact Or.inl ⟨rfl, rfl, rfl⟩

/-- The bodies after `BNCCollide`: A is never written; B gets `isJump := true` when
the face-overlap branch emits its contact, and is the body before otherwise. -/
theorem BNCCollide_bodies (m : Libm F) (contacts : Nat → Contact F) (bodyA bodyB : Body F) :
    (BNCCollide m contacts bodyA bodyB).bodyA = bodyA ∧
    (((BNCCollide m contacts bodyA bodyB).ret = 1 ∧
        ¬ Dot (bodyB.position - bodyA.position) (BNCCollide.d bodyA) ≥ 1 ∧
        (BNCCollide m contacts bodyA bodyB).bodyB = { bodyB with isJump := true }) ∨
      (((BNCCollide m contacts bodyA bodyB).ret = 0 ∨
          Dot (bodyB.position - bodyA.position) (BNCCollide.d bodyA) ≥ 1) ∧
        (BNCCollide m contacts bodyA bodyB).bodyB = bodyB)) := by
  rcases BNCCollide_cases m contacts bodyA bodyB with
    c | c | c | c | c
  · rw [c.2]; exact ⟨rfl, Or.inr ⟨Or.inl rfl, rfl⟩⟩
  · rw [c.2.2.2]; exact ⟨rfl, Or.inr ⟨Or.inl rfl, rfl⟩⟩
  · rw [c.2.2.2]; exact ⟨rfl, Or.inr ⟨Or.inr c.2.1, rfl⟩⟩
  · rw [c.2.2]; exact ⟨rfl, Or.inr ⟨Or.inl rfl, rfl⟩⟩
  · obtain ⟨-, h2, c0, c1, p0, p1, t1, t2, -, -, e⟩ := c
    rw [e]; exact ⟨rfl, Or.inl ⟨rfl, h2, rfl⟩⟩

/-- C14: `Collide` never changes a body's position, rotation, width or shape kind and
never sets a flag to false.  The only writes are `isItem := true` on both bodies, by
`CNCCollide` exactly when it returns 1, and `isJump := true` on B, by `BNCCollide`
exactly when its face-overlap branch emits a contact; `BNBCollide` writes no body
field. -/
theorem Collide_body_effects (m : Libm F) (contacts : Nat → Contact F) (bodyA bodyB : Body F) :
    ((Collide m contacts bodyA bodyB).bodyA.position = bodyA.position ∧
      (Collide m contacts bodyA bodyB).bodyA.rotation = bodyA.rotation ∧
      (Collide m contacts bodyA bodyB).bodyA.width = bodyA.width ∧
      (Collide m contacts bodyA bodyB).bodyA.shape = bodyA.shape ∧
      (Collide m contacts bodyA bodyB).bodyB.position = bodyB.position ∧
      (Collide m contacts bodyA bodyB).bodyB.rotation = bodyB.rotation ∧
      (Collide m contacts bodyA bodyB).bodyB.width = bodyB.width ∧
      (Collide m contacts bodyA bodyB).bodyB.shape = bodyB.shape) ∧
    ((bodyA.isItem = true → (Collide m contacts bodyA bodyB).bodyA.isItem = true) ∧
      (bodyA.isJump = true → (Collide m contacts bodyA bodyB).bodyA.isJump = true) ∧
      (bodyB.isItem = true → (Collide m contacts bodyA bodyB).bodyB.isItem = true) ∧
      (bodyB.isJump = true → (Collide m contacts bodyA bodyB).bodyB.isJump = true)) ∧
    (((Collide m contacts bodyA bodyB).bodyA = bodyA ∧
        (Collide m contacts bodyA bodyB).bodyB = bodyB) ∨
      ((Collide m contacts bodyA bodyB).bodyA = { bodyA with isItem := true } ∧
        (Collide m contacts bodyA bodyB).bodyB = { bodyB with isItem := true }) ∨
      ((Collide m contacts bodyA bodyB).bodyA = bodyA ∧
        (Collide m contacts bodyA bodyB).bodyB = { bodyB with isJump := true })) ∧
    ((BNBCollide m contacts bodyA bodyB).bodyA = bodyA ∧
      (BNBCollide m contacts bodyA bodyB).bodyB = bodyB) ∧
    (((CNCCollide m contacts bodyA bodyB).ret = 1 →
        (CNCCollide m contacts bodyA bodyB).bodyA = { bodyA with isItem := true } ∧
        (CNCCollide m contacts bodyA bodyB).bodyB = { bodyB with isItem := true }) ∧
      ((CNCCollide m contacts bodyA bodyB).ret ≠ 1 →
        (CNCCollide m contacts bodyA bodyB).bodyA = bodyA ∧
        (CNCCollide m contacts bodyA bodyB).bodyB = bodyB)) ∧
    ((BNCCollide m contacts bodyA bodyB).bodyA = bodyA ∧
      ((BNCCollide m contacts bodyA bodyB).ret = 1 ∧
          ¬ Dot (bodyB.position - bodyA.position) (BNCCollide.d bodyA) ≥ 1 →
        (BNCCollide m contacts bodyA bodyB).bodyB = { bodyB with isJump := true }) ∧
      (¬ ((BNCCollide m contacts bodyA bodyB).ret = 1 ∧
          ¬ Dot (bodyB.position - bodyA.position) (BNCCollide.d bodyA) ≥ 1) →
        (BNCCollide m contacts bodyA bodyB).bodyB = bodyB)) := by
  have hbnb := BNBCollide_bodies m contacts bodyA bodyB
  have hcnc := CNCCollide_bodies m contacts bodyA bodyB
  have hbnc := BNCCollide_bodies m contacts bodyA bodyB
  have hthree : ((Collide m contacts bodyA bodyB).bodyA = bodyA ∧
        (Collide m contacts bodyA bodyB).bodyB = bodyB) ∨
      ((Collide m contacts bodyA bodyB).bodyA = { bodyA with isItem := true } ∧
        (Collide m contacts bodyA bodyB).bodyB = { bodyB with isItem := true }) ∨
      ((Collide m contacts bodyA bodyB).bodyA = bodyA ∧
        (Collide m contacts bodyA bodyB).bodyB = { bodyB with isJump := true }) := by
    have fromBNC : ((BNCCollide m contacts bodyA bodyB).bodyA = bodyA ∧
        (BNCCollide m contacts bodyA bodyB).bodyB = bodyB) ∨
      ((BNCCollide m contacts bodyA bodyB).bodyA = { bodyA with isItem := true } ∧
        (BNCCollide m contacts bodyA bodyB).bodyB = { bodyB with isItem := true }) ∨
      ((BNCCollide m contacts bodyA bodyB).bodyA = bodyA ∧
        (BNCCollide m contacts bodyA bodyB).bodyB = { bodyB with isJump := true }) := by
      rcases hbnc.2 with h | h
      · exact Or.inr (Or.inr ⟨hbnc.1, h.2.2⟩)
      · exact Or.inl ⟨hbnc.1, h.2⟩
    unfold Collide
    split_ifs
    · exact Or.inl hbnb
    · rcases hcnc with h | h
      · exact Or.inr (Or.inl h.2)
      · exact Or.inl h.2
    · exact fromBNC
    · exact fromBNC
    · exact fromBNC
    · exact Or.inl hbnb
  refine ⟨?_, ?_, hthree, hbnb, ⟨?_, ?_⟩, hbnc.1, ?_, ?_⟩
  · rcases hthree with h | h | h <;> rw [h.1, h.2] <;> simp
  · rcases hthree with h | h | h <;> rw [h.1, h.2] <;> simp
  · intro h1
    rcases hcnc with h | h
    · exact h.2
    · rw [h.1] at h1; exact absurd h1 Nat.zero_ne_one
  · intro h1
    rcases hcnc with h | h
    · exact absurd h.1 h1
    · exact h.2
  · intro h1
    rcases hbnc.2 with h | h
    · exact h.2.2
    · rcases h.1 with h0 | h0
      · rw [h0] at h1; exact absurd h1.1 Nat.zero_ne_one
      · exact absurd h0 h1.2
  · intro h1
    rcases hbnc.2 with h | h
    · exact absurd ⟨h.1, h.2.1⟩ h1
    · exact h.2

theorem Collide_body_effects_witness :
    (CNCCollide libmQ zeroContacts (circleAt 0 0 2) (circleAt 1 0 2)).ret = 1 ∧
    (CNCCollide libmQ zeroContacts (circleAt 0 0 2) (circleAt 1 0 2)).bodyA
      = { circleAt 0 0 2 with isItem := true } :=
  have hret : (CNCCollide libmQ zeroContacts (circleAt 0 0 2) (circleAt 1 0 2)).ret = 1 := by
    rw [CNCCollide_unit libmQ libmQ_sqrtf_one zeroContacts (circleAt 0 0 2) (circleAt 1 0 2)
      rfl rfl rfl rfl]
  ⟨hret, ((Collide_body_effects libmQ zeroContacts (circleAt 0 0 2)
    (circleAt 1 0 2)).2.2.2.2.1.1 hret).1⟩

/-- C15 as the code has it: a pair of bodies whose shape kinds are both triangle is
routed to `BNCCollide` on the same arguments: the returned count, the written
contacts and the bodies are those of `BNCCollide`. -/
theorem Collide_triangles (m : Libm F) (contacts : Nat → Contact F) (bodyA bodyB : Body F)
    (hA : bodyA.shape = Shape.triangle) (hB : bodyB.shape = Shape.triangle) :
    Collide m contacts bodyA bodyB = BNCCollide m contacts bodyA bodyB := by
  unfold Collide
  simp [hA, hB]

theorem Collide_triangles_witness :
    Collide libmQ zeroContacts { boxAt 0 0 with shape := Shape.triangle }
        { boxAt (3 / 2) 0 with shape := Shape.triangle }
      = BNCCollide libmQ zeroContacts { boxAt 0 0 with shape := Shape.triangle }
          { boxAt (3 / 2) 0 with shape := Shape.triangle } :=
  Collide_triangles libmQ zeroContacts { boxAt 0 0 with shape := Shape.triangle }
    { boxAt (3 / 2) 0 with shape := Shape.triangle } rfl rfl

/-- C15 as stated fails: for two unrotated 2 x 2 triangle-kind bodies centred at (0,0)
and (3/2,0), `Collide` returns at most 1 while `BNBCollide` returns 2. -/
theorem Collide_triangles_not_BNB :
    (Collide libmQ zeroContacts { boxAt 0 0 with shape := Shape.triangle }
        { boxAt (3 / 2) 0 with shape := Shape.triangle }).ret
      ≠ (BNBCollide libmQ zeroContacts { boxAt 0 0 with shape := Shape.triangle }
          { boxAt (3 / 2) 0 with shape := Shape.triangle }).ret := by
  have h1 : Collide libmQ zeroContacts { boxAt 0 0 with shape := Shape.triangle }
        { boxAt (3 / 2) 0 with shape := Shape.triangle }
      = BNCCollide libmQ zeroContacts { boxAt 0 0 with shape := Shape.triangle }
          { boxAt (3 / 2) 0 with shape := Shape.triangle } := by
    unfold Collide
    simp [boxAt]
  have h2 := (BNCCollide_bound libmQ zeroContacts { boxAt 0 0 with shape := Shape.triangle }
    { boxAt (3 / 2) 0 with shape := Shape.triangle }).1
  have h3 := BNBCollide_aligned libmQ libmQ_cosf_zero libmQ_sinf_zero zeroContacts
    { boxAt 0 0 with shape := Shape.triangle } { boxAt (3 / 2) 0 with shape := Shape.triangle }
    (3 / 2) (by norm_num) (by norm_num) rfl rfl rfl rfl (by norm_num [boxAt, Vec2.ext_iff2])
  rw [h1, h3]
  rcases h2 with h | h <;> rw [h] <;> decide

end EffectClaims

/-! ## The axis selection -/

section AxisClaims

variable {F : Type} [LinearOrderedField F]

end AxisClaims

/-! ## The incident edge -/

section IncidentEdge

variable {F : Type} [LinearOrderedField F]

/-- The four outcomes of `ComputeIncidentEdge`, by the signs of the reference normal
in the box frame, `r = RotT * normal`. -/
theorem ComputeIncidentEdge_cases (c : ClipVertex F × ClipVertex F) (h pos : Vec2 F)
    (Rot : Mat22 F) (normal : Vec2 F) :
    (|(Rot.Transpose.mulVec normal).y| < |(Rot.Transpose.mulVec normal).x| ∧
      (Rot.Transpose.mulVec normal).x ≤ 0 ∧
      ComputeIncidentEdge c h pos Rot normal =
        (⟨pos + Rot.mulVec ⟨h.x, -h.y⟩, { c.1.fp with inEdge2 := EDGE3, outEdge2 := EDGE4 }⟩,
         ⟨pos + Rot.mulVec ⟨h.x, h.y⟩, { c.2.fp with inEdge2 := EDGE4, outEdge2 := EDGE1 }⟩)) ∨
    (|(Rot.Transpose.mulVec normal).y| < |(Rot.Transpose.mulVec normal).x| ∧
      0 < (Rot.Transpose.mulVec normal).x ∧
      ComputeIncidentEdge c h pos Rot normal =
        (⟨pos + Rot.mulVec ⟨-h.x, h.y⟩, { c.1.fp with inEdge2 := EDGE1, outEdge2 := EDGE2 }⟩,
         ⟨pos + Rot.mulVec ⟨-h.x, -h.y⟩, { c.2.fp with inEdge2 := EDGE2, outEdge2 := EDGE3 }⟩)) ∨
    (|(Rot.Transpose.mulVec normal).x| ≤ |(Rot.Transpose.mulVec normal).y| ∧
      (Rot.Transpose.mulVec normal).y ≤ 0 ∧
      ComputeIncidentEdge c h pos Rot normal =
        (⟨pos + Rot.mulVec ⟨h.x, h.y⟩, { c.1.fp with inEdge2 := EDGE4, outEdge2 := EDGE1 }⟩,
         ⟨pos + Rot.mulVec ⟨-h.x, h.y⟩, { c.2.fp with inEdge2 := EDGE1, outEdge2 := EDGE2 }⟩)) ∨
    (|(Rot.Transpose.mulVec normal).x| ≤ |(Rot.Transpose.mulVec normal).y| ∧
      0 < (Rot.Transpose.mulVec normal).y ∧
      ComputeIncidentEdge c h pos Rot normal =
        (⟨pos + Rot.mulVec ⟨-h.x, -h.y⟩, { c.1.fp with inEdge2 := EDGE2, outEdge2 := EDGE3 }⟩,
         ⟨pos + Rot.mulVec ⟨h.x, -h.y⟩, { c.2.fp with inEdge2 := EDGE3, outEdge2 := EDGE4 }⟩)) := by
  have sgn : ∀ a : F, (Sign (-a) > 0) ↔ a ≤ 0 := by
    intro a
    unfold Sign
    split_ifs with h
    · constructor
      · intro h1; norm_num at h1
      · intro h1; linarith
    · constructor
      · intro _; linarith
      · intro _; norm_num
  have ab : ∀ a : F, Absf (-a) = |a| := by
    intro a; rw [Absf_eq_abs, abs_neg]
  unfold ComputeIncidentEdge
  simp only [Abs, Vec2.neg_x, Vec2.neg_y, ab, sgn, gt_iff_lt]
  by_cases h1 : |(Rot.Transpose.mulVec normal).y| < |(Rot.Transpose.mulVec normal).x|
  · by_cases h2 : (Rot.Transpose.mulVec normal).x ≤ 0
    · left
      simp only [h1, h2, if_true, true_and]
    · right; left
      simp only [h1, h2, not_le.mp h2, if_true, if_false, true_and]
  · by_cases h2 : (Rot.Transpose.mulVec normal).y ≤ 0
    · right; right; left
      simp only [h1, h2, not_lt.mp h1, if_true, if_false, true_and]
    · right; right; right
      simp only [h1, h2, not_lt.mp h1, not_le.mp h2, if_true, if_false, true_and]

theorem Dot_mulVec_left (Rot : Mat22 F) (e normal : Vec2 F) :
    Dot (Rot.mulVec e) normal = Dot e (Rot.Transpose.mulVec normal) := by
  simp only [Dot, Mat22.mulVec, Mat22.Transpose]
  ring

theorem Dot_edgeNormal (r : Vec2 F) :
    Dot (edgeNormal 1) r = r.y ∧ Dot (edgeNormal 2) r = -r.x ∧
    Dot (edgeNormal 3) r = -r.y ∧ Dot (edgeNormal 4) r = r.x := by
  refine ⟨?_, ?_, ?_, ?_⟩ <;> simp [Dot, edgeNormal]

/-- For an orthonormal `Rot` the cross product of two rotated vectors is the cross
product of the vectors. -/
theorem Cross_ofAngle (m : Libm F) (a : F)
    (hrot : m.cosf a * m.cosf a + m.sinf a * m.sinf a = 1) (u v pos : Vec2 F) :
    Cross (pos + (Mat22.ofAngle m a).mulVec u - pos) (pos + (Mat22.ofAngle m a).mulVec v - pos)
      = Cross u v := by
  simp only [Cross, Mat22.ofAngle, Mat22.mulVec, Vec2.add_x, Vec2.add_y, Vec2.sub_x, Vec2.sub_y]
  have e : ∀ p q : F, p + q - p = q := by intro p q; ring
  rw [e, e, e, e]
  have k : (m.cosf a * u.x + -m.sinf a * u.y) * (m.sinf a * v.x + m.cosf a * v.y)
      - (m.sinf a * u.x + m.cosf a * u.y) * (m.cosf a * v.x + -m.sinf a * v.y)
      = (m.cosf a * m.cosf a + m.sinf a * m.sinf a) * (u.x * v.y - u.y * v.x) := by ring
  rw [k, hrot, one_mul]

/-- C17: `ComputeIncidentEdge` returns the world images `pos + Rot*v` of the two
vertices `v_k`, `v_(k+1)` bounding one edge `k` of the box (1 top, 2 left, 3 bottom,
4 right), in counter-clockwise order; the outward normal of edge `k` has the smallest
dot product with the reference normal among the four edges, and a y-edge (1 or 3) is
taken on a tie `|n.x| = |n.y|`.  The tags are `c[0].outEdge2 = c[1].inEdge2 = k`,
`c[0].inEdge2` the preceding and `c[1].outEdge2` the following edge in the cyclic
order; `inEdge1` and `outEdge1` are left as passed in. -/
theorem ComputeIncidentEdge_contract (c : ClipVertex F × ClipVertex F) (h pos : Vec2 F)
    (Rot : Mat22 F) (normal : Vec2 F) :
    ∃ k : Nat, (k = 1 ∨ k = 2 ∨ k = 3 ∨ k = 4) ∧
      (ComputeIncidentEdge c h pos Rot normal).1.v = pos + Rot.mulVec (boxVertex h k) ∧
      (ComputeIncidentEdge c h pos Rot normal).2.v
        = pos + Rot.mulVec (boxVertex h (nextEdge k)) ∧
      (0 < h.x → 0 < h.y → 0 < Cross (boxVertex h k) (boxVertex h (nextEdge k))) ∧
      (∀ (m : Libm F) (a : F), Rot = Mat22.ofAngle m a →
        m.cosf a * m.cosf a + m.sinf a * m.sinf a = 1 → 0 < h.x → 0 < h.y →
        0 < Cross ((ComputeIncidentEdge c h pos Rot normal).1.v - pos)
              ((ComputeIncidentEdge c h pos Rot normal).2.v - pos)) ∧
      (∀ j : Nat, j = 1 ∨ j = 2 ∨ j = 3 ∨ j = 4 →
        Dot (Rot.mulVec (edgeNormal k)) normal ≤ Dot (Rot.mulVec (edgeNormal j)) normal) ∧
      (|(Rot.Transpose.mulVec normal).x| = |(Rot.Transpose.mulVec normal).y| →
        k = 1 ∨ k = 3) ∧
      ((ComputeIncidentEdge c h pos Rot normal).1.fp.outEdge2 = k ∧
        (ComputeIncidentEdge c h pos Rot normal).2.fp.inEdge2 = k ∧
        (ComputeIncidentEdge c h pos Rot normal).1.fp.inEdge2 = prevEdge k ∧
        (ComputeIncidentEdge c h pos Rot normal).2.fp.outEdge2 = nextEdge k) ∧
      ((ComputeIncidentEdge c h pos Rot normal).1.fp.inEdge1 = c.1.fp.inEdge1 ∧
        (ComputeIncidentEdge c h pos Rot normal).1.fp.outEdge1 = c.1.fp.outEdge1 ∧
        (ComputeIncidentEdge c h pos Rot normal).2.fp.inEdge1 = c.2.fp.inEdge1 ∧
        (ComputeIncidentEdge c h pos Rot normal).2.fp.outEdge1 = c.2.fp.outEdge1) := by
  have hd := Dot_edgeNormal (Rot.Transpose.mulVec normal)
  have world : ∀ k : Nat,
      (ComputeIncidentEdge c h pos Rot normal).1.v = pos + Rot.mulVec (boxVertex h k) →
      (ComputeIncidentEdge c h pos Rot normal).2.v = pos + Rot.mulVec (boxVertex h (nextEdge k)) →
      (0 < h.x → 0 < h.y → 0 < Cross (boxVertex h k) (boxVertex h (nextEdge k))) →
      ∀ (m : Libm F) (a : F), Rot = Mat22.ofAngle m a →
        m.cosf a * m.cosf a + m.sinf a * m.sinf a = 1 → 0 < h.x → 0 < h.y →
        0 < Cross ((ComputeIncidentEdge c h pos Rot normal).1.v - pos)
              ((ComputeIncidentEdge c h pos Rot normal).2.v - pos) := by
    intro k e1 e2 hc m a hR hrot hx hy
    rw [e1, e2, hR, Cross_ofAngle m a hrot]
    exact hc hx hy
  have small : ∀ k : Nat,
      (Dot (edgeNormal k) (Rot.Transpose.mulVec normal) ≤ (Rot.Transpose.mulVec normal).y ∧
        Dot (edgeNormal k) (Rot.Transpose.mulVec normal) ≤ -(Rot.Transpose.mulVec normal).x ∧
        Dot (edgeNormal k) (Rot.Transpose.mulVec normal) ≤ -(Rot.Transpose.mulVec normal).y ∧
        Dot (edgeNormal k) (Rot.Transpose.mulVec normal) ≤ (Rot.Transpose.mulVec normal).x) →
      ∀ j : Nat, j = 1 ∨ j = 2 ∨ j = 3 ∨ j = 4 →
        Dot (Rot.mulVec (edgeNormal k)) normal ≤ Dot (Rot.mulVec (edgeNormal j)) normal := by
    intro k hk j hj
    rw [Dot_mulVec_left, Dot_mulVec_left]
    rcases hj with rfl | rfl | rfl | rfl
    · rw [hd.1]; exact hk.1
    · rw [hd.2.1]; exact hk.2.1
    · rw [hd.2.2.1]; exact hk.2.2.1
    · rw [hd.2.2.2]; exact hk.2.2.2
  have ccw : ∀ k : Nat, k = 1 ∨ k = 2 ∨ k = 3 ∨ k = 4 →
      0 < h.x → 0 < h.y → 0 < Cross (boxVertex h k) (boxVertex h (nextEdge k)) := by
    intro k hk hx hy
    rcases hk with rfl | rfl | rfl | rfl <;>
      simp [Cross, boxVertex, nextEdge] <;> nlinarith [mul_pos hx hy]
  rcases ComputeIncidentEdge_cases c h pos Rot normal with
    ⟨h1, h2, e⟩ | ⟨h1, h2, e⟩ | ⟨h1, h2, e⟩ | ⟨h1, h2, e⟩
  · have v1 : (ComputeIncidentEdge c h pos Rot normal).1.v = pos + Rot.mulVec (boxVertex h 4) := by
      rw [e]; simp [boxVertex]
    have v2 : (ComputeIncidentEdge c h pos Rot normal).2.v
        = pos + Rot.mulVec (boxVertex h (nextEdge 4)) := by
      rw [e]; simp [boxVertex, nextEdge]
    refine ⟨4, by simp, v1, v2, ccw 4 (by simp), world 4 v1 v2 (ccw 4 (by simp)), small 4 ?_, ?_, ?_, ?_⟩
    · rw [hd.2.2.2]
      have a1 := abs_of_nonpos h2
      refine ⟨?_, ?_, ?_, le_refl _⟩
      · linarith [neg_abs_le (Rot.Transpose.mulVec normal).y]
      · linarith
      · linarith [le_abs_self (Rot.Transpose.mulVec normal).y]
    · intro ht; rw [ht] at h1; exact absurd h1 (lt_irrefl _)
    · rw [e]; simp [EDGE1, EDGE3, EDGE4, prevEdge, nextEdge]
    · rw [e]; exact ⟨rfl, rfl, rfl, rfl⟩
  · have v1 : (ComputeIncidentEdge c h pos Rot normal).1.v = pos + Rot.mulVec (boxVertex h 2) := by
      rw [e]; simp [boxVertex]
    have v2 : (ComputeIncidentEdge c h pos Rot normal).2.v
        = pos + Rot.mulVec (boxVertex h (nextEdge 2)) := by
      rw [e]; simp [boxVertex, nextEdge]
    refine ⟨2, by simp, v1, v2, ccw 2 (by simp), world 2 v1 v2 (ccw 2 (by simp)), small 2 ?_, ?_, ?_, ?_⟩
    · rw [hd.2.1]
      have a1 := abs_of_pos h2
      refine ⟨?_, le_refl _, ?_, ?_⟩
      · linarith [neg_abs_le (Rot.Transpose.mulVec normal).y]
      · linarith [le_abs_self (Rot.Transpose.mulVec normal).y]
      · linarith
    · intro ht; rw [ht] at h1; exact absurd h1 (lt_irrefl _)
    · rw [e]; simp [EDGE1, EDGE2, EDGE3, prevEdge, nextEdge]
    · rw [e]; exact ⟨rfl, rfl, rfl, rfl⟩
  · have v1 : (ComputeIncidentEdge c h pos Rot normal).1.v = pos + Rot.mulVec (boxVertex h 1) := by
      rw [e]; simp [boxVertex]
    have v2 : (ComputeIncidentEdge c h pos Rot normal).2.v
        = pos + Rot.mulVec (boxVertex h (nextEdge 1)) := by
      rw [e]; simp [boxVertex, nextEdge]
    refine ⟨1, by simp, v1, v2, ccw 1 (by simp), world 1 v1 v2 (ccw 1 (by simp)), small 1 ?_,
      fun _ => Or.inl rfl, ?_, ?_⟩
    · rw [hd.1]
      have a1 := abs_of_nonpos h2
      refine ⟨le_refl _, ?_, ?_, ?_⟩
      · linarith [le_abs_self (Rot.Transpose.mulVec normal).x]
      · linarith
      · linarith [neg_abs_le (Rot.Transpose.mulVec normal).x]
    · rw [e]; simp [EDGE1, EDGE2, EDGE4, prevEdge, nextEdge]
    · rw [e]; exact ⟨rfl, rfl, rfl, rfl⟩
  · have v1 : (ComputeIncidentEdge c h pos Rot normal).1.v = pos + Rot.mulVec (boxVertex h 3) := by
      rw [e]; simp [boxVertex]
    have v2 : (ComputeIncidentEdge c h pos Rot normal).2.v
        = pos + Rot.mulVec (boxVertex h (nextEdge 3)) := by
      rw [e]; simp [boxVertex, nextEdge]
    refine ⟨3, by simp, v1, v2, ccw 3 (by simp), world 3 v1 v2 (ccw 3 (by simp)), small 3 ?_,
      fun _ => Or.inr rfl, ?_, ?_⟩
    · rw [hd.2.2.1]
      have a1 := abs_of_pos h2
      refine ⟨?_, ?_, le_refl _, ?_⟩
      · linarith
      · linarith [le_abs_self (Rot.Transpose.mulVec normal).x]
      · linarith [neg_abs_le (Rot.Transpose.mulVec normal).x]
    · rw [e]; simp [EDGE2, EDGE3, EDGE4, prevEdge, nextEdge]
    · rw [e]; exact ⟨rfl, rfl, rfl, rfl⟩

theorem ComputeIncidentEdge_contract_witness :
    ∃ k : Nat, (k = 1 ∨ k = 2 ∨ k = 3 ∨ k = 4) ∧
      (ComputeIncidentEdge ((ClipVertex.new, ClipVertex.new) : ClipVertex ℚ × ClipVertex ℚ)
          ⟨1, 1⟩ ⟨3 / 2, 0⟩ (Mat22.ofAngle libmQ 0) ⟨1, 0⟩).1.fp.outEdge2 = k ∧
      0 < Cross (boxVertex (⟨1, 1⟩ : Vec2 ℚ) k) (boxVertex (⟨1, 1⟩ : Vec2 ℚ) (nextEdge k)) :=
  match ComputeIncidentEdge_contract
      ((ClipVertex.new, ClipVertex.new) : ClipVertex ℚ × ClipVertex ℚ)
      ⟨1, 1⟩ ⟨3 / 2, 0⟩ (Mat22.ofAngle libmQ 0) ⟨1, 0⟩ with
  | ⟨k, hk, _, _, hc, _, _, _, ht, _⟩ => ⟨k, hk, ht.1, hc (by norm_num) (by norm_num)⟩

end IncidentEdge

/-! ## Feature pairs of the two contacts -/

section FeatureClaims

variable {F : Type} [LinearOrderedField F]

theorem incidentFeatures_mem (h pos : Vec2 F) (Rot : Mat22 F) (normal : Vec2 F) :
    ((ComputeIncidentEdge (ClipVertex.new, ClipVertex.new) h pos Rot normal).1.fp,
      (ComputeIncidentEdge (ClipVertex.new, ClipVertex.new) h pos Rot normal).2.fp)
      ∈ incidentFeatures := by
  rcases ComputeIncidentEdge_cases (ClipVertex.new, ClipVertex.new) h pos Rot normal with
    ⟨-, -, e⟩ | ⟨-, -, e⟩ | ⟨-, -, e⟩ | ⟨-, -, e⟩ <;> rw [e] <;>
    simp [incidentFeatures, ClipVertex.new]

theorem clipFeatures_mem (w : ClipVertex F × ClipVertex F) (normal : Vec2 F) (offset : F)
    (e : Nat) (x0 x1 : ClipVertex F)
    (hx : ClipSegmentToLine w normal offset e = [x0, x1]) :
    (x0.fp, x1.fp) ∈ clipFeatures e (w.1.fp, w.2.fp) := by
  rcases ClipSegmentToLine_cases w normal offset e with
    c | c | c | c | c | c <;> rw [c.2.2] at hx <;>
    simp only [List.cons.injEq, and_true, List.cons_ne_nil, List.nil_eq, and_false,
      reduceCtorEq] at hx
  · obtain ⟨rfl, rfl⟩ := hx
    simp [clipFeatures]
  · obtain ⟨rfl, rfl⟩ := hx
    simp [clipFeatures]
  · obtain ⟨rfl, rfl⟩ := hx
    simp [clipFeatures]

/-- Whatever the two clips do, the two feature pairs that come out of them differ,
before and after `Flip`, and so do their packed values. -/
theorem features_distinct :
    ∀ inc ∈ incidentFeatures, ∀ s ∈ sideEdges, ∀ x ∈ clipFeatures s.1 inc,
      ∀ y ∈ clipFeatures s.2 x,
        y.1 ≠ y.2 ∧ Flip y.1 ≠ Flip y.2 ∧ y.1.value ≠ y.2.value ∧
        (Flip y.1).value ≠ (Flip y.2).value := by
  decide

theorem BNBCollide.clip_shape (m : Libm F) (bodyA bodyB : Body F) :
    ((BNBCollide.clip m bodyA bodyB).incidentEdge.1.fp,
      (BNBCollide.clip m bodyA bodyB).incidentEdge.2.fp) ∈ incidentFeatures ∧
    ((BNBCollide.clip m bodyA bodyB).negEdge, (BNBCollide.clip m bodyA bodyB).posEdge)
      ∈ sideEdges := by
  unfold BNBCollide.clip BNBCollide.clipData
  cases (BNBCollide.best m bodyA bodyB).axis <;> dsimp only <;>
    exact ⟨incidentFeatures_mem _ _ _ _, by simp [sideEdges]⟩

/-- C19: whenever `BNBCollide` returns 2, the two emitted contacts carry different
feature pairs: they differ in at least one of the fields `inEdge1`, `outEdge1`,
`inEdge2`, `outEdge2`, and their packed values differ. -/
theorem BNBCollide_features_differ (m : Libm F) (contacts : Nat → Contact F)
    (bodyA bodyB : Body F) (h2 : (BNBCollide m contacts bodyA bodyB).ret = 2) :
    ((BNBCollide m contacts bodyA bodyB).contacts 0).feature
      ≠ ((BNBCollide m contacts bodyA bodyB).contacts 1).feature ∧
    (((BNBCollide m contacts bodyA bodyB).contacts 0).feature.inEdge1
        ≠ ((BNBCollide m contacts bodyA bodyB).contacts 1).feature.inEdge1 ∨
      ((BNBCollide m contacts bodyA bodyB).contacts 0).feature.outEdge1
        ≠ ((BNBCollide m contacts bodyA bodyB).contacts 1).feature.outEdge1 ∨
      ((BNBCollide m contacts bodyA bodyB).contacts 0).feature.inEdge2
        ≠ ((BNBCollide m contacts bodyA bodyB).contacts 1).feature.inEdge2 ∨
      ((BNBCollide m contacts bodyA bodyB).contacts 0).feature.outEdge2
        ≠ ((BNBCollide m contacts bodyA bodyB).contacts 1).feature.outEdge2) ∧
    ((BNBCollide m contacts bodyA bodyB).contacts 0).feature.value
      ≠ ((BNBCollide m contacts bodyA bodyB).contacts 1).feature.value := by
  have fields : ∀ f g : FeaturePair, f ≠ g →
      f.inEdge1 ≠ g.inEdge1 ∨ f.outEdge1 ≠ g.outEdge1 ∨ f.inEdge2 ≠ g.inEdge2 ∨
        f.outEdge2 ≠ g.outEdge2 := by
    intro f g hfg
    by_contra hc
    simp only [not_or, not_not] at hc
    apply hfg
    cases f; cases g
    simp only [FeaturePair.mk.injEq]
    exact ⟨hc.1, hc.2.1, hc.2.2.1, hc.2.2.2⟩
  suffices hs : ((BNBCollide m contacts bodyA bodyB).contacts 0).feature
        ≠ ((BNBCollide m contacts bodyA bodyB).contacts 1).feature ∧
      ((BNBCollide m contacts bodyA bodyB).contacts 0).feature.value
        ≠ ((BNBCollide m contacts bodyA bodyB).contacts 1).feature.value from
    ⟨hs.1, fields _ _ hs.1, hs.2⟩
  rw [BNBCollide_eq] at h2 ⊢
  split_ifs at h2 ⊢ with hA hB
  · rcases BNBCollide.emit_cases (BNBCollide.best m bodyA bodyB).axis
        (BNBCollide.best m bodyA bodyB).normal (BNBCollide.clip m bodyA bodyB) contacts
        bodyA bodyB with h | ⟨c0, c1, p0, p1, hc, hp, h⟩
    · rw [h] at h2; exact absurd h2 (by simp)
    · rw [h] at h2 ⊢
      have shape := BNBCollide.clip_shape m bodyA bodyB
      have k1 := clipFeatures_mem _ _ _ _ c0 c1 hc
      have k2 := clipFeatures_mem _ _ _ _ p0 p1 hp
      have dist := features_distinct _ shape.1 _ shape.2 _ k1 _ k2
      dsimp only at dist h2 ⊢
      by_cases s0 : Dot (BNBCollide.clip m bodyA bodyB).frontNormal p0.v
          - (BNBCollide.clip m bodyA bodyB).front ≤ 0
      · by_cases s1 : Dot (BNBCollide.clip m bodyA bodyB).frontNormal p1.v
            - (BNBCollide.clip m bodyA bodyB).front ≤ 0
        · rw [BNBCollide.loopBody_pos _ _ _ _ p0 _ s0,
            BNBCollide.loopBody_pos _ _ _ _ p1 _ s1]
          dsimp only
          rw [Function.update_same, Function.update_noteq (by decide), Function.update_same]
          dsimp only
          split_ifs
          · exact ⟨dist.2.1, dist.2.2.2⟩
          · exact ⟨dist.1, dist.2.2.1⟩
        · rw [BNBCollide.loopBody_neg _ _ _ _ p1 _ s1,
            BNBCollide.loopBody_pos _ _ _ _ p0 _ s0] at h2
          exact absurd h2 (by simp)
      · rw [BNBCollide.loopBody_neg _ _ _ _ p0 _ s0] at h2
        have f1 := (BNBCollide.loopBody_frame (BNBCollide.best m bodyA bodyB).axis
          (BNBCollide.best m bodyA bodyB).normal (BNBCollide.clip m bodyA bodyB).frontNormal
          (BNBCollide.clip m bodyA bodyB).front p1 (0, contacts)).2.1
        rw [h2] at f1
        exact absurd f1 (by simp)

theorem BNBCollide_features_differ_witness :
    (BNBCollide libmQ zeroContacts (boxAt 0 0) (boxAt (3 / 2) 0)).ret = 2 ∧
    ((BNBCollide libmQ zeroContacts (boxAt 0 0) (boxAt (3 / 2) 0)).contacts 0).feature
      ≠ ((BNBCollide libmQ zeroContacts (boxAt 0 0) (boxAt (3 / 2) 0)).contacts 1).feature :=
  have hret : (BNBCollide libmQ zeroContacts (boxAt 0 0) (boxAt (3 / 2) 0)).ret = 2 := by
    rw [BNBCollide_example]
  ⟨hret, (BNBCollide_features_differ libmQ zeroContacts (boxAt 0 0) (boxAt (3 / 2) 0) hret).1⟩

end FeatureClaims

/-! ## Contact positions on the reference face -/

section PositionClaims

variable {F : Type} [LinearOrderedField F]

end PositionClaims

/-! ## Swapping the two boxes -/

section Swapped

variable {F : Type} [LinearOrderedField F]

end Swapped

/-! ## Box against circle: the sign of the separation -/

section BNCSeparation

variable {F : Type} [LinearOrderedField F]

end BNCSeparation

/-! ## Binary32: digit counts and the sign rules of the rounded operations -/

namespace F32

theorem bitLenAux_zero (fuel : Nat) : bitLenAux fuel 0 = 0 := by
  cases fuel <;> simp [bitLenAux]

theorem bitLenAux_succ (f n : Nat) (h0 : n ≠ 0) :
    bitLenAux (f + 1) n = bitLenAux f (n / 2) + 1 := by
  simp [bitLenAux, h0]

theorem lt_pow_bitLenAux (fuel : Nat) : ∀ n, n ≤ fuel → n < 2 ^ bitLenAux fuel n := by
  induction fuel with
  | zero =>
    intro n hn
    have h : n = 0 := by omega
    subst h
    simp [bitLenAux]
  | succ f ih =>
    intro n hn
    by_cases h0 : n = 0
    · subst h0; simp [bitLenAux]
    · rw [bitLenAux_succ f n h0, pow_succ]
      have h := ih (n / 2) (by omega)
      omega

theorem pow_bitLenAux_le (fuel : Nat) :
    ∀ n, n ≤ fuel → n ≠ 0 → 2 ^ (bitLenAux fuel n - 1) ≤ n := by
  induction fuel with
  | zero => intro n hn h0; omega
  | succ f ih =>
    intro n hn h0
    rw [bitLenAux_succ f n h0, Nat.add_sub_cancel]
    by_cases h2 : n / 2 = 0
    · rw [h2, bitLenAux_zero]
      simp
      omega
    · have h := ih (n / 2) (by omega) h2
      have hpos : 1 ≤ bitLenAux f (n / 2) := by
        cases f with
        | zero => omega
        | succ g => rw [bitLenAux_succ g _ h2]; omega
      have e : 2 ^ bitLenAux f (n / 2) = 2 * 2 ^ (bitLenAux f (n / 2) - 1) := by
        rw [← pow_succ']
        congr 1
        omega
      omega

/-- A number is below 2 to the power of its digit count. -/
theorem lt_pow_bitLen (n : Nat) : n < 2 ^ bitLen n := lt_pow_bitLenAux n n le_rfl

/-- A non-zero number has its leading digit set. -/
theorem pow_bitLen_le (n : Nat) (h0 : n ≠ 0) : 2 ^ (bitLen n - 1) ≤ n :=
  pow_bitLenAux_le n n le_rfl h0

theorem bitLen_zero : bitLen 0 = 0 := bitLenAux_zero 0

theorem bitLen_pos (n : Nat) (h0 : n ≠ 0) : 1 ≤ bitLen n := by
  unfold bitLen
  cases n with
  | zero => exact absurd rfl h0
  | succ k => rw [bitLenAux_succ k _ h0]; omega

theorem zero_def : (0 : F32) = fin false 0 0 := rfl

theorem lt_def (a b : F32) : a < b ↔ lt a b = true := Iff.rfl
theorem le_def (a b : F32) : a ≤ b ↔ le a b = true := Iff.rfl

/-- The binary32 data below zero: the non-zero finite numbers with the sign set, and
minus infinity. -/
theorem lt_zero_iff (a : F32) :
    a < 0 ↔ (∃ m e, m ≠ 0 ∧ a = fin true m e) ∨ a = inf true := by
  rw [lt_def, zero_def]
  cases a with
  | fin s m e =>
    cases s <;> simp [lt, scaled]
    exact Nat.pos_iff_ne_zero
  | inf s => cases s <;> simp [lt]
  | nan => simp [lt]

/-- The binary32 data above zero. -/
theorem zero_lt_iff (a : F32) :
    0 < a ↔ (∃ m e, m ≠ 0 ∧ a = fin false m e) ∨ a = inf false := by
  rw [lt_def, zero_def]
  cases a with
  | fin s m e =>
    cases s <;> simp [lt, scaled]
    exact Nat.pos_iff_ne_zero
  | inf s => cases s <;> simp [lt]
  | nan => simp [lt]

/-- The binary32 data at most zero: both zeros count. -/
theorem le_zero_iff (a : F32) :
    a ≤ 0 ↔ (∃ m e, a = fin true m e) ∨ (∃ s e, a = fin s 0 e) ∨ a = inf true := by
  rw [le_def, zero_def]
  cases a with
  | fin s m e =>
    cases s <;> simp [le, scaled]
    constructor
    · intro h
      by_contra hm
      have h1 : (0 : Int) < m := by exact_mod_cast Nat.pos_of_ne_zero hm
      have h2 : (0 : Int) < 2 ^ e := by positivity
      have h3 := mul_pos h1 h2
      linarith
    · intro h
      simp [h]
  | inf s => cases s <;> simp [le]
  | nan => simp [le]

/-- The binary32 data at least zero: both zeros count. -/
theorem zero_le_iff (a : F32) :
    0 ≤ a ↔ (∃ m e, a = fin false m e) ∨ (∃ s e, a = fin s 0 e) ∨ a = inf false := by
  rw [le_def, zero_def]
  cases a with
  | fin s m e =>
    cases s <;> simp [le, scaled]
    constructor
    · intro h
      by_contra hm
      have h1 : (0 : Int) < m := by exact_mod_cast Nat.pos_of_ne_zero hm
      have h2 : (0 : Int) < 2 ^ e := by positivity
      have h3 := mul_pos h1 h2
      linarith
    · intro h
      simp [h]
  | inf s => cases s <;> simp [le]
  | nan => simp [le]

theorem rne_zero (k : Nat) : rne 0 k = 0 := by
  simp [rne]

theorem pack_cases (s : Bool) (q E : Nat) :
    pack s q E = inf s ∨ ∃ m e, pack s q E = fin s m e ∧ (m = 0 ↔ q = 0) := by
  unfold pack
  split_ifs with h1 h2
  · exact Or.inr ⟨0, 0, rfl, by simp [h1]⟩
  · exact Or.inl rfl
  · refine Or.inr ⟨_, _, rfl, ?_⟩
    simp [h1]

theorem round_zero (s : Bool) (e b : Nat) : round s 0 e b = fin s 0 0 := by
  simp [round, rne_zero, pack]

/-- Rounding keeps the sign and never gives a NaN. -/
theorem round_cases (s : Bool) (m e b : Nat) :
    round s m e b = inf s ∨ ∃ q E, round s m e b = fin s q E := by
  unfold round
  dsimp only
  split_ifs with h
  · rcases pack_cases s (2 ^ 23) (e + max (bitLen m - 24) (b - e) - b + 1) with h | ⟨q, E, h, _⟩
    · exact Or.inl h
    · exact Or.inr ⟨q, E, h⟩
  · rcases pack_cases s (rne m (max (bitLen m - 24) (b - e))) (e + max (bitLen m - 24) (b - e) - b)
      with h | ⟨q, E, h, _⟩
    · exact Or.inl h
    · exact Or.inr ⟨q, E, h⟩

theorem le_rne (m k : Nat) : m / 2 ^ k ≤ rne m k := by
  unfold rne
  split_ifs <;> omega

/-- Rounding a non-zero multiple of the smallest subnormal never gives zero. -/
theorem round_nonzero (s : Bool) (m e b : Nat) (hm : m ≠ 0) (hb : b ≤ e) :
    round s m e b = inf s ∨ ∃ q E, q ≠ 0 ∧ round s m e b = fin s q E := by
  have hk : max (bitLen m - 24) (b - e) = bitLen m - 24 := by
    have : b - e = 0 := by omega
    rw [this]; simp
  have hq : rne m (bitLen m - 24) ≠ 0 := by
    have h1 := le_rne m (bitLen m - 24)
    have h2 : 2 ^ (bitLen m - 24) ≤ m :=
      le_trans (Nat.pow_le_pow_right (by norm_num) (by omega)) (pow_bitLen_le m hm)
    have h3 : 1 ≤ m / 2 ^ (bitLen m - 24) := by
      rw [Nat.le_div_iff_mul_le (by positivity)]
      simpa using h2
    omega
  unfold round
  dsimp only
  rw [hk]
  split_ifs with h
  · rcases pack_cases s (2 ^ 23) (e + (bitLen m - 24) - b + 1) with h | ⟨q, E, h, h0⟩
    · exact Or.inl h
    · refine Or.inr ⟨q, E, ?_, h⟩
      intro hq0
      have := h0.mp hq0
      norm_num at this
  · rcases pack_cases s (rne m (bitLen m - 24)) (e + (bitLen m - 24) - b) with h | ⟨q, E, h, h0⟩
    · exact Or.inl h
    · exact Or.inr ⟨q, E, fun hq0 => hq (h0.mp hq0), h⟩

theorem round_neg (s : Bool) (m e b : Nat) (h : round s m e b < 0) : s = true ∧ m ≠ 0 := by
  constructor
  · rcases round_cases s m e b with hr | ⟨q, E, hr⟩
    · rw [hr, lt_zero_iff] at h
      simpa using h
    · rw [hr, lt_zero_iff] at h
      simp at h
      exact h.2
  · intro h0
    rw [h0, round_zero, lt_zero_iff] at h
    simp at h

/-- A rounded product below zero has one factor below zero and one above. -/
theorem mul_neg_cases (a b : F32) (h : a * b < 0) : (a < 0 ∧ 0 < b) ∨ (0 < a ∧ b < 0) := by
  have hmul : a * b = mul a b := rfl
  rw [hmul] at h
  cases a with
  | fin s1 m1 e1 =>
    cases b with
    | fin s2 m2 e2 =>
      have hm : mul (fin s1 m1 e1) (fin s2 m2 e2) = round (xor s1 s2) (m1 * m2) (e1 + e2) 149 :=
        rfl
      rw [hm] at h
      obtain ⟨hs, hne⟩ := round_neg _ _ _ _ h
      have h1 : m1 ≠ 0 := fun h0 => hne (by rw [h0, zero_mul])
      have h2 : m2 ≠ 0 := fun h0 => hne (by rw [h0, mul_zero])
      cases s1 <;> cases s2 <;> simp at hs
      · right
        rw [zero_lt_iff, lt_zero_iff]
        exact ⟨Or.inl ⟨m1, e1, h1, rfl⟩, Or.inl ⟨m2, e2, h2, rfl⟩⟩
      · left
        rw [zero_lt_iff, lt_zero_iff]
        exact ⟨Or.inl ⟨m1, e1, h1, rfl⟩, Or.inl ⟨m2, e2, h2, rfl⟩⟩
    | inf s2 =>
      have hm : mul (fin s1 m1 e1) (inf s2) = if m1 = 0 then nan else inf (xor s1 s2) := rfl
      rw [hm] at h
      split_ifs at h with h0
      · rw [lt_zero_iff] at h; simp at h
      · rw [lt_zero_iff] at h
        simp at h
        cases s1 <;> cases s2 <;> simp at h
        · right
          rw [zero_lt_iff, lt_zero_iff]
          exact ⟨Or.inl ⟨m1, e1, h0, rfl⟩, Or.inr rfl⟩
        · left
          rw [zero_lt_iff, lt_zero_iff]
          exact ⟨Or.inl ⟨m1, e1, h0, rfl⟩, Or.inr rfl⟩
    | nan =>
      have hm : mul (fin s1 m1 e1) nan = nan := rfl
      rw [hm, lt_zero_iff] at h
      simp at h
  | inf s1 =>
    cases b with
    | fin s2 m2 e2 =>
      have hm : mul (inf s1) (fin s2 m2 e2) = if m2 = 0 then nan else inf (xor s1 s2) := rfl
      rw [hm] at h
      split_ifs at h with h0
      · rw [lt_zero_iff] at h; simp at h
      · rw [lt_zero_iff] at h
        simp at h
        cases s1 <;> cases s2 <;> simp at h
        · right
          rw [zero_lt_iff, lt_zero_iff]
          exact ⟨Or.inr rfl, Or.inl ⟨m2, e2, h0, rfl⟩⟩
        · left
          rw [zero_lt_iff, lt_zero_iff]
          exact ⟨Or.inr rfl, Or.inl ⟨m2, e2, h0, rfl⟩⟩
    | inf s2 =>
      have hm : mul (inf s1) (inf s2) = inf (xor s1 s2) := rfl
      rw [hm, lt_zero_iff] at h
      simp at h
      cases s1 <;> cases s2 <;> simp at h
      · right
        rw [zero_lt_iff, lt_zero_iff]
        exact ⟨Or.inr rfl, Or.inr rfl⟩
      · left
        rw [zero_lt_iff, lt_zero_iff]
        exact ⟨Or.inr rfl, Or.inr rfl⟩
    | nan =>
      have hm : mul (inf s1) nan = nan := rfl
      rw [hm, lt_zero_iff] at h
      simp at h
  | nan =>
    have hm : mul nan b = nan := by cases b <;> rfl
    rw [hm, lt_zero_iff] at h
    simp at h

theorem le_of_neg (a : F32) (h : a < 0) : a ≤ 0 := by
  rw [lt_zero_iff] at h
  rw [le_zero_iff]
  rcases h with ⟨m, e, _, rfl⟩ | rfl
  · exact Or.inl ⟨m, e, rfl⟩
  · exact Or.inr (Or.inr rfl)

theorem not_le_of_pos (a : F32) (h : 0 < a) : ¬ a ≤ 0 := by
  rw [zero_lt_iff] at h
  rw [le_zero_iff]
  rcases h with ⟨m, e, hm, rfl⟩ | rfl
  · simp
    exact hm
  · simp

theorem not_ge_of_neg (a : F32) (h : a < 0) : ¬ 0 ≤ a := by
  rw [lt_zero_iff] at h
  rw [zero_le_iff]
  rcases h with ⟨m, e, hm, rfl⟩ | rfl
  · simp
    exact hm
  · simp

/-- A rounded sum of two non-zero data of the same sign is non-zero of that sign. -/
theorem add_same_sign (s : Bool) (a b : F32)
    (ha : (∃ m e, m ≠ 0 ∧ a = fin s m e) ∨ a = inf s)
    (hb : (∃ m e, m ≠ 0 ∧ b = fin s m e) ∨ b = inf s) :
    (∃ m e, m ≠ 0 ∧ add a b = fin s m e) ∨ add a b = inf s := by
  rcases ha with ⟨m1, e1, h1, rfl⟩ | rfl <;> rcases hb with ⟨m2, e2, h2, rfl⟩ | rfl
  · have hm : add (fin s m1 e1) (fin s m2 e2)
        = round s (m1 * 2 ^ (e1 - min e1 e2) + m2 * 2 ^ (e2 - min e1 e2)) (min e1 e2) 0 := by
      simp [add]
    rw [hm]
    have hne : m1 * 2 ^ (e1 - min e1 e2) + m2 * 2 ^ (e2 - min e1 e2) ≠ 0 := by
      have : 0 < m1 * 2 ^ (e1 - min e1 e2) := Nat.mul_pos (Nat.pos_of_ne_zero h1) (by positivity)
      omega
    rcases round_nonzero s _ (min e1 e2) 0 hne (Nat.zero_le _) with h | ⟨q, E, hq, h⟩
    · exact Or.inr h
    · exact Or.inl ⟨q, E, hq, h⟩
  · exact Or.inr rfl
  · exact Or.inr rfl
  · exact Or.inr (by simp [add])

/-- A rounded difference `a - b` with `a < 0 < b` is below zero. -/
theorem sub_neg_pos (a b : F32) (ha : a < 0) (hb : 0 < b) : a - b < 0 := by
  have hsub : a - b = add a (neg b) := rfl
  rw [hsub, lt_zero_iff]
  rw [lt_zero_iff] at ha
  rw [zero_lt_iff] at hb
  apply add_same_sign true a (neg b) ha
  rcases hb with ⟨m, e, hm, rfl⟩ | rfl
  · exact Or.inl ⟨m, e, hm, rfl⟩
  · exact Or.inr rfl

/-- A rounded difference `a - b` with `b < 0 < a` is above zero. -/
theorem sub_pos_neg (a b : F32) (ha : 0 < a) (hb : b < 0) : 0 < a - b := by
  have hsub : a - b = add a (neg b) := rfl
  rw [hsub, zero_lt_iff]
  rw [zero_lt_iff] at ha
  rw [lt_zero_iff] at hb
  apply add_same_sign false a (neg b) ha
  rcases hb with ⟨m, e, hm, rfl⟩ | rfl
  · exact Or.inl ⟨m, e, hm, rfl⟩
  · exact Or.inr rfl

end F32

/-! ## Segment clipping in rounded arithmetic -/

/-- The sign rules hold in a linearly ordered field. -/
theorem SignLaws.ofField {F : Type} [LinearOrderedField F] : SignLaws F where
  mul_neg := by
    intro a b h
    rcases lt_trichotomy a 0 with ha | ha | ha
    · left
      refine ⟨ha, ?_⟩
      by_contra hb
      exact absurd h (not_lt.mpr (mul_nonneg_of_nonpos_of_nonpos ha.le (not_lt.mp hb)))
    · rw [ha, zero_mul] at h
      exact absurd h (lt_irrefl _)
    · right
      refine ⟨ha, ?_⟩
      by_contra hb
      exact absurd h (not_lt.mpr (mul_nonneg ha.le (not_lt.mp hb)))
  le_of_neg := fun _ h => h.le
  not_le_of_pos := fun _ h => not_le.mpr h
  not_ge_of_neg := fun _ h => not_le.mpr h
  sub_neg_pos := fun a b ha hb => by linarith
  sub_pos_neg := fun a b ha hb => by linarith

/-- The sign rules hold in binary32. -/
theorem SignLaws.binary32 : SignLaws F32 where
  mul_neg := F32.mul_neg_cases
  le_of_neg := F32.le_of_neg
  not_le_of_pos := F32.not_le_of_pos
  not_ge_of_neg := F32.not_ge_of_neg
  sub_neg_pos := F32.sub_neg_pos
  sub_pos_neg := F32.sub_pos_neg

section RoundedClip

variable {F : Type} [Zero F] [Add F] [Sub F] [Mul F] [Div F] [LT F] [LE F]
  [DecidableRel (fun a b : F => a < b)] [DecidableRel (fun a b : F => a ≤ b)]

/-- Without the intersection branch the clip keeps the inputs that pass the test
`distance <= 0`, in order. -/
theorem ClipSegmentToLine_no_crossing (vIn : ClipVertex F × ClipVertex F) (normal : Vec2 F)
    (offset : F) (clipEdge : Nat)
    (h : ¬ distance0 vIn normal offset * distance1 vIn normal offset < 0) :
    ClipSegmentToLine vIn normal offset clipEdge =
      (if distance0 vIn normal offset ≤ 0 then [vIn.1] else [])
        ++ (if distance1 vIn normal offset ≤ 0 then [vIn.2] else []) := by
  unfold ClipSegmentToLine
  dsimp only
  rw [if_neg h]
  split_ifs <;> rfl

/-- With the sign rules, the intersection branch is entered with one input kept and
the other one in front of the line; the output is the kept input followed by the
interpolated point. -/
theorem ClipSegmentToLine_crossing_cases (laws : SignLaws F) (vIn : ClipVertex F × ClipVertex F)
    (normal : Vec2 F) (offset : F) (clipEdge : Nat)
    (h : distance0 vIn normal offset * distance1 vIn normal offset < 0) :
    (distance0 vIn normal offset < 0 ∧ 0 < distance1 vIn normal offset ∧
        ClipSegmentToLine vIn normal offset clipEdge =
          [vIn.1, ⟨vIn.1.v + smul (interp vIn normal offset) (vIn.2.v - vIn.1.v),
                   { vIn.2.fp with outEdge1 := clipEdge, outEdge2 := NO_EDGE }⟩]) ∨
    (0 < distance0 vIn normal offset ∧ distance1 vIn normal offset < 0 ∧
        ClipSegmentToLine vIn normal offset clipEdge =
          [vIn.2, ⟨vIn.1.v + smul (interp vIn normal offset) (vIn.2.v - vIn.1.v),
                   { vIn.1.fp with inEdge1 := clipEdge, inEdge2 := NO_EDGE }⟩]) := by
  rcases laws.mul_neg _ _ h with ⟨h0, h1⟩ | ⟨h0, h1⟩
  · left
    refine ⟨h0, h1, ?_⟩
    have c0 : distance0 vIn normal offset ≤ 0 := laws.le_of_neg _ h0
    have c1 : ¬ distance1 vIn normal offset ≤ 0 := laws.not_le_of_pos _ h1
    have cp : ¬ distance0 vIn normal offset > 0 := fun hp => laws.not_le_of_pos _ hp c0
    unfold ClipSegmentToLine
    dsimp only
    rw [if_pos h, if_pos c0, if_neg c1, if_neg cp]
    rfl
  · right
    refine ⟨h0, h1, ?_⟩
    have c0 : ¬ distance0 vIn normal offset ≤ 0 := laws.not_le_of_pos _ h0
    have c1 : distance1 vIn normal offset ≤ 0 := laws.le_of_neg _ h1
    unfold ClipSegmentToLine
    dsimp only
    rw [if_pos h, if_neg c0, if_pos c1, if_pos h0]
    rfl

/-- C5: for every input of `ClipSegmentToLine`, in any arithmetic with the sign rules
(exact or binary32): the returned count is 0, 1 or 2; when both inputs were kept the
intersection branch is not entered, so at most two slots of `vOut` are written;
inside that branch the denominator `distance0 - distance1` of `interp` is not a zero;
and every output is a kept input, whose signed distance is at most 0, or the
interpolated point `vIn[0].v + interp * (vIn[1].v - vIn[0].v)`.  Nothing is claimed
about the signed distance of the interpolated point. -/
theorem ClipSegmentToLine_kept_behind (laws : SignLaws F) (vIn : ClipVertex F × ClipVertex F)
    (normal : Vec2 F) (offset : F) (clipEdge : Nat) :
    ((ClipSegmentToLine vIn normal offset clipEdge).length = 0 ∨
      (ClipSegmentToLine vIn normal offset clipEdge).length = 1 ∨
      (ClipSegmentToLine vIn normal offset clipEdge).length = 2) ∧
    (distance0 vIn normal offset ≤ 0 → distance1 vIn normal offset ≤ 0 →
      ¬ (distance0 vIn normal offset * distance1 vIn normal offset < 0) ∧
      ClipSegmentToLine vIn normal offset clipEdge = [vIn.1, vIn.2]) ∧
    (distance0 vIn normal offset * distance1 vIn normal offset < 0 →
      ¬ (distance0 vIn normal offset - distance1 vIn normal offset ≤ 0 ∧
          0 ≤ distance0 vIn normal offset - distance1 vIn normal offset)) ∧
    (∀ p ∈ ClipSegmentToLine vIn normal offset clipEdge,
      (p = vIn.1 ∧ Dot normal p.v - offset ≤ 0) ∨ (p = vIn.2 ∧ Dot normal p.v - offset ≤ 0) ∨
      (distance0 vIn normal offset * distance1 vIn normal offset < 0 ∧
        p.v = vIn.1.v + smul (interp vIn normal offset) (vIn.2.v - vIn.1.v))) := by
  have hkept : distance0 vIn normal offset ≤ 0 → distance1 vIn normal offset ≤ 0 →
      ¬ (distance0 vIn normal offset * distance1 vIn normal offset < 0) := by
    intro h0 h1 hm
    rcases laws.mul_neg _ _ hm with ⟨_, hp⟩ | ⟨hp, _⟩
    · exact laws.not_le_of_pos _ hp h1
    · exact laws.not_le_of_pos _ hp h0
  refine ⟨?_, ?_, ?_, ?_⟩
  · by_cases hm : distance0 vIn normal offset * distance1 vIn normal offset < 0
    · rcases ClipSegmentToLine_crossing_cases laws vIn normal offset clipEdge hm with
        c | c <;> rw [c.2.2] <;> exact Or.inr (Or.inr rfl)
    · rw [ClipSegmentToLine_no_crossing vIn normal offset clipEdge hm]
      split_ifs
      · exact Or.inr (Or.inr rfl)
      · exact Or.inr (Or.inl rfl)
      · exact Or.inr (Or.inl rfl)
      · exact Or.inl rfl
  · intro h0 h1
    refine ⟨hkept h0 h1, ?_⟩
    rw [ClipSegmentToLine_no_crossing vIn normal offset clipEdge (hkept h0 h1), if_pos h0,
      if_pos h1]
    rfl
  · intro hm hz
    rcases laws.mul_neg _ _ hm with ⟨h0, h1⟩ | ⟨h0, h1⟩
    · exact laws.not_ge_of_neg _ (laws.sub_neg_pos _ _ h0 h1) hz.2
    · exact laws.not_le_of_pos _ (laws.sub_pos_neg _ _ h0 h1) hz.1
  · intro p hp
    by_cases hm : distance0 vIn normal offset * distance1 vIn normal offset < 0
    · rcases ClipSegmentToLine_crossing_cases laws vIn normal offset clipEdge hm with c | c
      · rw [c.2.2] at hp
        simp only [List.mem_cons, List.mem_singleton, List.not_mem_nil, or_false] at hp
        rcases hp with rfl | rfl
        · exact Or.inl ⟨rfl, laws.le_of_neg _ c.1⟩
        · exact Or.inr (Or.inr ⟨hm, rfl⟩)
      · rw [c.2.2] at hp
        simp only [List.mem_cons, List.mem_singleton, List.not_mem_nil, or_false] at hp
        rcases hp with rfl | rfl
        · exact Or.inr (Or.inl ⟨rfl, laws.le_of_neg _ c.2.1⟩)
        · exact Or.inr (Or.inr ⟨hm, rfl⟩)
    · rw [ClipSegmentToLine_no_crossing vIn normal offset clipEdge hm] at hp
      rcases List.mem_append.mp hp with hp | hp
      · split_ifs at hp with h0
        · rw [List.mem_singleton] at hp
          subst hp
          exact Or.inl ⟨rfl, h0⟩
        · exact absurd hp (List.not_mem_nil _)
      · split_ifs at hp with h1
        · rw [List.mem_singleton] at hp
          subst hp
          exact Or.inr (Or.inl ⟨rfl, h1⟩)
        · exact absurd hp (List.not_mem_nil _)

/-- C16: when the product of the two signed distances, as the code computes it, is
below zero, `ClipSegmentToLine` returns 2 points, in any arithmetic with the sign
rules (exact or binary32): the two inputs are strictly on opposite sides of the line,
the kept input comes first, unmodified, and the second output is the interpolated
point `vIn[0].v + interp * (vIn[1].v - vIn[0].v)`, `interp` being the quotient of
`distance0` by the non-zero `distance0 - distance1`.  If point 0 was in front the
second output carries `vIn[0]`'s feature with `inEdge1 := clipEdge`,
`inEdge2 := NO_EDGE`; if point 1 was in front it carries `vIn[1]`'s feature with
`outEdge1 := clipEdge`, `outEdge2 := NO_EDGE`. -/
theorem ClipSegmentToLine_crossing (laws : SignLaws F) (vIn : ClipVertex F × ClipVertex F)
    (normal : Vec2 F) (offset : F) (clipEdge : Nat)
    (h : distance0 vIn normal offset * distance1 vIn normal offset < 0) :
    (ClipSegmentToLine vIn normal offset clipEdge).length = 2 ∧
    ((distance0 vIn normal offset < 0 ∧ 0 < distance1 vIn normal offset) ∨
      (0 < distance0 vIn normal offset ∧ distance1 vIn normal offset < 0)) ∧
    interp vIn normal offset
      = distance0 vIn normal offset
          / (distance0 vIn normal offset - distance1 vIn normal offset) ∧
    ¬ (distance0 vIn normal offset - distance1 vIn normal offset ≤ 0 ∧
        0 ≤ distance0 vIn normal offset - distance1 vIn normal offset) ∧
    (distance0 vIn normal offset > 0 →
      distance1 vIn normal offset ≤ 0 ∧
      ClipSegmentToLine vIn normal offset clipEdge =
        [vIn.2, ⟨vIn.1.v + smul (interp vIn normal offset) (vIn.2.v - vIn.1.v),
                 { inEdge1 := clipEdge, outEdge1 := vIn.1.fp.outEdge1,
                   inEdge2 := NO_EDGE, outEdge2 := vIn.1.fp.outEdge2 }⟩]) ∧
    (distance1 vIn normal offset > 0 →
      distance0 vIn normal offset ≤ 0 ∧
      ClipSegmentToLine vIn normal offset clipEdge =
        [vIn.1, ⟨vIn.1.v + smul (interp vIn normal offset) (vIn.2.v - vIn.1.v),
                 { inEdge1 := vIn.2.fp.inEdge1, outEdge1 := clipEdge,
                   inEdge2 := vIn.2.fp.inEdge2, outEdge2 := NO_EDGE }⟩]) := by
  refine ⟨?_, ?_, rfl, ?_, ?_, ?_⟩
  · rcases ClipSegmentToLine_crossing_cases laws vIn normal offset clipEdge h with
      c | c <;> rw [c.2.2] <;> rfl
  · rcases ClipSegmentToLine_crossing_cases laws vIn normal offset clipEdge h with c | c
    · exact Or.inl ⟨c.1, c.2.1⟩
    · exact Or.inr ⟨c.1, c.2.1⟩
  · intro hz
    rcases laws.mul_neg _ _ h with ⟨h0, h1⟩ | ⟨h0, h1⟩
    · exact laws.not_ge_of_neg _ (laws.sub_neg_pos _ _ h0 h1) hz.2
    · exact laws.not_le_of_pos _ (laws.sub_pos_neg _ _ h0 h1) hz.1
  · intro h0
    rcases ClipSegmentToLine_crossing_cases laws vIn normal offset clipEdge h with c | c
    · exact absurd (laws.le_of_neg _ c.1) (laws.not_le_of_pos _ h0)
    · exact ⟨laws.le_of_neg _ c.2.1, c.2.2⟩
  · intro h1
    rcases ClipSegmentToLine_crossing_cases laws vIn normal offset clipEdge h with c | c
    · exact ⟨laws.le_of_neg _ c.1, c.2.2⟩
    · exact absurd (laws.le_of_neg _ c.2.1) (laws.not_le_of_pos _ h1)

end RoundedClip

theorem ClipSegmentToLine_kept_behind_witness :
    distance0 crossingSegment32 ⟨0, 1⟩ 0.375 * distance1 crossingSegment32 ⟨0, 1⟩ 0.375 < 0 ∧
    ¬ (distance0 crossingSegment32 ⟨0, 1⟩ 0.375 - distance1 crossingSegment32 ⟨0, 1⟩ 0.375 ≤ 0 ∧
        0 ≤ distance0 crossingSegment32 ⟨0, 1⟩ 0.375
              - distance1 crossingSegment32 ⟨0, 1⟩ 0.375) :=
  ⟨by decide!,
   (ClipSegmentToLine_kept_behind SignLaws.binary32 crossingSegment32 ⟨0, 1⟩ 0.375 EDGE1).2.2.1
    (by decide!)⟩

/-- Counterexample to C5 as stated, in binary32: clipping the segment from (0, -0.5) to
(1, 1.125) against the line y = 0.375 returns the first end point and the interpolated
point (0.538461566, 0.37500006), which is in front of the line: its signed distance,
computed or exact, is 2^(-24) > 0. -/
theorem ClipSegmentToLine_point_in_front :
    ClipSegmentToLine crossingSegment32 ⟨0, 1⟩ 0.375 EDGE1 =
      [crossingSegment32.1,
       ⟨⟨F32.fin false 9033886 125, F32.fin false 12582914 124⟩, ⟨0, EDGE1, EDGE2, NO_EDGE⟩⟩] ∧
    ¬ (∀ p ∈ ClipSegmentToLine crossingSegment32 ⟨0, 1⟩ 0.375 EDGE1,
        Dot ⟨0, 1⟩ p.v - 0.375 ≤ 0) ∧
    F32.toRat (0.375 : F32) = 3 / 8 ∧
    (0 : ℚ) * (F32.fin false 9033886 125).toRat + 1 * (F32.fin false 12582914 124).toRat - 3 / 8
      = 1 / 2 ^ 24 :=
  ⟨by decide!, by decide!, by
    have h : (0.375 : F32) = F32.fin false 12582912 124 := by decide!
    rw [h]
    norm_num [F32.toRat], by norm_num [F32.toRat]⟩

theorem ClipSegmentToLine_crossing_witness :
    distance0 crossingSegment32 ⟨0, 1⟩ 0.375 * distance1 crossingSegment32 ⟨0, 1⟩ 0.375 < 0 ∧
    (ClipSegmentToLine crossingSegment32 ⟨0, 1⟩ 0.375 EDGE1).length = 2 :=
  ⟨by decide!,
   (ClipSegmentToLine_crossing SignLaws.binary32 crossingSegment32 ⟨0, 1⟩ 0.375 EDGE1
    (by decide!)).1⟩

/-- Counterexample to C16 as stated, in binary32.  The end points (0, -1e-23) and
(1, 1e-23) are strictly on opposite sides of the line y = 0, but the product of the two
distances underflows to -0, the intersection branch is skipped and one point is
returned.  For the segment from (0, -1) to (1, 1e-9) the denominator rounds to -1 and
the interpolation parameter is exactly 1.  For the segment from (0, -0.5) to (1, 1.125)
and the line y = 0.375 the second output has signed distance 2^(-24), not 0. -/
theorem ClipSegmentToLine_crossing_missed :
    (distance0 tinySegment32 ⟨0, 1⟩ 0 < 0 ∧ 0 < distance1 tinySegment32 ⟨0, 1⟩ 0 ∧
      ¬ (distance0 tinySegment32 ⟨0, 1⟩ 0 * distance1 tinySegment32 ⟨0, 1⟩ 0 < 0) ∧
      ClipSegmentToLine tinySegment32 ⟨0, 1⟩ 0 EDGE1 = [tinySegment32.1]) ∧
    (distance0 steepSegment32 ⟨0, 1⟩ 0 < 0 ∧ 0 < distance1 steepSegment32 ⟨0, 1⟩ 0 ∧
      (ClipSegmentToLine steepSegment32 ⟨0, 1⟩ 0 EDGE1).length = 2 ∧
      interp steepSegment32 ⟨0, 1⟩ 0 = 1) ∧
    (distance0 crossingSegment32 ⟨0, 1⟩ 0.375 < 0 ∧
      0 < distance1 crossingSegment32 ⟨0, 1⟩ 0.375 ∧
      ClipSegmentToLine crossingSegment32 ⟨0, 1⟩ 0.375 EDGE1 =
        [crossingSegment32.1,
         ⟨⟨F32.fin false 9033886 125, F32.fin false 12582914 124⟩,
          ⟨0, EDGE1, EDGE2, NO_EDGE⟩⟩] ∧
      Dot ⟨0, 1⟩ (⟨F32.fin false 9033886 125, F32.fin false 12582914 124⟩ : Vec2 F32) - 0.375
        = F32.fin false 8388608 102 ∧
      (F32.fin false 8388608 102).toRat = 1 / 2 ^ 24) :=
  ⟨by decide!, by decide!, by decide!, by decide!, by decide!, by decide!,
   by norm_num [F32.toRat]⟩

/-! ## The axis selection and the circle test in rounded arithmetic -/

section RoundedAxis

variable {F : Type} [Zero F] [Add F] [Mul F] [Neg F] [LT F]
  [DecidableRel (fun a b : F => a < b)] [OfScientific F]

end RoundedAxis

/-- Counterexample to C18 as stated, in binary32: for the unrotated 2 x 2 boxes at
(0, 0) and (0.5, 0.585000038) all four face separations are at most 0, the face
separations of A are (-1.5, -1.41499996), the threshold of the first test rounds to
-1.41499996, so A's y-face is tested and not selected and `FACE_A_X` stays selected
with `s = -1.5`, while `f = -1.41499996` is greater than `0.95*s + 0.01*h = -1.415`
(`h = 1`). -/
theorem BNBCollide_bestAxis_rounded_threshold :
    BNBCollide.faceA libm32 (box32 0 0 2.0 2.0) (box32 0.5 0.585000038 2.0 2.0)
      = ⟨F32.fin true 12582912 126, F32.fin true 11869880 126⟩ ∧
    BNBCollide.faceB libm32 (box32 0 0 2.0 2.0) (box32 0.5 0.585000038 2.0 2.0)
      = ⟨F32.fin true 12582912 126, F32.fin true 11869880 126⟩ ∧
    smul 0.5 (box32 0 0 2.0 2.0).width = ⟨F32.fin false 8388608 126, F32.fin false 8388608 126⟩ ∧
    (F32.fin true 12582912 126 ≤ 0 ∧ F32.fin true 11869880 126 ≤ 0 ∧
      (0 : F32) ≤ F32.fin false 8388608 126) ∧
    relativeTol * F32.fin true 12582912 126 + absoluteTol * F32.fin false 8388608 126
      = F32.fin true 11869880 126 ∧
    (BNBCollide.best libm32 (box32 0 0 2.0 2.0) (box32 0.5 0.585000038 2.0 2.0)).axis
      = Axis.FACE_A_X ∧
    (BNBCollide.best libm32 (box32 0 0 2.0 2.0) (box32 0.5 0.585000038 2.0 2.0)).separation
      = F32.fin true 12582912 126 ∧
    ¬ ((F32.fin true 11869880 126).toRat
        ≤ 0.95 * (F32.fin true 12582912 126).toRat + 0.01 * (F32.fin false 8388608 126).toRat) :=
  ⟨by decide!, by decide!, by decide!, by decide!, by decide!, by decide!, by decide!,
   by norm_num [F32.toRat]⟩

section RoundedCircles

variable {F : Type} [Zero F] [One F] [Add F] [Sub F] [Mul F] [Div F] [LT F]
  [DecidableRel (fun a b : F => a < b)] [OfScientific F]

/-- The run of `CNCCollide`, in any arithmetic: the test of line 346 decides between
the early return and the single contact. -/
theorem CNCCollide_run (m : Libm F) (contacts : Nat → Contact F) (bodyA bodyB : Body F) :
    CNCCollide m contacts bodyA bodyB =
      if Dot (bodyB.position - bodyA.position) (bodyB.position - bodyA.position)
          > (bodyA.width.x * 0.5 + bodyB.width.x * 0.5)
              * (bodyA.width.x * 0.5 + bodyB.width.x * 0.5) then
        ⟨0, contacts, bodyA, bodyB⟩
      else
        ⟨1, Function.update contacts 0
          { separation :=
              Dot ((bodyB.position - smul (bodyB.width.x * 0.5)
                      ((bodyB.position - bodyA.position).Normalize m))
                    - (bodyA.position + smul (bodyA.width.x * 0.5)
                      ((bodyB.position - bodyA.position).Normalize m)))
                  ((bodyB.position - bodyA.position).Normalize m),
            normal := (bodyB.position - bodyA.position).Normalize m,
            position := smul 0.5
              ((bodyA.position + smul (bodyA.width.x * 0.5)
                  ((bodyB.position - bodyA.position).Normalize m))
                + (bodyB.position - smul (bodyB.width.x * 0.5)
                  ((bodyB.position - bodyA.position).Normalize m))),
            feature := ⟨0, 0, 0, 0⟩ },
        { bodyA with isItem := true }, { bodyB with isItem := true }⟩ := rfl

/-- C4: `CNCCollide` (circle against circle, `rA = widthA.x * 0.5`,
`rB = widthB.x * 0.5`, `dp = posB - posA`), in any arithmetic: it returns 1 exactly
when the test `Dot(dp,dp) > (rA+rB)*(rA+rB)` fails for the values the code computes,
and returns 0, leaving the buffer alone, when the test succeeds; when it returns 1
the single contact has normal `Normalize(dp)` (that is `dp` scaled by
`1 / Length(dp)`), separation `Dot(cB - cA, normal)`, position `0.5 * (cA + cB)` for
the surface points `cA = posA + rA*normal` and `cB = posB - rB*normal`, and a feature
whose packed value is 0. -/
theorem CNCCollide_computed (m : Libm F) (contacts : Nat → Contact F) (bodyA bodyB : Body F) :
    ((CNCCollide m contacts bodyA bodyB).ret = 1 ↔
      ¬ (Dot (bodyB.position - bodyA.position) (bodyB.position - bodyA.position)
          > (bodyA.width.x * 0.5 + bodyB.width.x * 0.5)
              * (bodyA.width.x * 0.5 + bodyB.width.x * 0.5))) ∧
    (Dot (bodyB.position - bodyA.position) (bodyB.position - bodyA.position)
          > (bodyA.width.x * 0.5 + bodyB.width.x * 0.5)
              * (bodyA.width.x * 0.5 + bodyB.width.x * 0.5) →
      (CNCCollide m contacts bodyA bodyB).ret = 0 ∧
      (CNCCollide m contacts bodyA bodyB).contacts = contacts) ∧
    ((CNCCollide m contacts bodyA bodyB).ret = 1 →
      ((CNCCollide m contacts bodyA bodyB).contacts 0).normal
        = smul (1 / (bodyB.position - bodyA.position).Length m)
            (bodyB.position - bodyA.position) ∧
      ((CNCCollide m contacts bodyA bodyB).contacts 0).separation
        = Dot ((bodyB.position - smul (bodyB.width.x * 0.5)
                  ((CNCCollide m contacts bodyA bodyB).contacts 0).normal)
                - (bodyA.position + smul (bodyA.width.x * 0.5)
                  ((CNCCollide m contacts bodyA bodyB).contacts 0).normal))
              ((CNCCollide m contacts bodyA bodyB).contacts 0).normal ∧
      ((CNCCollide m contacts bodyA bodyB).contacts 0).position
        = smul 0.5
            ((bodyA.position + smul (bodyA.width.x * 0.5)
                ((CNCCollide m contacts bodyA bodyB).contacts 0).normal)
              + (bodyB.position - smul (bodyB.width.x * 0.5)
                ((CNCCollide m contacts bodyA bodyB).contacts 0).normal)) ∧
      ((CNCCollide m contacts bodyA bodyB).contacts 0).feature.value = 0) := by
  rw [CNCCollide_run]
  by_cases h : Dot (bodyB.position - bodyA.position) (bodyB.position - bodyA.position)
          > (bodyA.width.x * 0.5 + bodyB.width.x * 0.5)
              * (bodyA.width.x * 0.5 + bodyB.width.x * 0.5)
  · rw [if_pos h]
    exact ⟨⟨fun h0 => absurd h0 Nat.zero_ne_one, fun h1 => absurd h h1⟩,
      fun _ => ⟨rfl, rfl⟩, fun h0 => absurd h0 Nat.zero_ne_one⟩
  · rw [if_neg h]
    refine ⟨⟨fun _ => h, fun _ => rfl⟩, fun h1 => absurd h1 h, fun _ => ?_⟩
    dsimp only
    rw [Function.update_same]
    exact ⟨rfl, rfl, rfl, rfl⟩

end RoundedCircles

theorem CNCCollide_computed_witness :
    (CNCCollide libm32 zeroContacts32 (circle32 0 0 2.0) (circle32 0.5 0 2.0)).ret = 1 ∧
    ((CNCCollide libm32 zeroContacts32 (circle32 0 0 2.0) (circle32 0.5 0 2.0)).contacts
        0).feature.value = 0 :=
  have h : (CNCCollide libm32 zeroContacts32 (circle32 0 0 2.0) (circle32 0.5 0 2.0)).ret = 1 :=
    by decide!
  ⟨h, ((CNCCollide_computed libm32 zeroContacts32 (circle32 0 0 2.0) (circle32 0.5 0 2.0)).2.2
    h).2.2.2⟩

/-- Counterexample to C4 as stated, in binary32.  Rounding: for the circles of radii
1 and 3 * 2^(-25) with centres (0, 0) and (1 + 2^(-23), 0) the squared distance and the
squared sum of the radii both round to 1 + 2^(-22), so 1 is returned although
`Dot(dp,dp) > (rA+rB)^2` (in exact arithmetic the same circles give 0).  Overflow: for
the circles of diameter 2e19 with centres (0, 0) and (1e20, 0) the two squares are both
+infinity, and 1 is returned although the circles are 8e19 apart. -/
theorem CNCCollide_rounded_test :
    ((CNCCollide libm32 zeroContacts32 (circle32 0 0 2.0)
        (circle32 1.0000001192092896 0 1.78813934326171875e-7)).ret = 1 ∧
      Dot ((circle32 1.0000001192092896 0 1.78813934326171875e-7).position
            - (circle32 0 0 2.0).position)
          ((circle32 1.0000001192092896 0 1.78813934326171875e-7).position
            - (circle32 0 0 2.0).position) = F32.fin false 8388610 126 ∧
      ((circle32 0 0 2.0).width.x * 0.5
          + (circle32 1.0000001192092896 0 1.78813934326171875e-7).width.x * 0.5)
        * ((circle32 0 0 2.0).width.x * 0.5
          + (circle32 1.0000001192092896 0 1.78813934326171875e-7).width.x * 0.5)
        = F32.fin false 8388610 126 ∧
      F32.toRat (2.0 : F32) = 2 ∧
      F32.toRat (1.0000001192092896 : F32) = 1 + 1 / 2 ^ 23 ∧
      F32.toRat (1.78813934326171875e-7 : F32) = 3 / 2 ^ 24 ∧
      ¬ (Dot ((circleAt (1 + 1 / 2 ^ 23) 0 (3 / 2 ^ 24) : Body ℚ).position
              - (circleAt 0 0 2 : Body ℚ).position)
            ((circleAt (1 + 1 / 2 ^ 23) 0 (3 / 2 ^ 24) : Body ℚ).position
              - (circleAt 0 0 2 : Body ℚ).position)
          ≤ ((circleAt 0 0 2 : Body ℚ).width.x / 2
              + (circleAt (1 + 1 / 2 ^ 23) 0 (3 / 2 ^ 24) : Body ℚ).width.x / 2) ^ 2) ∧
      (CNCCollide libmQ zeroContacts (circleAt 0 0 2)
        (circleAt (1 + 1 / 2 ^ 23) 0 (3 / 2 ^ 24))).ret = 0) ∧
    ((CNCCollide libm32 zeroContacts32 (circle32 0 0 2e19) (circle32 1e20 0 2e19)).ret = 1 ∧
      Dot ((circle32 1e20 0 2e19).position - (circle32 0 0 2e19).position)
          ((circle32 1e20 0 2e19).position - (circle32 0 0 2e19).position) = F32.inf false ∧
      ((circle32 0 0 2e19).width.x * 0.5 + (circle32 1e20 0 2e19).width.x * 0.5)
        * ((circle32 0 0 2e19).width.x * 0.5 + (circle32 1e20 0 2e19).width.x * 0.5)
        = F32.inf false ∧
      F32.toRat (1e20 : F32) = 100000002004087734272 ∧
      F32.toRat (2e19 : F32) = 19999999961012895744 ∧
      ¬ ((100000002004087734272 - 0 : ℚ) ^ 2 + (0 - 0) ^ 2
          ≤ (19999999961012895744 / 2 + 19999999961012895744 / 2) ^ 2)) := by
  have l1 : (2.0 : F32) = F32.fin false 8388608 127 := by decide!
  have l2 : (1.0000001192092896 : F32) = F32.fin false 8388609 126 := by decide!
  have l3 : (1.78813934326171875e-7 : F32) = F32.fin false 12582912 103 := by decide!
  have l4 : (1e20 : F32) = F32.fin false 11368684 192 := by decide!
  have l5 : (2e19 : F32) = F32.fin false 9094947 190 := by decide!
  refine ⟨⟨by decide!, by decide!, by decide!, ?_, ?_, ?_, ?_, ?_⟩,
    ⟨by decide!, by decide!, by decide!, ?_, ?_, ?_⟩⟩
  · rw [l1]; norm_num [F32.toRat]
  · rw [l2]; norm_num [F32.toRat]
  · rw [l3]; norm_num [F32.toRat]
  · norm_num [circleAt, Dot, Vec2.sub_x, Vec2.sub_y]
  · rw [CNCCollide_miss]
    norm_num [circleAt, Dot, Vec2.sub_x, Vec2.sub_y]
  · rw [l4]; norm_num [F32.toRat]
  · rw [l5]; norm_num [F32.toRat]
  · norm_num

end Box2DLite
